import Mathlib

/-!
# neopixelNodelayButtonEEPROM: a shallow embedding of `src/main.cpp`

The sketch is a single control loop over global variables.  The embedding keeps
every global (and every function-local `static`) of the source as a field of
`State`, models the EEPROM and the pixel strip as explicit values, and turns
`setup()` and `loop()` into functions on `State`.

Machine arithmetic follows the AVR targets the sketch selects (Beetle,
Digispark, Nano): `uint8_t` is reduced mod 2^8, `uint16_t` and `int` mod 2^16,
`unsigned long` mod 2^32.  `eepromAddress` is an `int`; it is kept as an
unbounded `Int`, which is exact as long as `EEPROM.length()` stays below 2^15
(512 or 1024 on the supported boards).
-/

namespace NeoPixel

/-! ## Configuration constants (`#define`s of the source) -/

/-- Strip length, `#define LED_COUNT 74`. -/
def LED_COUNT : Nat := 74

/-- Poll period of the mode pin, `#define MODEDELAY 2000`. -/
def MODEDELAY : Nat := 2000

/-- Poll period of the toggle pin, `#define TOGGLEDELAY 200`. -/
def TOGGLEDELAY : Nat := 200

/-- Number of patterns, `#define TOTALPATTERNS 13`. -/
def TOTALPATTERNS : Nat := 13

/-- The literal `2` assigned in `setup()` under the comment "default pattern". -/
def DEFAULT_PATTERN : Nat := 2

/-! ## The EEPROM object

`EEPROM.read(idx)`, `EEPROM.write(idx, val)` and `EEPROM.length()` of the
Arduino core.  A cell is a byte.  The address is the `int` the sketch passes;
the persistent range is `[0, length)`.  The AVR core does not check the index:
it goes to the EEPROM address register, which keeps only the implemented bits,
and the capacity of the boards the sketch selects is a power of two (512 or
1024), so an index names the cell `idx mod length`; `EEPROM.write(-1, val)`
lands on the last cell.  `writes` counts the calls of `EEPROM.write`. -/

/-- The byte store behind the `EEPROM` object. -/
structure EEPROM where
  /-- cell contents, by address -/
  cells : Int → Nat
  /-- value of `EEPROM.length()` -/
  length : Nat
  /-- number of `EEPROM.write` calls performed so far -/
  writes : Nat

namespace EEPROM

/-- The cell an index names: the address register keeps the implemented bits
of the index, `idx mod length`. -/
def cell (e : EEPROM) (idx : Int) : Int := idx % (e.length : Int)

/-- Byte returned by `EEPROM.read(idx)`. -/
def read (e : EEPROM) (idx : Int) : Nat := e.cells (e.cell idx) % 256

/-- Store after `EEPROM.write(idx, val)`; `val` is a `uint8_t`. -/
def write (e : EEPROM) (idx : Int) (val : Nat) : EEPROM :=
  { e with cells := fun i => if i = e.cell idx then val % 256 else e.cells i,
           writes := e.writes + 1 }

/-- The bytes of the persistent range `[0, length)`, in address order. -/
def image (e : EEPROM) : List Nat :=
  (List.range e.length).map (fun (i : Nat) => e.read (i : Int))

/-- A store whose persistent range holds the given bytes. -/
def ofList (l : List Nat) : EEPROM :=
  { cells := fun i => if i < 0 then 0 else l.getD i.toNat 0,
    length := l.length,
    writes := 0 }

end EEPROM

/-! ## The pixel strip (`Adafruit_NeoPixel strip`) -/

/-- The strip object: its length, its RAM buffer of packed colours and the
number of `strip.show()` calls performed so far. -/
structure Strip where
  /-- value of `strip.numPixels()` -/
  numLEDs : Nat
  /-- packed colour of every pixel of the RAM buffer -/
  pixels : Nat → Nat
  /-- number of `strip.show()` calls performed so far -/
  shows : Nat

namespace Strip

/-- Result of `strip.Color(r, g, b)`: the three bytes packed as `0xRRGGBB`. -/
def Color (r g b : Nat) : Nat := (r % 256) * 65536 + (g % 256) * 256 + b % 256

/-- Buffer after `strip.setPixelColor(n, c)`; `n` is a `uint16_t`, and an index
at or beyond the strip length is ignored by the library.  The strip is an RGB
one (`NEO_GRB`) at full brightness: the three colour bytes of `c` are stored
unscaled. -/
def setPixelColor (st : Strip) (n : Nat) (c : Nat) : Strip :=
  if n % 65536 < st.numLEDs then
    { st with pixels := fun i => if i = n % 65536 then c % 16777216 else st.pixels i }
  else st

/-- Buffer after `strip.clear()`. -/
def clear (st : Strip) : Strip := { st with pixels := fun _ => 0 }

/-- Strip after `strip.show()`. -/
def showPixels (st : Strip) : Strip := { st with shows := st.shows + 1 }

end Strip

/-! ## Global variables -/

/-- Every global of the sketch, the `static` locals of the renderers, and the
two device objects. -/
structure State where
  /-- global `unsigned long pixelPrevious` -/
  pixelPrevious : Nat
  /-- global `uint8_t pattern` -/
  pattern : Nat
  /-- global `unsigned long pixelInterval` -/
  pixelInterval : Nat
  /-- global `int pixelQueue` -/
  pixelQueue : Int
  /-- global `int pixelCycle` -/
  pixelCycle : Int
  /-- global `uint16_t pixelNumber` -/
  pixelNumber : Nat
  /-- global `unsigned long currentModeMillis` -/
  currentModeMillis : Nat
  /-- global `unsigned long currentToggleMillis` -/
  currentToggleMillis : Nat
  /-- global `unsigned long currentMillis` -/
  currentMillis : Nat
  /-- global `bool modeState` -/
  modeState : Bool
  /-- global `bool modeStatePrevious` -/
  modeStatePrevious : Bool
  /-- global `bool toggleState` -/
  toggleState : Bool
  /-- global `bool toggleStatePrevious` -/
  toggleStatePrevious : Bool
  /-- global `bool ledColorOff` -/
  ledColorOff : Bool
  /-- global `int eepromAddress` -/
  eepromAddress : Int
  /-- the `static uint16_t current_pixel` of `colorWipe` -/
  wipePixel : Nat
  /-- the `static uint16_t current_pixel` of `theaterChase` -/
  chasePixel : Nat
  /-- the `static uint16_t current_pixel` of `theaterChaseTricolor` -/
  tricolorPixel : Nat
  /-- the `static uint16_t current_pixel` of `theaterChaseTricolorWidth` -/
  widthPixel : Nat
  /-- the `static uint16_t current_pixel` of `theaterChaseTricolorSpaces` -/
  spacesPixel : Nat
  /-- the `EEPROM` object -/
  eeprom : EEPROM
  /-- the `strip` object -/
  strip : Strip

/-- The globals as their initialisers leave them, over a given EEPROM content;
the strip buffer is the zeroed buffer `strip.begin()` allocates. -/
def initState (e : EEPROM) : State :=
  { pixelPrevious := 0, pattern := 0, pixelInterval := 50, pixelQueue := 0,
    pixelCycle := 0, pixelNumber := LED_COUNT, currentModeMillis := 8000,
    currentToggleMillis := 0, currentMillis := 0, modeState := false,
    modeStatePrevious := false, toggleState := false,
    toggleStatePrevious := false, ledColorOff := false, eepromAddress := 0,
    wipePixel := 0, chasePixel := 0, tricolorPixel := 0, widthPixel := 0,
    spacesPixel := 0, eeprom := e,
    strip := { numLEDs := LED_COUNT, pixels := fun _ => 0, shows := 0 } }

/-! ## `setup()` -/

/-- One pass through the body of `while(!pattern)` in `setup()`. -/
def setupBody (s : State) : State :=
  let s1 := { s with pattern := s.eeprom.read s.eepromAddress }
  let s2 := if s1.pattern = 0 then { s1 with eepromAddress := s1.eepromAddress + 1 } else s1
  if (s2.eeprom.length : Int) ≤ s2.eepromAddress ∨ TOTALPATTERNS < s2.pattern then
    { s2 with eepromAddress := 0, pattern := DEFAULT_PATTERN,
              eeprom := s2.eeprom.write 0 DEFAULT_PATTERN }
  else s2

/-- The loop `while(!pattern) { ... }` of `setup()`. -/
def setupLoop (s : State) : State :=
  if s.pattern = 0 then setupLoop (setupBody s) else s
termination_by (if s.pattern = 0 then 1 + ((s.eeprom.length : Int) - s.eepromAddress).toNat else 0)
decreasing_by
  simp_wf
  rename_i h
  simp only [h, if_true]
  unfold setupBody
  simp only []
  split_ifs <;> simp_all [DEFAULT_PATTERN, EEPROM.write]
  omega

/-- The function `setup()`: the strip is shown once, then the pattern is loaded. -/
def setup (s : State) : State :=
  setupLoop { s with strip := s.strip.showPixels }

/-! ## The input handlers of `loop()` -/

/-- The statements `eepromAddress++; if (eepromAddress == EEPROM.length())
eepromAddress = 0;` of the commit in `loop()`. -/
def advanceAddress (len : Nat) (a : Int) : Int :=
  if a + 1 = (len : Int) then 0 else a + 1

/-- The body of the commit `if` in `loop()`: advance the address, write `0` to
`eepromAddress-1`, then write `pattern` to `eepromAddress`. -/
def commit (s : State) : State :=
  let a := advanceAddress s.eeprom.length s.eepromAddress
  { s with eepromAddress := a,
           eeprom := (s.eeprom.write (a - 1) 0).write a s.pattern }

/-- The statements `pattern++; if (pattern > TOTALPATTERNS) pattern = 1;` on
the `uint8_t pattern`. -/
def nextPattern (p : Nat) : Nat :=
  if TOTALPATTERNS < (p + 1) % 256 then 1 else (p + 1) % 256


/-! ## Machine integers and loops -/

/-- Conversion to `unsigned long` (32 bits). -/
def u32 (x : Int) : Nat := (x % 4294967296).toNat

/-- Conversion to `uint16_t` / `unsigned int` (16 bits). -/
def u16 (x : Int) : Nat := (x % 65536).toNat

/-- The unsigned 32-bit difference `a - b` of two `unsigned long` values. -/
def sub32 (a b : Nat) : Nat := u32 ((a : Int) - (b : Int))

/-- The loop `for (uint16_t i = lo; i < hi; i++) body(i)` for a 16-bit bound
`hi`: the counter reaches `hi` without wrapping, so the loop always ends. -/
def forRange (lo hi : Nat) (body : Nat → Strip → Strip) (st : Strip) : Strip :=
  (List.range' lo (hi - lo)).foldl (fun acc i => body i acc) st

/-- The loop `for (c = start; c < bound; c += step) body(c)` over a 16-bit
counter compared as unsigned with the `uint16_t` bound.  The counter wraps mod
2^16, so the loop need not end: `none` is "out of fuel", and a body that does
not return makes the loop not return. -/
def forStride (body : Nat → Strip → Option Strip) (bound step : Nat) :
    Nat → Nat → Strip → Option Strip
  | 0, _, _ => none
  | fuel + 1, c, st =>
    if c < bound then
      match body c st with
      | none => none
      | some st1 => forStride body bound step fuel ((c + step) % 65536) st1
    else some st

/-! ## Renderers -/

/-- The function `Wheel(byte WheelPos)`. -/
def Wheel (WheelPos : Nat) : Nat :=
  let p := 255 - WheelPos % 256
  if p < 85 then Strip.Color (255 - p * 3) 0 (p * 3)
  else if p < 170 then Strip.Color 0 ((p - 85) * 3) (255 - (p - 85) * 3)
  else Strip.Color ((p - 170) * 3) (255 - (p - 170) * 3) 0

/-- The function `solidColor(color)`. -/
def solidColor (color : Nat) (s : State) : State :=
  { s with strip :=
      (forRange 0 s.pixelNumber (fun i st => st.setPixelColor i color) s.strip).showPixels }

/-- The function `colorWipe(color, wait)`; `wait` is an `int`. -/
def colorWipe (color : Nat) (wait : Int) (s : State) : State :=
  let cp := (s.wipePixel + 1) % 65536
  let wrapped := decide (s.pixelNumber ≤ cp)
  let cp1 := if wrapped then 0 else cp
  let off := if wrapped then !s.ledColorOff else s.ledColorOff
  { s with pixelInterval := u32 wait, wipePixel := cp1, ledColorOff := off,
           strip := (s.strip.setPixelColor cp1 (if !off then color else 0)).showPixels }

/-- The function `theaterChase(color, wait)`. -/
def theaterChase (fuel : Nat) (color : Nat) (wait : Int) (s : State) : Option State :=
  (forStride (fun c st => some (st.setPixelColor c color)) s.pixelNumber 3 fuel
      s.chasePixel s.strip.clear).map fun st =>
    { s with pixelInterval := u32 wait, strip := st.showPixels,
             chasePixel := if 3 ≤ (s.chasePixel + 1) % 65536 then 0
                           else (s.chasePixel + 1) % 65536 }

/-- The function `theaterChaseTricolor(color1, color2, color3, wait)`. -/
def theaterChaseTricolor (fuel : Nat) (color1 color2 color3 : Nat) (wait : Int)
    (s : State) : Option State :=
  ((((forStride (fun c st => some (st.setPixelColor c color1)) s.pixelNumber 3 fuel
        s.tricolorPixel s.strip.clear).bind
      (forStride (fun c st => some (st.setPixelColor c color2)) s.pixelNumber 3 fuel
        ((s.tricolorPixel + 1) % 65536))).bind
      (forStride (fun c st => some (st.setPixelColor c color3)) s.pixelNumber 3 fuel
        ((s.tricolorPixel + 2) % 65536)))).map fun st =>
    { s with pixelInterval := u32 wait, strip := st.showPixels,
             tricolorPixel := if 3 ≤ (s.tricolorPixel + 1) % 65536 then 0
                              else (s.tricolorPixel + 1) % 65536 }

/-- The inner loop `for (uint16_t i = 0; i < width; i++) setPixelColor(c+i, color)`
of `theaterChaseTricolorWidth`; `width` is a `uint32_t`, and the 16-bit `i`
never reaches a `width` above 65535. -/
def fillRun (width color : Nat) (c : Nat) (st : Strip) : Option Strip :=
  if width < 65536 then
    some (forRange 0 width (fun i acc => acc.setPixelColor (c + i) color) st)
  else none

/-- One of the twelve loops `for (int16_t c = current_pixel + k*width; c <
pixelNumber; c += 6*width)` of `theaterChaseTricolorWidth`, `k` ranging over
`-6 .. 5`.  The offset is computed in `uint32_t` and narrowed to 16 bits; the
comparison with the `uint16_t pixelNumber` is unsigned, so the counter is kept
as its 16-bit pattern. -/
def widthPass (fuel : Nat) (s : State) (width color : Nat) (k : Int) (st : Strip) :
    Option Strip :=
  forStride (fillRun width color) s.pixelNumber (u32 (6 * (width : Int))) fuel
    (u16 (u32 ((s.widthPixel : Int) + k * (width : Int)))) st

/-- The function `theaterChaseTricolorWidth(color1, color2, color3, width, wait)`;
`width` is a `uint32_t`. -/
def theaterChaseTricolorWidth (fuel : Nat) (color1 color2 color3 width : Nat)
    (wait : Int) (s : State) : Option State :=
  let w := width % 4294967296
  ((((((((((((widthPass fuel s w color1 (-6) s.strip.clear).bind
      (widthPass fuel s w 0 (-5))).bind
      (widthPass fuel s w color2 (-4))).bind
      (widthPass fuel s w 0 (-3))).bind
      (widthPass fuel s w color3 (-2))).bind
      (widthPass fuel s w 0 (-1))).bind
      (widthPass fuel s w color1 0)).bind
      (widthPass fuel s w 0 1)).bind
      (widthPass fuel s w color2 2)).bind
      (widthPass fuel s w 0 3)).bind
      (widthPass fuel s w color3 4)).bind
      (widthPass fuel s w 0 5)).map fun st =>
    { s with pixelInterval := u32 wait, strip := st.showPixels,
             widthPixel := if u32 (6 * (w : Int)) ≤ (s.widthPixel + 1) % 65536 then 0
                           else (s.widthPixel + 1) % 65536 }

/-- The function `theaterChaseTricolorSpaces(color1, color2, color3, wait)`. -/
def theaterChaseTricolorSpaces (fuel : Nat) (color1 color2 color3 : Nat) (wait : Int)
    (s : State) : Option State :=
  (((((forStride (fun c st => some (st.setPixelColor c color1)) s.pixelNumber 6 fuel
        s.spacesPixel s.strip.clear).bind
      (forStride (fun c st => some (st.setPixelColor c color2)) s.pixelNumber 6 fuel
        ((s.spacesPixel + 1) % 65536))).bind
      (forStride (fun c st => some (st.setPixelColor c color3)) s.pixelNumber 6 fuel
        ((s.spacesPixel + 2) % 65536))).bind
      (forStride (fun c st => some
          (((st.setPixelColor c 0).setPixelColor (c + 1) 0).setPixelColor (c + 2) 0))
        s.pixelNumber 6 fuel ((s.spacesPixel + 3) % 65536)))).map fun st =>
    { s with pixelInterval := u32 wait, strip := st.showPixels,
             spacesPixel := if 6 ≤ (s.spacesPixel + 1) % 65536 then 0
                            else (s.spacesPixel + 1) % 65536 }

/-- The statements `pixelCycle++; if (pixelCycle >= 256) pixelCycle = 0;`. -/
def nextCycle (pixelCycle : Int) : Int :=
  if 256 ≤ pixelCycle + 1 then 0 else pixelCycle + 1

/-- The function `rainbow(wait)`; `wait` is a `uint8_t`. -/
def rainbow (wait : Nat) (s : State) : State :=
  { s with pixelInterval := if s.pixelInterval ≠ wait % 256 then wait % 256 else s.pixelInterval,
           strip := (forRange 0 s.pixelNumber
             (fun i st => st.setPixelColor i (Wheel (u16 ((i : Int) + s.pixelCycle) % 256)))
             s.strip).showPixels,
           pixelCycle := nextCycle s.pixelCycle }

/-- The function `rainbowFull(wait)`. -/
def rainbowFull (wait : Nat) (s : State) : State :=
  { s with pixelInterval := if s.pixelInterval ≠ wait % 256 then wait % 256 else s.pixelInterval,
           strip := (forRange 0 s.strip.numLEDs
             (fun i st => st.setPixelColor i
               (Wheel (u16 (((i * 256 % 65536 / s.strip.numLEDs : Nat) : Int) + s.pixelCycle) % 256)))
             s.strip).showPixels,
           pixelCycle := nextCycle s.pixelCycle }

/-- The function `theaterChaseRainbow(wait)`. -/
def theaterChaseRainbow (fuel : Nat) (wait : Nat) (s : State) : Option State :=
  ((forStride (fun i st => some (st.setPixelColor (u16 ((i : Int) + s.pixelQueue))
        (Wheel (u16 ((i : Int) + s.pixelCycle) % 255))))
      s.pixelNumber 3 fuel 0 s.strip).bind fun shown =>
    forStride (fun i st => some (st.setPixelColor (u16 ((i : Int) + s.pixelQueue))
        (Strip.Color 0 0 0)))
      s.pixelNumber 3 fuel 0 shown.showPixels).map fun st =>
    { s with pixelInterval := if s.pixelInterval ≠ wait % 256 then wait % 256 else s.pixelInterval,
             strip := st,
             pixelQueue := if 3 ≤ s.pixelQueue + 1 then 0 else s.pixelQueue + 1,
             pixelCycle := nextCycle s.pixelCycle }

/-- The function `flashingColor(color, wait)`. -/
def flashingColor (color : Nat) (wait : Nat) (s : State) : State :=
  let cyc : Int := if 1 < s.pixelCycle then 0 else s.pixelCycle
  if cyc ≠ 0 then
    { s with pixelInterval := wait % 256, pixelCycle := 0,
             strip := (forRange 0 s.pixelNumber (fun i st => st.setPixelColor i 0)
               s.strip).showPixels }
  else
    { s with pixelInterval := wait % 256, pixelCycle := 1,
             strip := (forRange 0 s.pixelNumber (fun i st => st.setPixelColor i color)
               s.strip).showPixels }

/-- The function `emergency(color1, color2, wait)`. -/
def emergency (color1 color2 : Nat) (wait : Nat) (s : State) : State :=
  let cyc : Int := if 1 < s.pixelCycle then 0 else s.pixelCycle
  if cyc ≠ 0 then
    { s with pixelInterval := wait % 256, pixelCycle := 0,
             strip := (forRange (s.pixelNumber / 2) s.pixelNumber
               (fun i st => st.setPixelColor i color2)
               (forRange 0 (s.pixelNumber / 2) (fun i st => st.setPixelColor i color1)
                 s.strip)).showPixels }
  else
    { s with pixelInterval := wait % 256, pixelCycle := 1,
             strip := (forRange (s.pixelNumber / 2) s.pixelNumber
               (fun i st => st.setPixelColor i color1)
               (forRange 0 (s.pixelNumber / 2) (fun i st => st.setPixelColor i color2)
                 s.strip)).showPixels }

/-- One pass of an inner loop body of `alternatingBands`:
`if (i < pixelNumber) { strip.setPixelColor(i, color); i++; }`, on the pair of
the outer counter `i` and the strip. -/
def bandStep (pixelNumber color : Nat) (p : Nat × Strip) : Nat × Strip :=
  if p.1 < pixelNumber then ((p.1 + 1) % 65536, p.2.setPixelColor p.1 color) else p

/-- The outer loop `for (uint16_t i = 0; i < pixelNumber; i = i)` of
`alternatingBands`, whose body runs the two inner loops of `width` passes each;
`none` is "out of fuel". -/
def bandsLoop (pixelNumber width first second : Nat) : Nat → Nat → Strip → Option Strip
  | 0, _, _ => none
  | fuel + 1, i, st =>
    if i < pixelNumber then
      bandsLoop pixelNumber width first second fuel
        ((bandStep pixelNumber second)^[width] ((bandStep pixelNumber first)^[width] (i, st))).1
        ((bandStep pixelNumber second)^[width] ((bandStep pixelNumber first)^[width] (i, st))).2
    else some st

/-- The function `alternatingBands(color1, color2, width, wait)`; `width` and
`wait` are `uint8_t`. -/
def alternatingBands (fuel : Nat) (color1 color2 : Nat) (width wait : Nat) (s : State) :
    Option State :=
  let cyc : Int := if 1 < s.pixelCycle then 0 else s.pixelCycle
  if cyc ≠ 0 then
    (bandsLoop s.pixelNumber (width % 256) color1 color2 fuel 0 s.strip).map fun st =>
      { s with pixelInterval := wait % 256, pixelCycle := 0, strip := st.showPixels }
  else
    (bandsLoop s.pixelNumber (width % 256) color2 color1 fuel 0 s.strip).map fun st =>
      { s with pixelInterval := wait % 256, pixelCycle := 1, strip := st.showPixels }

/-! ## `loop()` -/

/-- The `switch(pattern)` of `loop()`: one frame of the current pattern. -/
def renderFrame (fuel : Nat) (s : State) : Option State :=
  match s.pattern with
  | 1 => some { s with strip := s.strip.clear.showPixels }
  | 2 => some (rainbowFull 1 s)
  | 3 => theaterChaseTricolor fuel (Strip.Color 255 0 0) (Strip.Color 255 255 255)
      (Strip.Color 0 0 255) 50 s
  | 4 => some (rainbow 5 s)
  | 5 => theaterChaseRainbow fuel 50 s
  | 6 => some (colorWipe (Strip.Color 0 255 0) 10 s)
  | 7 => theaterChaseTricolorSpaces fuel (Strip.Color 255 0 0) (Strip.Color 255 255 255)
      (Strip.Color 0 0 255) 25 s
  | 8 => some (solidColor (Strip.Color 255 255 255) s)
  | 9 => some (flashingColor (Strip.Color 255 255 255) 200 s)
  | 10 => theaterChase fuel (Strip.Color 255 0 0) 50 s
  | 11 => some (emergency (Strip.Color 255 0 0) (Strip.Color 0 0 255) 100 s)
  | 12 => alternatingBands fuel (Strip.Color 245 200 66) (Strip.Color 0 0 255) 10 100 s
  | 13 => theaterChaseTricolorWidth fuel (Strip.Color 168 117 0) (Strip.Color 255 14 89)
      (Strip.Color 43 198 57) 3 20 s
  | _ => some (flashingColor (Strip.Color 255 0 0) 10 s)

/-- What one iteration of `loop()` reads from outside: the value of `millis()`
and the levels `digitalRead` returns for the two pins if they are read. -/
structure Inputs where
  /-- value returned by `millis()` -/
  millis : Nat
  /-- level of `TOGGLEPIN` -/
  togglePin : Bool
  /-- level of `MODEPIN` -/
  modePin : Bool

/-- The body of `if (currentMillis - currentModeMillis > MODEDELAY)`. -/
def modeBlock (s : State) (modePin : Bool) : State :=
  let s1 := { s with currentModeMillis := s.currentMillis,
                     modeStatePrevious := s.modeState, modeState := modePin }
  let s2 := if !s1.modeState then { s1 with pattern := nextPattern s1.pattern } else s1
  if s2.modeState && !s2.modeStatePrevious
      && (s2.pattern != s2.eeprom.read s2.eepromAddress) then
    commit s2
  else s2

/-- The mode part of `loop()`: the interval test and its block. -/
def modeHandler (s : State) (modePin : Bool) : State :=
  if MODEDELAY < sub32 s.currentMillis s.currentModeMillis then modeBlock s modePin else s

/-- The frame part of `loop()`: the interval test, `pixelPrevious` and the
`switch`. -/
def frameHandler (fuel : Nat) (s : State) : Option State :=
  if s.pixelInterval ≤ sub32 s.currentMillis s.pixelPrevious then
    renderFrame fuel { s with pixelPrevious := s.currentMillis }
  else some s

/-- The function `loop()`: one iteration.  The `else return;` of the toggle
block ends the iteration before the mode and frame parts. -/
def loop (fuel : Nat) (s : State) (inp : Inputs) : Option State :=
  let s0 := { s with currentMillis := inp.millis % 4294967296 }
  if TOGGLEDELAY < sub32 s0.currentMillis s0.currentToggleMillis then
    let s1 := { s0 with currentToggleMillis := s0.currentMillis,
                        toggleStatePrevious := s0.toggleState,
                        toggleState := inp.togglePin }
    if !s1.toggleState then
      frameHandler fuel (modeHandler { s1 with pattern := 1 } inp.modePin)
    else if !s1.toggleStatePrevious then
      frameHandler fuel
        (modeHandler { s1 with pattern := s1.eeprom.read s1.eepromAddress } inp.modePin)
    else some s1
  else frameHandler fuel (modeHandler s0 inp.modePin)

/-- A run of `loop()` iterations, one per element of the input list. -/
def run (fuel : Nat) : State → List Inputs → Option State
  | s, [] => some s
  | s, inp :: rest => (loop fuel s inp).bind fun s1 => run fuel s1 rest

/-! ## Derived notions used to state the properties -/

/-- Number of addresses of the persistent range whose byte is nonzero. -/
def EEPROM.nonzeroCount (e : EEPROM) : Nat :=
  (List.range e.length).countP (fun (i : Nat) => e.read (i : Int) != 0)

/-- A sequence of lock actions: each pattern of the list is made the current
pattern and committed at the address the previous commit left. -/
def commitAll (s : State) : List Nat → State
  | [] => s
  | p :: ps => commitAll (commit { s with pattern := p }) ps

/-- The state `setup()` adopts when it falls back to the default pattern. -/
def defaultAdopted (s : State) : State :=
  { s with eepromAddress := 0, pattern := DEFAULT_PATTERN,
           eeprom := s.eeprom.write 0 DEFAULT_PATTERN }

/-- The part of the state no renderer touches: the selected pattern, the store
and its cursor, the strip length, and the input-polling variables. -/
def SameControl (s t : State) : Prop :=
  t.pattern = s.pattern ∧ t.eeprom = s.eeprom ∧ t.eepromAddress = s.eepromAddress ∧
  t.pixelNumber = s.pixelNumber ∧ t.modeState = s.modeState ∧
  t.modeStatePrevious = s.modeStatePrevious ∧ t.toggleState = s.toggleState ∧
  t.toggleStatePrevious = s.toggleStatePrevious ∧ t.currentMillis = s.currentMillis ∧
  t.currentModeMillis = s.currentModeMillis ∧
  t.currentToggleMillis = s.currentToggleMillis

/-- The invariant of the control loop: the selected pattern and the byte at the
active storage address are both identifiers of the pattern table. -/
def PatternValid (s : State) : Prop :=
  1 ≤ s.pattern ∧ s.pattern ≤ TOTALPATTERNS ∧
  1 ≤ s.eeprom.read s.eepromAddress ∧ s.eeprom.read s.eepromAddress ≤ TOTALPATTERNS

/-- The statement `currentMillis = millis();` that opens `loop()`. -/
def tick (s : State) (inp : Inputs) : State :=
  { s with currentMillis := inp.millis % 4294967296 }

/-- The toggle part of `loop()` (its first `if` block) on its own: the state it
leaves, and whether it ended the iteration through `else return;`. -/
def toggleHandler (s : State) (togglePin : Bool) : State × Bool :=
  if TOGGLEDELAY < sub32 s.currentMillis s.currentToggleMillis then
    if !togglePin then
      ({ s with currentToggleMillis := s.currentMillis,
                toggleStatePrevious := s.toggleState, toggleState := togglePin,
                pattern := 1 }, false)
    else if !s.toggleState then
      ({ s with currentToggleMillis := s.currentMillis,
                toggleStatePrevious := s.toggleState, toggleState := togglePin,
                pattern := s.eeprom.read s.eepromAddress }, false)
    else
      ({ s with currentToggleMillis := s.currentMillis,
                toggleStatePrevious := s.toggleState, toggleState := togglePin }, true)
  else (s, false)

/-- The Toggle line is resampled in this iteration: the interval test of the
toggle block passes. -/
def toggleSampled (s : State) (inp : Inputs) : Bool :=
  decide (TOGGLEDELAY < sub32 (inp.millis % 4294967296) s.currentToggleMillis)

/-- The iteration ends at the `else return;` of the toggle block: the Toggle
line is resampled, reads high, and its previous level was high. -/
def returnsEarly (s : State) (inp : Inputs) : Bool :=
  toggleSampled s inp && inp.togglePin && s.toggleState

/-- The Mode line is resampled in this iteration: the iteration reaches the
mode block and its interval test passes. -/
def modeSampled (s : State) (inp : Inputs) : Bool :=
  !returnsEarly s inp &&
    decide (MODEDELAY < sub32 (inp.millis % 4294967296) s.currentModeMillis)

/-- A frame is rendered in this iteration: the iteration reaches the frame
test and the test passes. -/
def frameDue (s : State) (inp : Inputs) : Bool :=
  !returnsEarly s inp &&
    decide (s.pixelInterval ≤ sub32 (inp.millis % 4294967296) s.pixelPrevious)

/-- The pattern the toggle part hands on to the mode part. -/
def patternAfterToggle (s : State) (inp : Inputs) : Nat :=
  (toggleHandler (tick s inp) inp.togglePin).1.pattern

/-- The lock action: the Mode line is resampled, the sample is a rising edge
(previous level low, new level high), and the current pattern differs from the
byte stored at the active address. -/
def lockAction (s : State) (inp : Inputs) : Bool :=
  modeSampled s inp && !s.modeState && inp.modePin &&
    (patternAfterToggle s inp != s.eeprom.read s.eepromAddress)

/-- A run of `loop()` iterations that also tracks the locked pattern: the
pattern committed by the most recent lock action, or the initial value when
there has been none. -/
def runLocked (fuel : Nat) : State → Nat → List Inputs → Option (State × Nat)
  | s, locked, [] => some (s, locked)
  | s, locked, inp :: rest =>
    (loop fuel s inp).bind fun t =>
      runLocked fuel t (if lockAction s inp then patternAfterToggle s inp else locked) rest

/-- The frame period each case of the `switch` passes to its renderer as
`wait`; `none` for the two cases that pass no period (1, all off, and 8,
`solidColor`) and for identifiers outside the table. -/
def framePeriod : Nat → Option Nat
  | 2 => some 1
  | 3 => some 50
  | 4 => some 5
  | 5 => some 50
  | 6 => some 10
  | 7 => some 25
  | 9 => some 200
  | 10 => some 50
  | 11 => some 100
  | 12 => some 100
  | 13 => some 20
  | _ => none

/-- The invariant of the store cursor in the states reached after boot: the
active address is inside the persistent range and every address below it
holds 0. -/
def StoreInv (s : State) : Prop :=
  0 ≤ s.eepromAddress ∧ s.eepromAddress < (s.eeprom.length : Int) ∧
  ∀ j : Int, 0 ≤ j → j < s.eepromAddress → s.eeprom.read j = 0

/-- The initial globals of the sketch configured with `LED_COUNT = n`. -/
def initStateOn (n : Nat) (e : EEPROM) : State :=
  { initState e with pixelNumber := n,
                     strip := { numLEDs := n, pixels := fun _ => 0, shows := 0 } }

/-- The red byte of a packed colour `0xRRGGBB`. -/
def Strip.red (c : Nat) : Nat := c / 65536 % 256

/-- The green byte of a packed colour `0xRRGGBB`. -/
def Strip.green (c : Nat) : Nat := c / 256 % 256

/-- The blue byte of a packed colour `0xRRGGBB`. -/
def Strip.blue (c : Nat) : Nat := c % 256

/-- The hue wheel as the specification words it: the piecewise-linear map
`(255-3p, 3p, 0)` on `[0, 85]`, `(0, 510-3p, 3p-255)` on `[86, 170]` and
`(3p-510, 0, 765-3p)` on `[171, 255]`, as (red, green, blue), over the
integers. -/
def wheelSpec (p : Int) : Int × Int × Int :=
  if p ≤ 85 then (255 - 3 * p, 3 * p, 0)
  else if p ≤ 170 then (0, 510 - 3 * p, 3 * p - 255)
  else (3 * p - 510, 0, 765 - 3 * p)

/-- Whether the renderer that `loop()` calls for pattern `p` reads or writes
the global `pixelCycle`: `rainbowFull` (2), `rainbow` (4),
`theaterChaseRainbow` (5), `flashingColor` (9 and the `default` case),
`emergency` (11) and `alternatingBands` (12) do. -/
def usesPixelCycle (p : Nat) : Bool :=
  match p with
  | 1 | 3 | 6 | 7 | 8 | 10 | 13 => false
  | _ => true

/-- The Animation Phase State that the renderer `loop()` calls for pattern `A`
reads or writes, as (its own static `current_pixel`, `pixelCycle`,
`pixelQueue`, `ledColorOff`); `none` stands for a piece the renderer does not
touch. -/
def phaseView (A : Nat) (s : State) : Option Nat × Option Int × Option Int × Option Bool :=
  match A with
  | 1 => (none, none, none, none)
  | 2 => (none, some s.pixelCycle, none, none)
  | 3 => (some s.tricolorPixel, none, none, none)
  | 4 => (none, some s.pixelCycle, none, none)
  | 5 => (none, some s.pixelCycle, some s.pixelQueue, none)
  | 6 => (some s.wipePixel, none, none, some s.ledColorOff)
  | 7 => (some s.spacesPixel, none, none, none)
  | 8 => (none, none, none, none)
  | 9 => (none, some s.pixelCycle, none, none)
  | 10 => (some s.chasePixel, none, none, none)
  | 11 => (none, some s.pixelCycle, none, none)
  | 12 => (none, some s.pixelCycle, none, none)
  | 13 => (some s.widthPixel, none, none, none)
  | _ => (none, some s.pixelCycle, none, none)

/-- What a frame of pattern `A` leaves behind: the strip and the phase state
of `A`. -/
def frameView (A : Nat) (t : State) :
    Strip × Option Nat × Option Int × Option Int × Option Bool :=
  (t.strip, phaseView A t)

/-- The `switch(pattern)` of `loop()` run `n` times in a row on the current
pattern: `n` consecutive frames. -/
def renderFrames (fuel : Nat) : Nat → State → Option State
  | 0, s => some s
  | n + 1, s => (renderFrame fuel s).bind (renderFrames fuel n)

/-! # Theorems -/

/-! ## Boot scan -/

theorem setupLoop_eq (s : State) :
    setupLoop s = if s.pattern = 0 then setupLoop (setupBody s) else s := by
  rw [setupLoop]

theorem setupLoop_done (s : State) (h : s.pattern ≠ 0) : setupLoop s = s := by
  rw [setupLoop_eq, if_neg h]

/-- The scan at a zero byte that is not the last one moves to the next address. -/
theorem setupLoop_step_zero (s : State) (hp : s.pattern = 0)
    (hz : s.eeprom.read s.eepromAddress = 0)
    (hlt : s.eepromAddress + 1 < (s.eeprom.length : Int)) :
    setupLoop s = setupLoop { s with eepromAddress := s.eepromAddress + 1 } := by
  rw [setupLoop_eq, if_pos hp]
  congr 1
  obtain ⟨pp, pat, pi, pq, pc, pn, cm, ct, cmi, ms, msp, ts, tsp, lo, ea, w1, w2, w3, w4, w5, e, st⟩ := s
  simp only at hp hz hlt
  subst hp
  simp [setupBody, hz, TOTALPATTERNS]
  omega

/-- The scan at an address whose byte is a valid pattern stops there. -/
theorem setupLoop_step_valid (s : State) (hp : s.pattern = 0)
    (h1 : 1 ≤ s.eeprom.read s.eepromAddress)
    (h2 : s.eeprom.read s.eepromAddress ≤ TOTALPATTERNS)
    (hlt : s.eepromAddress < (s.eeprom.length : Int)) :
    setupLoop s = { s with pattern := s.eeprom.read s.eepromAddress } := by
  rw [setupLoop_eq, if_pos hp]
  have hb : setupBody s = { s with pattern := s.eeprom.read s.eepromAddress } := by
    have hne : s.eeprom.read s.eepromAddress ≠ 0 := by omega
    simp [setupBody, hne]
    omega
  rw [hb, setupLoop_done]
  simp only
  omega

/-- The scan at a byte above `TOTALPATTERNS` adopts the default at once. -/
theorem setupLoop_step_invalid (s : State) (hp : s.pattern = 0)
    (h : TOTALPATTERNS < s.eeprom.read s.eepromAddress) :
    setupLoop s = defaultAdopted s := by
  rw [setupLoop_eq, if_pos hp]
  have hb : setupBody s = defaultAdopted s := by
    have hne : s.eeprom.read s.eepromAddress ≠ 0 := by
      unfold TOTALPATTERNS at h; omega
    simp [setupBody, hne, h, defaultAdopted]
  rw [hb, setupLoop_done]
  simp [defaultAdopted, DEFAULT_PATTERN]

/-- The scan at a zero byte in the last cell adopts the default. -/
theorem setupLoop_step_end (s : State) (hp : s.pattern = 0)
    (hz : s.eeprom.read s.eepromAddress = 0)
    (hge : (s.eeprom.length : Int) ≤ s.eepromAddress + 1) :
    setupLoop s = defaultAdopted s := by
  rw [setupLoop_eq, if_pos hp]
  have hb : setupBody s = defaultAdopted s := by
    simp [setupBody, hz, hge, defaultAdopted]
  rw [hb, setupLoop_done]
  simp [defaultAdopted, DEFAULT_PATTERN]

/-- Zero bytes are passed over: from address `a`, with `n` zero bytes ahead and
room left, the scan continues from `a + n`. -/
theorem setupLoop_skip (n : Nat) : ∀ s : State, s.pattern = 0 →
    (∀ j : Int, s.eepromAddress ≤ j → j < s.eepromAddress + n → s.eeprom.read j = 0) →
    s.eepromAddress + n < (s.eeprom.length : Int) →
    setupLoop s = setupLoop { s with eepromAddress := s.eepromAddress + n } := by
  induction n with
  | zero => intro s _ _ _; simp
  | succ n ih =>
    intro s hp hz hlt
    have h0 : s.eeprom.read s.eepromAddress = 0 := hz _ (le_refl _) (by push_cast; omega)
    rw [setupLoop_step_zero s hp h0 (by push_cast at hlt; omega)]
    rw [ih { s with eepromAddress := s.eepromAddress + 1 } hp
      (fun j h1 h2 => hz j (by simp only at h1; omega) (by simp only at h2; push_cast; omega))
      (by simp only; push_cast at hlt; omega)]
    simp only [Nat.cast_add, Nat.cast_one]
    congr 2
    omega

/-- The whole persistent range from the current address on holds no valid
pattern: the scan adopts the default. -/
theorem setupLoop_no_valid (n : Nat) : ∀ s : State, s.pattern = 0 →
    ((s.eeprom.length : Int) - s.eepromAddress).toNat = n →
    (∀ j : Int, s.eepromAddress ≤ j → j < s.eeprom.length →
      s.eeprom.read j = 0 ∨ TOTALPATTERNS < s.eeprom.read j) →
    s.eepromAddress < (s.eeprom.length : Int) →
    setupLoop s = defaultAdopted s := by
  induction n with
  | zero => intro s _ hn _ hlt; omega
  | succ n ih =>
    intro s hp hn h hlt
    rcases h _ (le_refl _) hlt with h0 | hbig
    · by_cases hlast : (s.eeprom.length : Int) ≤ s.eepromAddress + 1
      · exact setupLoop_step_end s hp h0 hlast
      · rw [setupLoop_step_zero s hp h0 (by omega)]
        rw [ih { s with eepromAddress := s.eepromAddress + 1 } hp (by simp only; omega)
          (fun j h1 h2 => h j (by simp only at h1; omega) h2) (by simp only; omega)]
        simp [defaultAdopted]
    · exact setupLoop_step_invalid s hp hbig

/-- With no valid pattern anywhere in the persistent range, `setup()` is the
adoption of the default on the initial globals. -/
theorem setup_no_valid (e : EEPROM) (hlen : 1 ≤ e.length)
    (h : ∀ j : Int, 0 ≤ j → j < e.length → e.read j = 0 ∨ TOTALPATTERNS < e.read j) :
    setup (initState e) =
      defaultAdopted { initState e with strip := (initState e).strip.showPixels } := by
  unfold setup
  exact setupLoop_no_valid _ _ rfl rfl (fun j h1 h2 => h j h1 h2)
    (by simp [initState]; omega)

/-- C1. Boot scan, default case: when no address of the persistent range holds
a byte in `[1, TOTALPATTERNS]`, `setup()` ends with `pattern = DEFAULT_PATTERN`
and `eepromAddress = 0`, its only storage write being `DEFAULT_PATTERN` to
address 0. -/
theorem setup_adopts_default (e : EEPROM) (hlen : 1 ≤ e.length)
    (h : ∀ j : Int, 0 ≤ j → j < e.length → e.read j = 0 ∨ TOTALPATTERNS < e.read j) :
    (setup (initState e)).pattern = DEFAULT_PATTERN ∧
    (setup (initState e)).eepromAddress = 0 ∧
    (setup (initState e)).eeprom.read 0 = DEFAULT_PATTERN ∧
    (setup (initState e)).eeprom = e.write 0 DEFAULT_PATTERN := by
  rw [setup_no_valid e hlen h]
  simp [defaultAdopted, initState, EEPROM.read, EEPROM.write, EEPROM.cell, DEFAULT_PATTERN]

/-- C1, witness: capacity 4, image `[0,0,0,0]` gives pattern 2, address 0 and
storage `[2,0,0,0]`. -/
theorem setup_adopts_default_witness :
    ((setup (initState (EEPROM.ofList [0, 0, 0, 0]))).pattern = DEFAULT_PATTERN ∧
     (setup (initState (EEPROM.ofList [0, 0, 0, 0]))).eepromAddress = 0 ∧
     (setup (initState (EEPROM.ofList [0, 0, 0, 0]))).eeprom.read 0 = DEFAULT_PATTERN ∧
     (setup (initState (EEPROM.ofList [0, 0, 0, 0]))).eeprom
       = (EEPROM.ofList [0, 0, 0, 0]).write 0 DEFAULT_PATTERN) ∧
    ((EEPROM.ofList [0, 0, 0, 0]).write 0 DEFAULT_PATTERN).image = [2, 0, 0, 0] :=
  ⟨setup_adopts_default (EEPROM.ofList [0, 0, 0, 0]) (by decide)
    (by
      intro j h0 h4
      left
      have h4 : j < 4 := h4
      interval_cases j <;> rfl),
   by decide⟩

/-- The first nonzero byte of the persistent range decides the boot scan: with
zero bytes at every address below `k` and a nonzero byte at `k`, the scan stops
at `k` when that byte is a valid pattern and adopts the default when it is
above `TOTALPATTERNS`. -/
theorem setup_first_nonzero (e : EEPROM) (k : Nat) (hk : k < e.length)
    (hz : ∀ j : Int, 0 ≤ j → j < k → e.read j = 0) (hnz : e.read k ≠ 0) :
    setup (initState e) =
      if e.read k ≤ TOTALPATTERNS then
        { initState e with strip := (initState e).strip.showPixels,
                           eepromAddress := k, pattern := e.read k }
      else
        defaultAdopted { initState e with strip := (initState e).strip.showPixels,
                                          eepromAddress := k } := by
  unfold setup
  rw [setupLoop_skip k _ rfl (fun j h1 h2 => hz j h1 (by simpa [initState] using h2))
    (by simp [initState]; exact_mod_cast hk)]
  have ha : (initState e).eepromAddress + (k : Int) = k := by simp [initState]
  simp only [ha]
  split_ifs with hv
  · rw [setupLoop_step_valid _ rfl (by simp only [initState]; omega) hv
      (by simp only [initState]; exact_mod_cast hk)]
    rfl
  · rw [setupLoop_step_invalid _ rfl (by simp only [initState]; omega)]

/-- C2. Boot scan, single valid cell: on an image that holds a valid pattern
`v` at address `k` and `0` at every other address of the persistent range,
`setup()` ends with `pattern = v`, `eepromAddress = k`, and has performed no
storage write (the EEPROM, write counter included, is the initial one). -/
theorem setup_single_valid_cell (e : EEPROM) (k : Nat) (v : Nat)
    (hk : k < e.length)
    (hv1 : 1 ≤ v) (hv2 : v ≤ TOTALPATTERNS) (hkv : e.read k = v)
    (hz : ∀ j : Int, 0 ≤ j → j < e.length → j ≠ k → e.read j = 0) :
    (setup (initState e)).pattern = v ∧
    (setup (initState e)).eepromAddress = k ∧
    (setup (initState e)).eeprom = e := by
  rw [setup_first_nonzero e k hk
    (fun j h0 hj => hz j h0 (by omega) (by omega)) (by omega)]
  rw [if_pos (by omega)]
  simp [initState, hkv]

/-- C2, witness: image `[0,0,5,0]` gives pattern 5 at address 2, storage
untouched. -/
theorem setup_single_valid_cell_witness :
    (setup (initState (EEPROM.ofList [0, 0, 5, 0]))).pattern = 5 ∧
    (setup (initState (EEPROM.ofList [0, 0, 5, 0]))).eepromAddress = (2 : Nat) ∧
    (setup (initState (EEPROM.ofList [0, 0, 5, 0]))).eeprom = EEPROM.ofList [0, 0, 5, 0] :=
  setup_single_valid_cell (EEPROM.ofList [0, 0, 5, 0]) 2 5 (by decide)
    (by decide) (by decide) (by rfl)
    (by
      intro j h0 h4 hne
      have h4 : j < 4 := h4
      have hne : j ≠ 2 := hne
      interval_cases j
      · rfl
      · rfl
      · exact absurd rfl hne
      · rfl)

/-- C3, counterexample: on the image `[200,5,0,0]` the least address whose byte
is nonzero and at most `TOTALPATTERNS` is 1, holding 5, yet `setup()` does not
return `(5, 1)`: it stops at the out-of-range byte of address 0, adopts
`(DEFAULT_PATTERN, 0)` and overwrites address 0. -/
theorem setup_stops_at_invalid_byte :
    ((EEPROM.ofList [200, 5, 0, 0]).read 1 = 5 ∧
     ¬ (1 ≤ (EEPROM.ofList [200, 5, 0, 0]).read 0 ∧
        (EEPROM.ofList [200, 5, 0, 0]).read 0 ≤ TOTALPATTERNS)) ∧
    ¬ ((setup (initState (EEPROM.ofList [200, 5, 0, 0]))).pattern
          = (EEPROM.ofList [200, 5, 0, 0]).read 1 ∧
       (setup (initState (EEPROM.ofList [200, 5, 0, 0]))).eepromAddress = 1) ∧
    (setup (initState (EEPROM.ofList [200, 5, 0, 0]))).pattern = DEFAULT_PATTERN ∧
    (setup (initState (EEPROM.ofList [200, 5, 0, 0]))).eepromAddress = 0 ∧
    (setup (initState (EEPROM.ofList [200, 5, 0, 0]))).eeprom.image = [2, 5, 0, 0] := by
  have hs := setup_first_nonzero (EEPROM.ofList [200, 5, 0, 0]) 0 (by decide)
    (fun j h0 hj => by omega) (by decide)
  rw [if_neg (by decide)] at hs
  rw [hs]
  refine ⟨⟨by rfl, by decide⟩, ?_, by rfl, by rfl, by decide⟩
  simp [defaultAdopted, DEFAULT_PATTERN]

/-- C3, as amended. The boot scan passes over zero bytes only: with `k` the
least address of the persistent range whose byte is nonzero, `setup()` returns
`(image[k], k)` without writing when that byte is at most `TOTALPATTERNS`, and
otherwise stops at `k`, writes `DEFAULT_PATTERN` to address 0 and adopts
`(DEFAULT_PATTERN, 0)`, whatever the bytes above `k`. -/
theorem setup_first_nonzero_decides (e : EEPROM) (k : Nat)
    (hk : k < e.length)
    (hz : ∀ j : Int, 0 ≤ j → j < k → e.read j = 0) (hnz : e.read k ≠ 0) :
    (e.read k ≤ TOTALPATTERNS →
      (setup (initState e)).pattern = e.read k ∧
      (setup (initState e)).eepromAddress = k ∧
      (setup (initState e)).eeprom = e) ∧
    (TOTALPATTERNS < e.read k →
      (setup (initState e)).pattern = DEFAULT_PATTERN ∧
      (setup (initState e)).eepromAddress = 0 ∧
      (setup (initState e)).eeprom = e.write 0 DEFAULT_PATTERN) := by
  rw [setup_first_nonzero e k hk hz hnz]
  constructor
  · intro hv
    rw [if_pos hv]
    simp [initState]
  · intro hv
    rw [if_neg (by omega)]
    simp [defaultAdopted, initState]

/-- C3 as amended, witness: `[0,200,5,0]` has its first nonzero byte, 200, at
address 1. -/
theorem setup_first_nonzero_decides_witness :
    ((EEPROM.ofList [0, 200, 5, 0]).read (1 : Nat) ≤ TOTALPATTERNS →
      (setup (initState (EEPROM.ofList [0, 200, 5, 0]))).pattern
        = (EEPROM.ofList [0, 200, 5, 0]).read (1 : Nat) ∧
      (setup (initState (EEPROM.ofList [0, 200, 5, 0]))).eepromAddress = (1 : Nat) ∧
      (setup (initState (EEPROM.ofList [0, 200, 5, 0]))).eeprom
        = EEPROM.ofList [0, 200, 5, 0]) ∧
    (TOTALPATTERNS < (EEPROM.ofList [0, 200, 5, 0]).read (1 : Nat) →
      (setup (initState (EEPROM.ofList [0, 200, 5, 0]))).pattern = DEFAULT_PATTERN ∧
      (setup (initState (EEPROM.ofList [0, 200, 5, 0]))).eepromAddress = 0 ∧
      (setup (initState (EEPROM.ofList [0, 200, 5, 0]))).eeprom
        = (EEPROM.ofList [0, 200, 5, 0]).write 0 DEFAULT_PATTERN) :=
  setup_first_nonzero_decides (EEPROM.ofList [0, 200, 5, 0]) 1 (by decide)
    (by
      intro j h0 h1
      have h1 : j < 1 := h1
      interval_cases j
      rfl)
    (by decide)

/-! ## Commit -/

theorem commit_length (s : State) : (commit s).eeprom.length = s.eeprom.length := rfl

theorem commit_address (s : State) :
    (commit s).eepromAddress = advanceAddress s.eeprom.length s.eepromAddress := rfl

/-- An index inside the persistent range names its own cell. -/
theorem EEPROM.cell_of_range (e : EEPROM) (j : Int) (h0 : 0 ≤ j)
    (h1 : j < (e.length : Int)) : e.cell j = j :=
  Int.emod_eq_of_lt h0 h1

/-- The index `-1` names the last cell. -/
theorem EEPROM.cell_neg_one (e : EEPROM) (h : 1 ≤ e.length) :
    e.cell (-1) = (e.length : Int) - 1 := by
  unfold EEPROM.cell
  have h1 : (-1 : Int) % (e.length : Int) = (-1 + (e.length : Int)) % (e.length : Int) :=
    (Int.add_emod_self).symm
  rw [h1]
  have h2 : (-1 + (e.length : Int)) = (e.length : Int) - 1 := by omega
  rw [h2]
  exact Int.emod_eq_of_lt (by omega) (by omega)

/-- Reading after a write: the written cell holds the byte, every other cell
keeps its own. -/
theorem EEPROM.read_write (e : EEPROM) (idx : Int) (v : Nat) (j : Int) :
    (e.write idx v).read j = if e.cell j = e.cell idx then v % 256 else e.read j := by
  simp only [EEPROM.read, EEPROM.write, EEPROM.cell]
  split_ifs <;> simp

/-- Bytes of the store after a commit, cell by cell. -/
theorem commit_read (s : State) (j : Int) :
    (commit s).eeprom.read j =
      if s.eeprom.cell j = s.eeprom.cell (advanceAddress s.eeprom.length s.eepromAddress)
      then s.pattern % 256
      else if s.eeprom.cell j
          = s.eeprom.cell (advanceAddress s.eeprom.length s.eepromAddress - 1) then 0
      else s.eeprom.read j := by
  show ((s.eeprom.write (advanceAddress s.eeprom.length s.eepromAddress - 1) 0).write
    (advanceAddress s.eeprom.length s.eepromAddress) s.pattern).read j = _
  rw [EEPROM.read_write, EEPROM.read_write]
  rfl

/-- A commit away from the last address moves to the next address, zeroes the
old cell and stores the pattern in the new one. -/
theorem commit_inner (s : State) (h0 : 0 ≤ s.eepromAddress)
    (h : s.eepromAddress + 1 < (s.eeprom.length : Int)) :
    (commit s).eepromAddress = s.eepromAddress + 1 ∧
    (commit s).eeprom.read s.eepromAddress = 0 ∧
    (commit s).eeprom.read (s.eepromAddress + 1) = s.pattern % 256 ∧
    ∀ j : Int, 0 ≤ j → j < (s.eeprom.length : Int) → j ≠ s.eepromAddress →
      j ≠ s.eepromAddress + 1 → (commit s).eeprom.read j = s.eeprom.read j := by
  have ha : advanceAddress s.eeprom.length s.eepromAddress = s.eepromAddress + 1 := by
    unfold advanceAddress
    rw [if_neg (by omega)]
  have c0 : s.eeprom.cell s.eepromAddress = s.eepromAddress :=
    EEPROM.cell_of_range _ _ h0 (by omega)
  have c1 : s.eeprom.cell (s.eepromAddress + 1) = s.eepromAddress + 1 :=
    EEPROM.cell_of_range _ _ (by omega) h
  have hsub : s.eepromAddress + 1 - 1 = s.eepromAddress := by omega
  refine ⟨by rw [commit_address, ha], ?_, ?_, ?_⟩
  · rw [commit_read, ha, hsub, c0, c1, if_neg (by omega), if_pos rfl]
  · rw [commit_read, ha, if_pos rfl]
  · intro j hj0 hj1 h1 h2
    have cj : s.eeprom.cell j = j := EEPROM.cell_of_range _ _ hj0 hj1
    rw [commit_read, ha, hsub, c0, c1, cj, if_neg h2, if_neg h1]

/-- A commit at the last address moves to address 0 and stores the pattern
there; the zero goes to index `-1`, which names the last cell, the old one:
with at least two cells the old cell is zeroed, and every other cell keeps its
byte. -/
theorem commit_last (s : State) (h0 : 0 ≤ s.eepromAddress)
    (h : s.eepromAddress + 1 = (s.eeprom.length : Int)) :
    (commit s).eepromAddress = 0 ∧
    (commit s).eeprom.read 0 = s.pattern % 256 ∧
    (2 ≤ s.eeprom.length → (commit s).eeprom.read s.eepromAddress = 0) ∧
    ∀ j : Int, 0 < j → j < s.eepromAddress →
      (commit s).eeprom.read j = s.eeprom.read j := by
  have ha : advanceAddress s.eeprom.length s.eepromAddress = 0 := by
    unfold advanceAddress
    rw [if_pos h]
  have hlen : 1 ≤ s.eeprom.length := by omega
  have c0 : s.eeprom.cell 0 = 0 := EEPROM.cell_of_range _ _ (le_refl _) (by omega)
  have cm : s.eeprom.cell (0 - 1) = s.eepromAddress := by
    have : (0 : Int) - 1 = -1 := by omega
    rw [this, EEPROM.cell_neg_one _ hlen]
    omega
  have ca : s.eeprom.cell s.eepromAddress = s.eepromAddress :=
    EEPROM.cell_of_range _ _ h0 (by omega)
  refine ⟨by rw [commit_address, ha], ?_, ?_, ?_⟩
  · rw [commit_read, ha, if_pos rfl]
  · intro h2
    rw [commit_read, ha, c0, cm, ca, if_neg (by omega), if_pos rfl]
  · intro j hj0 hj1
    have cj : s.eeprom.cell j = j := EEPROM.cell_of_range _ _ (by omega) (by omega)
    rw [commit_read, ha, c0, cm, cj, if_neg (by omega), if_neg (by omega)]

/-- C4. Commit postcondition: with at least two cells, an active address `a`
inside the persistent range (the last address included) and a pattern `p` in
`[1, TOTALPATTERNS]`, the commit of `loop()` returns the address
`(a + 1) mod capacity`, which is inside the range and differs from `a`; after
its two writes the byte at `a` is 0 and the byte at the new address is `p`,
which is not 0, so exactly one byte among the two is nonzero and it equals
`p`; every other byte of the range is as before. -/
theorem commit_postcondition (s : State) (hlen : 2 ≤ s.eeprom.length)
    (ha0 : 0 ≤ s.eepromAddress) (ha1 : s.eepromAddress < (s.eeprom.length : Int))
    (hp1 : 1 ≤ s.pattern) (hp2 : s.pattern ≤ TOTALPATTERNS) :
    (commit s).eepromAddress = (s.eepromAddress + 1) % (s.eeprom.length : Int) ∧
    (0 ≤ (commit s).eepromAddress ∧ (commit s).eepromAddress < (s.eeprom.length : Int) ∧
      (commit s).eepromAddress ≠ s.eepromAddress) ∧
    (commit s).eeprom.read s.eepromAddress = 0 ∧
    (commit s).eeprom.read (commit s).eepromAddress = s.pattern ∧
    (commit s).eeprom.read (commit s).eepromAddress ≠ 0 ∧
    (∀ j : Int, 0 ≤ j → j < (s.eeprom.length : Int) → j ≠ s.eepromAddress →
      j ≠ (commit s).eepromAddress → (commit s).eeprom.read j = s.eeprom.read j) ∧
    (commit s).eeprom.length = s.eeprom.length ∧
    (commit s).eeprom.writes = s.eeprom.writes + 2 := by
  have hp256 : s.pattern % 256 = s.pattern :=
    Nat.mod_eq_of_lt (by unfold TOTALPATTERNS at hp2; omega)
  by_cases h : s.eepromAddress + 1 = (s.eeprom.length : Int)
  · obtain ⟨h1, h2, h3, h4⟩ := commit_last s ha0 h
    have hmod : (s.eepromAddress + 1) % (s.eeprom.length : Int) = 0 := by
      rw [h]; exact Int.emod_self
    rw [h1, hmod, h2, hp256]
    refine ⟨rfl, ⟨le_refl _, by omega, by omega⟩, h3 hlen, rfl, by omega, ?_, rfl, rfl⟩
    intro j hj0 hj1 hja hj
    exact h4 j (by omega) (by omega)
  · obtain ⟨h1, h2, h3, h4⟩ := commit_inner s ha0 (by omega)
    have hmod : (s.eepromAddress + 1) % (s.eeprom.length : Int) = s.eepromAddress + 1 :=
      Int.emod_eq_of_lt (by omega) (by omega)
    rw [h1, hmod, h3, hp256]
    refine ⟨rfl, ⟨by omega, by omega, by omega⟩, h2, rfl, by omega, ?_, rfl, rfl⟩
    intro j hj0 hj1 hja hj
    exact h4 j hj0 hj1 hja hj

/-- C4, witness: the scenario of the specification, pattern 3 committed at
address 0 with capacity 4, gives storage `[0,3,0,0]` and new address 1; and at
the last address, storage `[0,0,0,5]` with active address 3, the commit of
pattern 3 gives storage `[3,0,0,0]` and new address 0. -/
theorem commit_postcondition_witness :
    ((commit { initState (EEPROM.ofList [5, 0, 0, 0]) with
        eepromAddress := 0, pattern := 3 }).eepromAddress = 1 ∧
     (commit { initState (EEPROM.ofList [5, 0, 0, 0]) with
        eepromAddress := 0, pattern := 3 }).eeprom.image = [0, 3, 0, 0]) ∧
    ((commit { initState (EEPROM.ofList [0, 0, 0, 5]) with
        eepromAddress := 3, pattern := 3 }).eepromAddress = 0 ∧
     (commit { initState (EEPROM.ofList [0, 0, 0, 5]) with
        eepromAddress := 3, pattern := 3 }).eeprom.image = [3, 0, 0, 0]) ∧
    (commit { initState (EEPROM.ofList [0, 0, 0, 5]) with
        eepromAddress := 3, pattern := 3 }).eeprom.read 3 = 0 ∧
    (commit { initState (EEPROM.ofList [0, 0, 0, 5]) with
        eepromAddress := 3, pattern := 3 }).eeprom.read
      (commit { initState (EEPROM.ofList [0, 0, 0, 5]) with
        eepromAddress := 3, pattern := 3 }).eepromAddress = 3 :=
  ⟨⟨by decide, by decide⟩, ⟨by decide, by decide⟩,
   (commit_postcondition { initState (EEPROM.ofList [0, 0, 0, 5]) with
      eepromAddress := 3, pattern := 3 } (by decide) (by decide) (by decide)
      (by decide) (by decide)).2.2.1,
   (commit_postcondition { initState (EEPROM.ofList [0, 0, 0, 5]) with
      eepromAddress := 3, pattern := 3 } (by decide) (by decide) (by decide)
      (by decide) (by decide)).2.2.2.1⟩

/-- What a boot scan needs of the store, and what every commit keeps: the
active address is inside the persistent range, every address below it holds 0,
and its own byte is the given valid pattern. -/
theorem commit_keeps_scan_invariant (s : State) (p : Nat)
    (ha0 : 0 ≤ s.eepromAddress) (ha1 : s.eepromAddress < (s.eeprom.length : Int))
    (hz : ∀ j : Int, 0 ≤ j → j < s.eepromAddress → s.eeprom.read j = 0)
    (hp : p ≤ TOTALPATTERNS) :
    0 ≤ (commit { s with pattern := p }).eepromAddress ∧
    (commit { s with pattern := p }).eepromAddress
      < ((commit { s with pattern := p }).eeprom.length : Int) ∧
    (∀ j : Int, 0 ≤ j → j < (commit { s with pattern := p }).eepromAddress →
      (commit { s with pattern := p }).eeprom.read j = 0) ∧
    (commit { s with pattern := p }).eeprom.read
      (commit { s with pattern := p }).eepromAddress = p := by
  have hp256 : p % 256 = p := Nat.mod_eq_of_lt (by unfold TOTALPATTERNS at hp; omega)
  by_cases h : s.eepromAddress + 1 = (s.eeprom.length : Int)
  · obtain ⟨h1, h2, _⟩ := commit_last { s with pattern := p } ha0 h
    rw [h1, commit_length]
    refine ⟨le_refl _, by simp only; omega, fun j h0 hj => by omega, ?_⟩
    rw [h2]; exact hp256
  · obtain ⟨h1, h2, h3, h4⟩ := commit_inner { s with pattern := p } ha0
      (by simp only; omega)
    rw [h1, commit_length]
    simp only at h2 h3 h4 ⊢
    refine ⟨by omega, by omega, ?_, by rw [h3]; exact hp256⟩
    intro j h0 hj
    by_cases hja : j = s.eepromAddress
    · rw [hja]; exact h2
    · rw [h4 j h0 (by omega) hja (by omega)]
      exact hz j h0 (by omega)

/-- After a non-empty sequence of commits the store still satisfies the scan
invariant, with the pattern of the last commit at the active address. -/
theorem commitAll_scan_invariant : ∀ (ps : List Nat) (s : State),
    ps ≠ [] → 0 ≤ s.eepromAddress → s.eepromAddress < (s.eeprom.length : Int) →
    (∀ j : Int, 0 ≤ j → j < s.eepromAddress → s.eeprom.read j = 0) →
    (∀ p ∈ ps, 1 ≤ p ∧ p ≤ TOTALPATTERNS) →
    0 ≤ (commitAll s ps).eepromAddress ∧
    (commitAll s ps).eepromAddress < ((commitAll s ps).eeprom.length : Int) ∧
    (∀ j : Int, 0 ≤ j → j < (commitAll s ps).eepromAddress →
      (commitAll s ps).eeprom.read j = 0) ∧
    some ((commitAll s ps).eeprom.read (commitAll s ps).eepromAddress) = ps.getLast? := by
  intro ps
  induction ps with
  | nil => intro s h; exact absurd rfl h
  | cons p ps ih =>
    intro s _ ha0 ha1 hz hps
    obtain ⟨c0, c1, cz, cp⟩ :=
      commit_keeps_scan_invariant s p ha0 ha1 hz (hps p (List.mem_cons_self _ _)).2
    cases ps with
    | nil => exact ⟨c0, c1, cz, by simp [commitAll, cp]⟩
    | cons q qs =>
      have := ih (commit { s with pattern := p }) (List.cons_ne_nil _ _) c0 c1 cz
        (fun r hr => hps r (List.mem_cons_of_mem _ hr))
      simpa [commitAll, List.getLast?_cons_cons] using this

/-- C5. Persistence round trip: from a store whose only nonzero byte sits at the
active address, after any non-empty sequence of commits of valid patterns
(wrapping past the last address or not), the boot scan of `setup()` on the
resulting storage yields the pattern of the last commit and the address the
last commit returned. -/
theorem boot_restores_last_commit (s : State) (ps : List Nat)
    (ha0 : 0 ≤ s.eepromAddress) (ha1 : s.eepromAddress < (s.eeprom.length : Int))
    (hz : ∀ j : Int, 0 ≤ j → j < s.eeprom.length → j ≠ s.eepromAddress →
      s.eeprom.read j = 0)
    (hne : ps ≠ []) (hps : ∀ p ∈ ps, 1 ≤ p ∧ p ≤ TOTALPATTERNS) :
    some (setup (initState (commitAll s ps).eeprom)).pattern = ps.getLast? ∧
    (setup (initState (commitAll s ps).eeprom)).eepromAddress
      = (commitAll s ps).eepromAddress := by
  obtain ⟨c0, c1, cz, cp⟩ := commitAll_scan_invariant ps s hne ha0 ha1
    (fun j h0 hj => hz j h0 (by omega) (by omega)) hps
  obtain ⟨p, hmem⟩ : ∃ p, p ∈ ps.getLast? := by
    cases h : ps.getLast? with
    | none => rw [h] at cp; cases cp
    | some p => exact ⟨p, rfl⟩
  have hplast : ps.getLast? = some p := hmem
  have hpv := hps p (List.mem_of_mem_getLast? hmem)
  rw [hplast] at cp ⊢
  have hrd : (commitAll s ps).eeprom.read (commitAll s ps).eepromAddress = p :=
    Option.some.inj cp
  have hk : ((commitAll s ps).eepromAddress.toNat : Int) = (commitAll s ps).eepromAddress :=
    Int.toNat_of_nonneg c0
  have hfirst := setup_first_nonzero (commitAll s ps).eeprom
    (commitAll s ps).eepromAddress.toNat (by omega)
    (fun j h0 hj => cz j h0 (by omega)) (by rw [hk, hrd]; omega)
  rw [hk, hrd, if_pos hpv.2] at hfirst
  rw [hfirst]
  exact ⟨rfl, rfl⟩

/-- C5, witness: capacity 4, storage `[0,0,0,5]` with active address 3; the
commits of 3, 7, 1, 13, 4 wrap past the last address. -/
theorem boot_restores_last_commit_witness :
    some (setup (initState (commitAll
        { initState (EEPROM.ofList [0, 0, 0, 5]) with eepromAddress := 3, pattern := 5 }
        [3, 7, 1, 13, 4]).eeprom)).pattern = [3, 7, 1, 13, 4].getLast? ∧
    (setup (initState (commitAll
        { initState (EEPROM.ofList [0, 0, 0, 5]) with eepromAddress := 3, pattern := 5 }
        [3, 7, 1, 13, 4]).eeprom)).eepromAddress
      = (commitAll
        { initState (EEPROM.ofList [0, 0, 0, 5]) with eepromAddress := 3, pattern := 5 }
        [3, 7, 1, 13, 4]).eepromAddress :=
  boot_restores_last_commit
    { initState (EEPROM.ofList [0, 0, 0, 5]) with eepromAddress := 3, pattern := 5 }
    [3, 7, 1, 13, 4] (by decide) (by decide)
    (by
      intro j h0 h4 hne
      have h4 : j < 4 := h4
      have hne : j ≠ 3 := hne
      interval_cases j
      · rfl
      · rfl
      · rfl
      · exact absurd rfl hne)
    (by decide) (by decide)

/-! ## The single-nonzero-cell invariant -/

/-- A store whose nonzero bytes inside the persistent range are exactly the
one at address `k` has `nonzeroCount = 1`. -/
theorem nonzeroCount_eq_one (e : EEPROM) (k : Nat) (hk : k < e.length)
    (hnz : e.read k ≠ 0)
    (hz : ∀ j : Int, 0 ≤ j → j < e.length → j ≠ k → e.read j = 0) :
    e.nonzeroCount = 1 := by
  unfold EEPROM.nonzeroCount
  have hcongr : (List.range e.length).countP (fun (i : Nat) => e.read (i : Int) != 0)
      = (List.range e.length).countP (fun (i : Nat) => i == k) := by
    apply List.countP_congr
    intro i hi
    have hi : i < e.length := List.mem_range.mp hi
    by_cases hik : i = k
    · subst hik; simp [hnz]
    · have := hz i (by omega) (by exact_mod_cast hi) (by exact_mod_cast hik)
      simp [this, hik]
  rw [hcongr]
  have hcount : (List.range e.length).count k = 1 :=
    List.count_eq_one_of_mem (List.nodup_range _) (List.mem_range.mpr hk)
  simpa [List.count] using hcount

/-- The store invariant between lock actions: the active address is inside
the persistent range, its byte is nonzero, every other byte is 0.  A commit of
a valid pattern keeps it, at the last address too. -/
theorem commit_keeps_single_cell (s : State) (p : Nat) (hlen : 2 ≤ s.eeprom.length)
    (ha0 : 0 ≤ s.eepromAddress) (ha1 : s.eepromAddress < (s.eeprom.length : Int))
    (hz : ∀ j : Int, 0 ≤ j → j < s.eeprom.length → j ≠ s.eepromAddress →
      s.eeprom.read j = 0)
    (hp1 : 1 ≤ p) (hp2 : p ≤ TOTALPATTERNS) :
    0 ≤ (commit { s with pattern := p }).eepromAddress ∧
    (commit { s with pattern := p }).eepromAddress < (s.eeprom.length : Int) ∧
    (commit { s with pattern := p }).eeprom.length = s.eeprom.length ∧
    (commit { s with pattern := p }).eeprom.read
      (commit { s with pattern := p }).eepromAddress ≠ 0 ∧
    (∀ j : Int, 0 ≤ j → j < s.eeprom.length →
      j ≠ (commit { s with pattern := p }).eepromAddress →
      (commit { s with pattern := p }).eeprom.read j = 0) := by
  have hp256 : p % 256 = p := Nat.mod_eq_of_lt (by unfold TOTALPATTERNS at hp2; omega)
  by_cases h : s.eepromAddress + 1 = (s.eeprom.length : Int)
  · obtain ⟨h1, h2, h3, h4⟩ := commit_last { s with pattern := p } ha0 h
    simp only at h2 h3 h4
    rw [h1, h2, hp256]
    refine ⟨le_refl _, by omega, rfl, by omega, ?_⟩
    intro j h0 hj hne
    by_cases hja : j = s.eepromAddress
    · rw [hja]; exact h3 hlen
    · rw [h4 j (by omega) (by omega)]
      exact hz j h0 hj hja
  · obtain ⟨h1, h2, h3, h4⟩ := commit_inner { s with pattern := p } ha0
      (by simp only; omega)
    simp only at h1 h2 h3 h4
    rw [h1, h3, hp256]
    refine ⟨by omega, by omega, rfl, by omega, ?_⟩
    intro j h0 hj hne
    by_cases hja : j = s.eepromAddress
    · rw [hja]; exact h2
    · rw [h4 j h0 hj hja hne]; exact hz j h0 hj hja

/-- Commits of valid patterns keep the single-cell invariant, however many
times they wrap past the last address. -/
theorem commitAll_keeps_single_cell : ∀ (ps : List Nat) (s : State),
    2 ≤ s.eeprom.length →
    0 ≤ s.eepromAddress → s.eepromAddress < (s.eeprom.length : Int) →
    s.eeprom.read s.eepromAddress ≠ 0 →
    (∀ j : Int, 0 ≤ j → j < s.eeprom.length → j ≠ s.eepromAddress →
      s.eeprom.read j = 0) →
    (∀ p ∈ ps, 1 ≤ p ∧ p ≤ TOTALPATTERNS) →
    (commitAll s ps).eeprom.nonzeroCount = 1 := by
  intro ps
  induction ps with
  | nil =>
    intro s _ ha0 ha1 hnz hz _
    have hk : (s.eepromAddress.toNat : Int) = s.eepromAddress := Int.toNat_of_nonneg ha0
    exact nonzeroCount_eq_one s.eeprom s.eepromAddress.toNat (by omega)
      (by rw [hk]; exact hnz) (fun j h0 hj hne => hz j h0 hj (by omega))
  | cons p ps ih =>
    intro s hlen ha0 ha1 _ hz hps
    obtain ⟨c0, c1, c2, c3, c4⟩ := commit_keeps_single_cell s p hlen ha0 ha1 hz
      (hps p (List.mem_cons_self _ _)).1 (hps p (List.mem_cons_self _ _)).2
    simp only [commitAll]
    apply ih
    · rw [c2]; exact hlen
    · exact c0
    · rw [c2]; exact c1
    · exact c3
    · rw [c2]; exact c4
    · exact fun r hr => hps r (List.mem_cons_of_mem _ hr)

/-- C6, counterexample: on the initial image `[0,5,7,0]` (capacity 4) the boot
scan stops at address 1 without writing, and the steady state it leaves has two
nonzero bytes. -/
theorem setup_leaves_two_nonzero_cells :
    (setup (initState (EEPROM.ofList [0, 5, 7, 0]))).eeprom.image = [0, 5, 7, 0] ∧
    (setup (initState (EEPROM.ofList [0, 5, 7, 0]))).eeprom.nonzeroCount = 2 ∧
    ¬ (setup (initState (EEPROM.ofList [0, 5, 7, 0]))).eeprom.nonzeroCount = 1 := by
  have hs := setup_first_nonzero (EEPROM.ofList [0, 5, 7, 0]) 1 (by decide)
    (fun j h0 hj => by
      have hj : j < 1 := hj
      interval_cases j
      rfl) (by decide)
  rw [if_pos (by decide)] at hs
  rw [hs]
  refine ⟨by decide, by decide, by decide⟩

/-- C6, as amended. When the initial image has at most one nonzero byte in the
persistent range and no byte above `TOTALPATTERNS`, exactly one address of the
range holds a nonzero byte after `setup()` and after each commit of a valid
pattern, the commits at the last address included. -/
theorem single_nonzero_cell_after_boot_and_commits (e : EEPROM) (ps : List Nat)
    (hlen : 2 ≤ e.length)
    (hone : ∀ i j : Int, 0 ≤ i → i < e.length → 0 ≤ j → j < e.length →
      e.read i ≠ 0 → e.read j ≠ 0 → i = j)
    (hvalid : ∀ j : Int, 0 ≤ j → j < e.length → e.read j ≤ TOTALPATTERNS)
    (hps : ∀ p ∈ ps, 1 ≤ p ∧ p ≤ TOTALPATTERNS) :
    (commitAll (setup (initState e)) ps).eeprom.nonzeroCount = 1 := by
  by_cases hex : ∃ j : Int, 0 ≤ j ∧ j < e.length ∧ e.read j ≠ 0
  · obtain ⟨j, h0, hj, hnz⟩ := hex
    have hk : (j.toNat : Int) = j := Int.toNat_of_nonneg h0
    have hfirst := setup_first_nonzero e j.toNat (by omega)
      (fun i hi0 hij => by
        by_contra hne
        have := hone i j hi0 (by omega) h0 hj hne hnz
        omega)
      (by rw [hk]; exact hnz)
    rw [hk, if_pos (hvalid j h0 hj)] at hfirst
    rw [hfirst]
    apply commitAll_keeps_single_cell ps _ hlen h0 hj
    · exact hnz
    · intro i hi0 hil hne
      by_contra hnzi
      exact hne (hone i j hi0 hil h0 hj hnzi hnz)
    · exact hps
  · have hall : ∀ j : Int, 0 ≤ j → j < e.length → e.read j = 0 := by
      intro j h0 hj
      by_contra hne
      exact hex ⟨j, h0, hj, hne⟩
    have hdef := setup_no_valid e (by omega) (fun j h0 hj => Or.inl (hall j h0 hj))
    rw [hdef]
    have hw : ∀ i : Int, (defaultAdopted
        { initState e with strip := (initState e).strip.showPixels }).eeprom.read i
        = if e.cell i = e.cell 0 then DEFAULT_PATTERN % 256 else e.read i :=
      fun i => EEPROM.read_write e 0 DEFAULT_PATTERN i
    have hz0 : (0 : Int) < (e.length : Int) := by omega
    apply commitAll_keeps_single_cell ps _ hlen (le_refl _) hz0
    · show (defaultAdopted
        { initState e with strip := (initState e).strip.showPixels }).eeprom.read 0 ≠ 0
      rw [hw, if_pos rfl]; decide
    · intro i hi0 hil hne
      have hne : i ≠ 0 := hne
      have hil : i < e.length := hil
      rw [hw, EEPROM.cell_of_range e i hi0 hil,
        EEPROM.cell_of_range e 0 (le_refl _) hz0, if_neg hne]
      exact hall i hi0 hil
    · exact hps

/-- C6 as amended, witness: image `[0,0,5,0]`, then the commits of 7, 3 and 9,
which take the active address from 2 over the last address 3 to 0 and 1. -/
theorem single_nonzero_cell_after_boot_and_commits_witness :
    (commitAll (setup (initState (EEPROM.ofList [0, 0, 5, 0]))) [7, 3, 9]).eeprom.nonzeroCount
      = 1 :=
  single_nonzero_cell_after_boot_and_commits (EEPROM.ofList [0, 0, 5, 0]) [7, 3, 9] (by decide)
    (by
      intro i j hi0 hi hj0 hj hni hnj
      have hi : i < 4 := hi
      have hj : j < 4 := hj
      interval_cases i <;> interval_cases j <;>
        first
        | rfl
        | exact absurd rfl hni
        | exact absurd rfl hnj)
    (by
      intro j h0 h4
      have h4 : j < 4 := h4
      interval_cases j <;> decide)
    (by decide)

/-! ## Wear levelling -/

/-- The address after `k` commits that started at address 0. -/
theorem commit_iterate_address (s : State) (hlen : 1 ≤ s.eeprom.length)
    (h0 : s.eepromAddress = 0) (k : Nat) :
    (commit^[k] s).eepromAddress = ((k % s.eeprom.length : Nat) : Int) ∧
    (commit^[k] s).eeprom.length = s.eeprom.length := by
  induction k with
  | zero => simp [h0]
  | succ k ih =>
    rw [Function.iterate_succ_apply', commit_address, commit_length, ih.1, ih.2]
    refine ⟨?_, rfl⟩
    have hr : k % s.eeprom.length < s.eeprom.length := Nat.mod_lt _ (by omega)
    have hsucc : (k + 1) % s.eeprom.length = (k % s.eeprom.length + 1) % s.eeprom.length :=
      (Nat.mod_add_mod k s.eeprom.length 1).symm
    unfold advanceAddress
    by_cases hw : k % s.eeprom.length + 1 = s.eeprom.length
    · rw [if_pos (by exact_mod_cast hw), hsucc, hw, Nat.mod_self]
      rfl
    · rw [if_neg (by exact_mod_cast hw), hsucc,
        Nat.mod_eq_of_lt (show k % s.eeprom.length + 1 < s.eeprom.length by omega)]
      push_cast
      rfl

/-- C7. Uniform wear: starting from address 0, the new addresses produced by
`capacity` consecutive commits are pairwise distinct and are exactly the
addresses of `[0, capacity)`: every address is visited once before any
repeats. -/
theorem commits_visit_every_address_once (s : State) (hlen : 1 ≤ s.eeprom.length)
    (h0 : s.eepromAddress = 0) :
    ((List.range s.eeprom.length).map
      (fun (k : Nat) => (commit^[k + 1] s).eepromAddress)).Nodup ∧
    (∀ a : Int, a ∈ (List.range s.eeprom.length).map
        (fun (k : Nat) => (commit^[k + 1] s).eepromAddress) ↔
      0 ≤ a ∧ a < (s.eeprom.length : Int)) := by
  have hmap : (List.range s.eeprom.length).map
      (fun (k : Nat) => (commit^[k + 1] s).eepromAddress)
      = (List.range s.eeprom.length).map
          (fun (k : Nat) => (((k + 1) % s.eeprom.length : Nat) : Int)) :=
    List.map_congr_left (fun k _ => (commit_iterate_address s hlen h0 (k + 1)).1)
  rw [hmap]
  have hstep : ∀ k : Nat, k < s.eeprom.length →
      (k + 1) % s.eeprom.length = if k + 1 = s.eeprom.length then 0 else k + 1 := by
    intro k hk
    split_ifs with h
    · rw [h, Nat.mod_self]
    · exact Nat.mod_eq_of_lt (by omega)
  constructor
  · apply List.Nodup.map_on _ (List.nodup_range _)
    intro x hx y hy hxy
    have hx := List.mem_range.mp hx
    have hy := List.mem_range.mp hy
    have hxy : (x + 1) % s.eeprom.length = (y + 1) % s.eeprom.length := by exact_mod_cast hxy
    rw [hstep x hx, hstep y hy] at hxy
    split_ifs at hxy <;> omega
  · intro a
    simp only [List.mem_map, List.mem_range]
    constructor
    · rintro ⟨k, hk, rfl⟩
      have := Nat.mod_lt (k + 1) (show 0 < s.eeprom.length by omega)
      exact ⟨by positivity, by exact_mod_cast this⟩
    · rintro ⟨ha0, ha1⟩
      by_cases hz : a = 0
      · refine ⟨s.eeprom.length - 1, by omega, ?_⟩
        rw [hstep _ (by omega), if_pos (by omega), hz]
        rfl
      · refine ⟨a.toNat - 1, by omega, ?_⟩
        rw [hstep _ (by omega), if_neg (by omega)]
        omega

/-- C7, witness: capacity 4 from address 0; the new addresses are 1, 2, 3, 0. -/
theorem commits_visit_every_address_once_witness :
    (((List.range (initState (EEPROM.ofList [0, 0, 0, 0])).eeprom.length).map
      (fun (k : Nat) =>
        (commit^[k + 1] (initState (EEPROM.ofList [0, 0, 0, 0]))).eepromAddress)).Nodup ∧
    (∀ a : Int, a ∈ (List.range (initState (EEPROM.ofList [0, 0, 0, 0])).eeprom.length).map
        (fun (k : Nat) =>
          (commit^[k + 1] (initState (EEPROM.ofList [0, 0, 0, 0]))).eepromAddress) ↔
      0 ≤ a ∧ a < ((initState (EEPROM.ofList [0, 0, 0, 0])).eeprom.length : Int))) ∧
    (List.range 4).map
      (fun (k : Nat) =>
        (commit^[k + 1] (initState (EEPROM.ofList [0, 0, 0, 0]))).eepromAddress)
      = [1, 2, 3, 0] :=
  ⟨commits_visit_every_address_once (initState (EEPROM.ofList [0, 0, 0, 0]))
    (by decide) (by rfl), by decide⟩

/-! ## Mode cycling -/

/-- C9. Mode cycling: the pattern-advance step maps `p` to `p + 1` below
`TOTALPATTERNS` and `TOTALPATTERNS` to 1; from every valid pattern,
`TOTALPATTERNS` applications return the starting pattern and no smaller
positive number of applications does. -/
theorem nextPattern_cycle (p : Nat) (h1 : 1 ≤ p) (h2 : p ≤ TOTALPATTERNS) :
    (p < TOTALPATTERNS → nextPattern p = p + 1) ∧
    nextPattern TOTALPATTERNS = 1 ∧
    nextPattern^[TOTALPATTERNS] p = p ∧
    ∀ n : Nat, 0 < n → n < TOTALPATTERNS → nextPattern^[n] p ≠ p := by
  unfold TOTALPATTERNS at h2
  refine ⟨?_, by decide, ?_, ?_⟩
  · interval_cases p <;> decide
  · interval_cases p <;> decide
  · intro n hn0 hn
    unfold TOTALPATTERNS at hn
    interval_cases p <;> interval_cases n <;> decide

/-- C9, witness: from pattern 5. -/
theorem nextPattern_cycle_witness :
    ((5 : Nat) < TOTALPATTERNS → nextPattern 5 = 5 + 1) ∧
    nextPattern TOTALPATTERNS = 1 ∧
    nextPattern^[TOTALPATTERNS] 5 = 5 ∧
    ∀ n : Nat, 0 < n → n < TOTALPATTERNS → nextPattern^[n] 5 ≠ 5 :=
  nextPattern_cycle 5 (by decide) (by decide)

/-! ## Renderers leave the control state alone -/

theorem SameControl.refl (s : State) : SameControl s s :=
  ⟨rfl, rfl, rfl, rfl, rfl, rfl, rfl, rfl, rfl, rfl, rfl⟩

theorem SameControl.of_map {s t : State} {x : Option Strip} {f : Strip → State}
    (h : x.map f = some t) (hf : ∀ st, SameControl s (f st)) : SameControl s t := by
  cases x with
  | none => cases h
  | some st =>
    have : f st = t := Option.some.inj h
    rw [← this]; exact hf st

theorem theaterChase_control {fuel color : Nat} {wait : Int} {s t : State}
    (h : theaterChase fuel color wait s = some t) : SameControl s t := by
  unfold theaterChase at h
  exact SameControl.of_map h (fun _ => ⟨rfl, rfl, rfl, rfl, rfl, rfl, rfl, rfl, rfl, rfl, rfl⟩)

theorem theaterChaseTricolor_control {fuel c1 c2 c3 : Nat} {wait : Int} {s t : State}
    (h : theaterChaseTricolor fuel c1 c2 c3 wait s = some t) : SameControl s t := by
  unfold theaterChaseTricolor at h
  exact SameControl.of_map h (fun _ => ⟨rfl, rfl, rfl, rfl, rfl, rfl, rfl, rfl, rfl, rfl, rfl⟩)

theorem theaterChaseTricolorWidth_control {fuel c1 c2 c3 width : Nat} {wait : Int}
    {s t : State} (h : theaterChaseTricolorWidth fuel c1 c2 c3 width wait s = some t) :
    SameControl s t := by
  unfold theaterChaseTricolorWidth at h
  exact SameControl.of_map h (fun _ => ⟨rfl, rfl, rfl, rfl, rfl, rfl, rfl, rfl, rfl, rfl, rfl⟩)

theorem theaterChaseTricolorSpaces_control {fuel c1 c2 c3 : Nat} {wait : Int} {s t : State}
    (h : theaterChaseTricolorSpaces fuel c1 c2 c3 wait s = some t) : SameControl s t := by
  unfold theaterChaseTricolorSpaces at h
  exact SameControl.of_map h (fun _ => ⟨rfl, rfl, rfl, rfl, rfl, rfl, rfl, rfl, rfl, rfl, rfl⟩)

theorem theaterChaseRainbow_control {fuel wait : Nat} {s t : State}
    (h : theaterChaseRainbow fuel wait s = some t) : SameControl s t := by
  unfold theaterChaseRainbow at h
  exact SameControl.of_map h (fun _ => ⟨rfl, rfl, rfl, rfl, rfl, rfl, rfl, rfl, rfl, rfl, rfl⟩)

theorem alternatingBands_control {fuel c1 c2 width wait : Nat} {s t : State}
    (h : alternatingBands fuel c1 c2 width wait s = some t) : SameControl s t := by
  unfold alternatingBands at h
  simp only at h
  split_ifs at h <;> exact SameControl.of_map h (fun _ => ⟨rfl, rfl, rfl, rfl, rfl, rfl, rfl, rfl, rfl, rfl, rfl⟩)

theorem flashingColor_control (color wait : Nat) (s : State) :
    SameControl s (flashingColor color wait s) := by
  unfold flashingColor
  simp only
  split_ifs <;> exact SameControl.refl s

theorem emergency_control (c1 c2 wait : Nat) (s : State) :
    SameControl s (emergency c1 c2 wait s) := by
  unfold emergency
  simp only
  split_ifs <;> exact SameControl.refl s

/-- No renderer changes the pattern, the store, the strip length or an
input-polling variable. -/
theorem renderFrame_control {fuel : Nat} {s t : State} (h : renderFrame fuel s = some t) :
    SameControl s t := by
  unfold renderFrame at h
  split at h
  · cases h; exact SameControl.refl s
  · cases h; exact SameControl.refl s
  · exact theaterChaseTricolor_control h
  · cases h; exact SameControl.refl s
  · exact theaterChaseRainbow_control h
  · cases h; exact SameControl.refl s
  · exact theaterChaseTricolorSpaces_control h
  · cases h; exact SameControl.refl s
  · cases h; exact flashingColor_control _ _ s
  · exact theaterChase_control h
  · cases h; exact emergency_control _ _ _ s
  · exact alternatingBands_control h
  · exact theaterChaseTricolorWidth_control h
  · cases h; exact flashingColor_control _ _ s

/-! ## Every frame of the pattern table returns -/

theorem bind_returns {α β : Type} {x : Option α} {f : α → Option β}
    (hx : ∃ a, x = some a) (hf : ∀ a, ∃ b, f a = some b) : ∃ b, x.bind f = some b := by
  obtain ⟨a, rfl⟩ := hx
  exact hf a

theorem map_returns {α β : Type} {x : Option α} (f : α → β)
    (hx : ∃ a, x = some a) : ∃ b, x.map f = some b := by
  obtain ⟨a, rfl⟩ := hx
  exact ⟨f a, rfl⟩

/-- A stride loop whose counter cannot wrap before it passes the bound returns,
given fuel for the distance to the bound. -/
theorem forStride_returns {body : Nat → Strip → Option Strip} {bound step : Nat}
    (hbody : ∀ c st, ∃ r, body c st = some r) (hstep : 0 < step)
    (hwrap : bound + step ≤ 65536) :
    ∀ (fuel c : Nat) (st : Strip), bound - c < fuel →
      ∃ r, forStride body bound step fuel c st = some r := by
  intro fuel
  induction fuel with
  | zero => intro c st h; omega
  | succ fuel ih =>
    intro c st h
    unfold forStride
    split_ifs with hc
    · obtain ⟨st1, h1⟩ := hbody c st
      rw [h1]
      have hmod : (c + step) % 65536 = c + step := Nat.mod_eq_of_lt (by omega)
      rw [hmod]
      exact ih (c + step) st1 (by omega)
    · exact ⟨st, rfl⟩

theorem setPixel_body_returns (f : Nat → Strip → Strip) :
    ∀ c st, ∃ r, (fun c st => some (f c st)) c st = some r :=
  fun c st => ⟨f c st, rfl⟩

theorem theaterChase_returns (fuel color : Nat) (wait : Int) (s : State)
    (hN : s.pixelNumber + 6 ≤ 65536) (hfuel : s.pixelNumber < fuel) :
    ∃ t, theaterChase fuel color wait s = some t := by
  unfold theaterChase
  exact map_returns _
    (forStride_returns (setPixel_body_returns _) (by decide) (by omega) _ _ _ (by omega))

theorem theaterChaseTricolor_returns (fuel c1 c2 c3 : Nat) (wait : Int) (s : State)
    (hN : s.pixelNumber + 6 ≤ 65536) (hfuel : s.pixelNumber < fuel) :
    ∃ t, theaterChaseTricolor fuel c1 c2 c3 wait s = some t := by
  unfold theaterChaseTricolor
  refine map_returns _ (bind_returns (bind_returns ?_ ?_) ?_)
  · exact forStride_returns (setPixel_body_returns _) (by decide) (by omega) _ _ _ (by omega)
  · intro a
    exact forStride_returns (setPixel_body_returns _) (by decide) (by omega) _ _ _ (by omega)
  · intro a
    exact forStride_returns (setPixel_body_returns _) (by decide) (by omega) _ _ _ (by omega)

theorem theaterChaseTricolorSpaces_returns (fuel c1 c2 c3 : Nat) (wait : Int) (s : State)
    (hN : s.pixelNumber + 6 ≤ 65536) (hfuel : s.pixelNumber < fuel) :
    ∃ t, theaterChaseTricolorSpaces fuel c1 c2 c3 wait s = some t := by
  unfold theaterChaseTricolorSpaces
  refine map_returns _ (bind_returns (bind_returns (bind_returns ?_ ?_) ?_) ?_)
  · exact forStride_returns (setPixel_body_returns _) (by decide) (by omega) _ _ _ (by omega)
  · intro a
    exact forStride_returns (setPixel_body_returns _) (by decide) (by omega) _ _ _ (by omega)
  · intro a
    exact forStride_returns (setPixel_body_returns _) (by decide) (by omega) _ _ _ (by omega)
  · intro a
    exact forStride_returns (setPixel_body_returns _) (by decide) (by omega) _ _ _ (by omega)

theorem theaterChaseRainbow_returns (fuel wait : Nat) (s : State)
    (hN : s.pixelNumber + 6 ≤ 65536) (hfuel : s.pixelNumber < fuel) :
    ∃ t, theaterChaseRainbow fuel wait s = some t := by
  unfold theaterChaseRainbow
  refine map_returns _ (bind_returns ?_ ?_)
  · exact forStride_returns (setPixel_body_returns _) (by decide) (by omega) _ _ _ (by omega)
  · intro a
    exact forStride_returns (setPixel_body_returns _) (by decide) (by omega) _ _ _ (by omega)

/-- One of the twelve passes of `theaterChaseTricolorWidth` at width 3. -/
theorem widthPass_returns (fuel : Nat) (s : State) (color : Nat) (k : Int) (st : Strip)
    (hN : s.pixelNumber + 18 ≤ 65536) (hfuel : s.pixelNumber < fuel) :
    ∃ r, widthPass fuel s 3 color k st = some r := by
  unfold widthPass
  have hstep : u32 (6 * ((3 : Nat) : Int)) = 18 := by decide
  rw [hstep]
  refine forStride_returns ?_ (by decide) hN _ _ _ (by omega)
  intro c st1
  exact ⟨_, if_pos (by decide)⟩

theorem theaterChaseTricolorWidth_returns (fuel c1 c2 c3 : Nat) (wait : Int) (s : State)
    (hN : s.pixelNumber + 18 ≤ 65536) (hfuel : s.pixelNumber < fuel) :
    ∃ t, theaterChaseTricolorWidth fuel c1 c2 c3 3 wait s = some t := by
  unfold theaterChaseTricolorWidth
  have hw : 3 % 4294967296 = 3 := by decide
  simp only [hw]
  refine map_returns _ ?_
  repeat' first
    | exact widthPass_returns fuel s _ _ _ hN hfuel
    | (intro a; exact widthPass_returns fuel s _ _ a hN hfuel)
    | apply bind_returns

theorem bandStep_fst_le (n color : Nat) (hn : n ≤ 65535) (p : Nat × Strip) :
    p.1 ≤ (bandStep n color p).1 := by
  unfold bandStep
  split_ifs with h
  · have : (p.1 + 1) % 65536 = p.1 + 1 := Nat.mod_eq_of_lt (by omega)
    simp only [this]; omega
  · exact le_refl _

theorem bandStep_fst_lt (n color : Nat) (hn : n ≤ 65535) (p : Nat × Strip) (h : p.1 < n) :
    p.1 < (bandStep n color p).1 := by
  unfold bandStep
  rw [if_pos h]
  have : (p.1 + 1) % 65536 = p.1 + 1 := Nat.mod_eq_of_lt (by omega)
  simp only [this]; omega

theorem bandStep_iterate_fst_le (n color : Nat) (hn : n ≤ 65535) (k : Nat) :
    ∀ p : Nat × Strip, p.1 ≤ ((bandStep n color)^[k] p).1 := by
  induction k with
  | zero => intro p; exact le_refl _
  | succ k ih =>
    intro p
    rw [Function.iterate_succ_apply]
    exact le_trans (bandStep_fst_le n color hn p) (ih _)

/-- One pass of the outer loop of `alternatingBands` moves the counter forward
when the band width is positive. -/
theorem bands_pass_advances (n w first second : Nat) (hn : n ≤ 65535) (hw : 0 < w)
    (i : Nat) (st : Strip) (hi : i < n) :
    i < ((bandStep n second)^[w] ((bandStep n first)^[w] (i, st))).1 := by
  obtain ⟨k, rfl⟩ : ∃ k, w = k + 1 := ⟨w - 1, by omega⟩
  have h1 : i < ((bandStep n first)^[k + 1] (i, st)).1 := by
    rw [Function.iterate_succ_apply]
    exact lt_of_lt_of_le (bandStep_fst_lt n first hn (i, st) hi)
      (bandStep_iterate_fst_le n first hn k _)
  exact lt_of_lt_of_le h1 (bandStep_iterate_fst_le n second hn (k + 1) _)

theorem bandsLoop_returns (n w first second : Nat) (hn : n ≤ 65535) (hw : 0 < w) :
    ∀ (fuel i : Nat) (st : Strip), n - i < fuel →
      ∃ r, bandsLoop n w first second fuel i st = some r := by
  intro fuel
  induction fuel with
  | zero => intro i st h; omega
  | succ fuel ih =>
    intro i st h
    unfold bandsLoop
    split_ifs with hi
    · have := bands_pass_advances n w first second hn hw i st hi
      exact ih _ _ (by omega)
    · exact ⟨st, rfl⟩

theorem alternatingBands_returns (fuel c1 c2 wait : Nat) (s : State)
    (hN : s.pixelNumber + 18 ≤ 65536) (hfuel : s.pixelNumber < fuel) :
    ∃ t, alternatingBands fuel c1 c2 10 wait s = some t := by
  unfold alternatingBands
  simp only
  split_ifs <;>
    exact map_returns _ (bandsLoop_returns _ _ _ _ (by omega) (by decide) _ _ _ (by omega))

/-- One of the twelve passes of `theaterChaseTricolorWidth` at a width of at
least 1 that the strip length leaves room for: the step `6 * width` is not 0
and the 16-bit counter cannot wrap before it passes the bound. -/
theorem widthPass_returns_of_room (fuel : Nat) (s : State) (w color : Nat) (k : Int)
    (st : Strip) (hw : 1 ≤ w) (hN : s.pixelNumber + 6 * w ≤ 65536)
    (hfuel : s.pixelNumber < fuel) :
    ∃ r, widthPass fuel s w color k st = some r := by
  unfold widthPass
  have hstep : u32 (6 * (w : Int)) = 6 * w := by
    unfold u32
    have h : (6 * (w : Int)) % 4294967296 = 6 * (w : Int) :=
      Int.emod_eq_of_lt (by omega) (by omega)
    rw [h]
    omega
  rw [hstep]
  refine forStride_returns ?_ (by omega) hN _ _ _ (by omega)
  intro c st1
  exact ⟨_, if_pos (by omega)⟩

/-- The renderer `theaterChaseTricolorWidth` returns for every width of at
least 1 that the strip length leaves room for. -/
theorem theaterChaseTricolorWidth_returns_of_room (fuel c1 c2 c3 width : Nat) (wait : Int)
    (s : State) (hw : 1 ≤ width) (hN : s.pixelNumber + 6 * width ≤ 65536)
    (hfuel : s.pixelNumber < fuel) :
    ∃ t, theaterChaseTricolorWidth fuel c1 c2 c3 width wait s = some t := by
  unfold theaterChaseTricolorWidth
  have hmod : width % 4294967296 = width := Nat.mod_eq_of_lt (by omega)
  simp only [hmod]
  refine map_returns _ ?_
  repeat' first
    | exact widthPass_returns_of_room fuel s _ _ _ _ hw hN hfuel
    | (intro a; exact widthPass_returns_of_room fuel s _ _ _ a hw hN hfuel)
    | apply bind_returns

/-- The renderer `alternatingBands` returns for every width that is not 0 as a
`uint8_t`. -/
theorem alternatingBands_returns_of_width (fuel c1 c2 width wait : Nat) (s : State)
    (hw : width % 256 ≠ 0) (hN : s.pixelNumber ≤ 65535) (hfuel : s.pixelNumber < fuel) :
    ∃ t, alternatingBands fuel c1 c2 width wait s = some t := by
  unfold alternatingBands
  simp only
  split_ifs <;>
    exact map_returns _ (bandsLoop_returns _ _ _ _ hN (by omega) _ _ _ (by omega))

/-- Every case of the `switch` returns on a strip short enough for the 16-bit
loop counters (at most 65518 pixels), given fuel above the strip length. -/
theorem renderFrame_returns (fuel : Nat) (s : State)
    (hN : s.pixelNumber + 18 ≤ 65536) (hfuel : s.pixelNumber < fuel) :
    ∃ t, renderFrame fuel s = some t := by
  unfold renderFrame
  split
  · exact ⟨_, rfl⟩
  · exact ⟨_, rfl⟩
  · exact theaterChaseTricolor_returns _ _ _ _ _ s (by omega) hfuel
  · exact ⟨_, rfl⟩
  · exact theaterChaseRainbow_returns _ _ s (by omega) hfuel
  · exact ⟨_, rfl⟩
  · exact theaterChaseTricolorSpaces_returns _ _ _ _ _ s (by omega) hfuel
  · exact ⟨_, rfl⟩
  · exact ⟨_, rfl⟩
  · exact theaterChase_returns _ _ _ s (by omega) hfuel
  · exact ⟨_, rfl⟩
  · exact alternatingBands_returns _ _ _ _ s hN hfuel
  · exact theaterChaseTricolorWidth_returns _ _ _ _ _ s hN hfuel
  · exact ⟨_, rfl⟩

theorem frameHandler_returns (fuel : Nat) (s : State)
    (hN : s.pixelNumber + 18 ≤ 65536) (hfuel : s.pixelNumber < fuel) :
    ∃ t, frameHandler fuel s = some t := by
  unfold frameHandler
  split_ifs
  · exact renderFrame_returns fuel _ hN hfuel
  · exact ⟨s, rfl⟩

theorem frameHandler_control {fuel : Nat} {s t : State} (h : frameHandler fuel s = some t) :
    SameControl s t := by
  unfold frameHandler at h
  split_ifs at h
  · exact @renderFrame_control fuel { s with pixelPrevious := s.currentMillis } t h
  · cases h; exact SameControl.refl s

/-! ## The pattern stays inside the table -/

theorem nextPattern_valid (p : Nat) (h1 : 1 ≤ p) (h2 : p ≤ TOTALPATTERNS) :
    1 ≤ nextPattern p ∧ nextPattern p ≤ TOTALPATTERNS := by
  unfold nextPattern
  unfold TOTALPATTERNS at *
  split_ifs <;> omega

theorem nextPattern_ne (p : Nat) : nextPattern p ≠ p := by
  unfold nextPattern TOTALPATTERNS
  split_ifs <;> omega

/-- After `setup()` the pattern is valid and equals the byte at the active
address, and the strip length is the configured one. -/
theorem setup_valid (e : EEPROM) (hlen : 1 ≤ e.length) :
    PatternValid (setup (initState e)) ∧ (setup (initState e)).pixelNumber = LED_COUNT := by
  by_cases hex : ∃ k : Nat, k < e.length ∧ e.read k ≠ 0
  · have hk := Nat.find_spec hex
    have hmin := fun m (hm : m < Nat.find hex) => Nat.find_min hex hm
    have hz : ∀ j : Int, 0 ≤ j → j < (Nat.find hex : Nat) → e.read j = 0 := by
      intro j h0 hj
      have hjn : j.toNat < Nat.find hex := by omega
      have := hmin j.toNat hjn
      rw [not_and_or, not_not] at this
      rcases this with h | h
      · omega
      · rwa [Int.toNat_of_nonneg h0] at h
    rw [setup_first_nonzero e (Nat.find hex) hk.1 hz hk.2]
    split_ifs with hv
    · refine ⟨⟨?_, hv, ?_, hv⟩, rfl⟩
      · exact Nat.one_le_iff_ne_zero.mpr hk.2
      · exact Nat.one_le_iff_ne_zero.mpr hk.2
    · refine ⟨⟨?_, ?_, ?_, ?_⟩, rfl⟩ <;>
        simp [defaultAdopted, EEPROM.read, EEPROM.write, EEPROM.cell, DEFAULT_PATTERN, TOTALPATTERNS]
  · have hall : ∀ j : Int, 0 ≤ j → j < e.length → e.read j = 0 ∨ TOTALPATTERNS < e.read j := by
      intro j h0 hj
      left
      by_contra hne
      exact hex ⟨j.toNat, by omega, by rwa [Int.toNat_of_nonneg h0]⟩
    rw [setup_no_valid e hlen hall]
    refine ⟨⟨?_, ?_, ?_, ?_⟩, rfl⟩ <;>
      simp [defaultAdopted, EEPROM.read, EEPROM.write, EEPROM.cell, DEFAULT_PATTERN, TOTALPATTERNS]

/-- A commit of a valid pattern leaves it at the new active address. -/
theorem commit_valid (s : State) (h : PatternValid s) : PatternValid (commit s) := by
  obtain ⟨h1, h2, _, _⟩ := h
  have hrd : (commit s).eeprom.read (commit s).eepromAddress = s.pattern := by
    rw [commit_read, commit_address, if_pos rfl]
    exact Nat.mod_eq_of_lt (by unfold TOTALPATTERNS at h2; omega)
  exact ⟨h1, h2, by rw [hrd]; exact h1, by rw [hrd]; exact h2⟩

theorem modeBlock_valid (s : State) (modePin : Bool) (h : PatternValid s) :
    PatternValid (modeBlock s modePin) := by
  obtain ⟨h1, h2, h3, h4⟩ := h
  have hnext := nextPattern_valid s.pattern h1 h2
  unfold modeBlock
  simp only
  cases modePin
  · simp only [Bool.not_false, if_true, Bool.false_and, Bool.false_eq_true, if_false]
    exact ⟨hnext.1, hnext.2, h3, h4⟩
  · simp only [Bool.not_true, Bool.false_eq_true, if_false]
    split_ifs
    · exact commit_valid _ ⟨h1, h2, h3, h4⟩
    · exact ⟨h1, h2, h3, h4⟩

theorem modeHandler_valid (s : State) (modePin : Bool) (h : PatternValid s) :
    PatternValid (modeHandler s modePin) := by
  unfold modeHandler
  split_ifs
  · exact modeBlock_valid s modePin h
  · exact h

theorem modeHandler_pixelNumber (s : State) (modePin : Bool) :
    (modeHandler s modePin).pixelNumber = s.pixelNumber := by
  unfold modeHandler modeBlock
  simp only
  split_ifs <;> rfl

theorem PatternValid.of_control {s t : State} (hc : SameControl s t) (h : PatternValid s) :
    PatternValid t := by
  obtain ⟨c1, c2, c3, _⟩ := hc
  unfold PatternValid
  rw [c1, c2, c3]
  exact h

/-- One iteration of `loop()` keeps the pattern invariant and the strip length. -/
theorem loop_valid {fuel : Nat} {s t : State} {inp : Inputs}
    (h : PatternValid s) (hrun : loop fuel s inp = some t) :
    PatternValid t ∧ t.pixelNumber = s.pixelNumber := by
  obtain ⟨h1, h2, h3, h4⟩ := h
  unfold loop at hrun
  simp only at hrun
  split_ifs at hrun
  · have hc := frameHandler_control hrun
    refine ⟨PatternValid.of_control hc (modeHandler_valid _ _ ⟨le_refl 1, (by decide : 1 ≤ TOTALPATTERNS), h3, h4⟩), ?_⟩
    rw [hc.2.2.2.1, modeHandler_pixelNumber]
  · have hc := frameHandler_control hrun
    refine ⟨PatternValid.of_control hc (modeHandler_valid _ _ ⟨h3, h4, h3, h4⟩), ?_⟩
    rw [hc.2.2.2.1, modeHandler_pixelNumber]
  · cases hrun
    exact ⟨⟨h1, h2, h3, h4⟩, rfl⟩
  · have hc := frameHandler_control hrun
    refine ⟨PatternValid.of_control hc (modeHandler_valid _ _ ⟨h1, h2, h3, h4⟩), ?_⟩
    rw [hc.2.2.2.1, modeHandler_pixelNumber]

/-- One iteration of `loop()` returns on a strip short enough for the 16-bit
loop counters, given fuel above the strip length. -/
theorem loop_returns (fuel : Nat) (s : State) (inp : Inputs)
    (hN : s.pixelNumber + 18 ≤ 65536) (hfuel : s.pixelNumber < fuel) :
    ∃ t, loop fuel s inp = some t := by
  unfold loop
  simp only
  split_ifs
  · exact frameHandler_returns fuel _ (by rw [modeHandler_pixelNumber]; exact hN)
      (by rw [modeHandler_pixelNumber]; exact hfuel)
  · exact frameHandler_returns fuel _ (by rw [modeHandler_pixelNumber]; exact hN)
      (by rw [modeHandler_pixelNumber]; exact hfuel)
  · exact ⟨_, rfl⟩
  · exact frameHandler_returns fuel _ (by rw [modeHandler_pixelNumber]; exact hN)
      (by rw [modeHandler_pixelNumber]; exact hfuel)

/-- Every run of `loop()` iterations from a valid state returns a valid state. -/
theorem run_valid (fuel : Nat) : ∀ (inputs : List Inputs) (s : State),
    PatternValid s → s.pixelNumber + 18 ≤ 65536 → s.pixelNumber < fuel →
    ∃ t, run fuel s inputs = some t ∧ PatternValid t ∧ t.pixelNumber = s.pixelNumber := by
  intro inputs
  induction inputs with
  | nil => intro s h _ _; exact ⟨s, rfl, h, rfl⟩
  | cons inp rest ih =>
    intro s h hN hfuel
    obtain ⟨s1, hs1⟩ := loop_returns fuel s inp hN hfuel
    obtain ⟨hv, hpn⟩ := loop_valid h hs1
    obtain ⟨t, ht, htv, htn⟩ := ih s1 hv (by rw [hpn]; exact hN) (by rw [hpn]; exact hfuel)
    exact ⟨t, by simp only [run, hs1, Option.some_bind, ht], htv, by rw [htn, hpn]⟩

/-- C8. Active-pattern range invariant: for every initial storage image of
capacity at least 2 and every sequence of clock readings and Mode/Toggle
levels, `setup()` followed by any number of `loop()` iterations returns, and
the variable `pattern` is then in `[1, TOTALPATTERNS]`.  (The empty sequence is
the state `setup()` returns; no renderer changes `pattern`, so the value the
`switch` sees is the one of the end of the iteration.) -/
theorem pattern_stays_in_table (e : EEPROM) (inputs : List Inputs) (fuel : Nat)
    (hlen : 2 ≤ e.length) (hfuel : LED_COUNT < fuel) :
    ∃ t, run fuel (setup (initState e)) inputs = some t ∧
      1 ≤ t.pattern ∧ t.pattern ≤ TOTALPATTERNS := by
  obtain ⟨hv, hpn⟩ := setup_valid e (by omega)
  obtain ⟨t, ht, htv, _⟩ := run_valid fuel inputs (setup (initState e)) hv
    (by rw [hpn]; decide) (by rw [hpn]; exact hfuel)
  exact ⟨t, ht, htv.1, htv.2.1⟩

/-- C8, witness: storage `[0,0,0,0]`, three iterations with Toggle high and
Mode low, low, high. -/
theorem pattern_stays_in_table_witness :
    ∃ t, run 100 (setup (initState (EEPROM.ofList [0, 0, 0, 0])))
        [⟨201, true, false⟩, ⟨2200, true, false⟩, ⟨2202, true, true⟩] = some t ∧
      1 ≤ t.pattern ∧ t.pattern ≤ TOTALPATTERNS :=
  pattern_stays_in_table (EEPROM.ofList [0, 0, 0, 0])
    [⟨201, true, false⟩, ⟨2200, true, false⟩, ⟨2202, true, true⟩] 100
    (by decide) (by decide)

/-! ## Mode handling -/

/-- C10, counterexample: booted on storage `[0,0,0,0]` with Toggle high and
the Mode line held low.  The Mode line is sampled low at 201 ms (pattern 2
becomes 3); the iteration at 2200 ms ends in the toggle block; at 2202 ms the
Mode line is resampled, the previous sample being low and the new one low
again, and the pattern is advanced from 3 to 4 although this is no falling
edge. -/
theorem mode_low_after_low_advances :
    (run 100 (setup (initState (EEPROM.ofList [0, 0, 0, 0])))
        [⟨201, true, false⟩, ⟨2200, true, false⟩]).map
      (fun t => (t.pattern, t.modeState, t.currentModeMillis)) = some (3, false, 201) ∧
    (run 100 (setup (initState (EEPROM.ofList [0, 0, 0, 0])))
        [⟨201, true, false⟩, ⟨2200, true, false⟩, ⟨2202, true, false⟩]).map
      (fun t => (t.pattern, t.modeStatePrevious, t.modeState, t.currentModeMillis))
      = some (4, false, false, 2202) ∧
    nextPattern 3 = 4 := by
  have hs := setup_no_valid (EEPROM.ofList [0, 0, 0, 0]) (by decide)
    (fun j h0 h4 => by
      left
      have h4 : j < 4 := h4
      interval_cases j <;> rfl)
  rw [hs]
  refine ⟨by decide, by decide, by decide⟩

/-- C10, as amended. Whenever the Mode line is resampled in `loop()` (the
mode interval test passes), the new level is recorded with the previous one,
and the pattern is advanced by one (with wrap) if and only if the sample reads
low, whatever the previous level was; a high sample leaves the pattern as it
is. -/
theorem mode_advances_on_low_level (s : State) (modePin : Bool)
    (h : MODEDELAY < sub32 s.currentMillis s.currentModeMillis) :
    (modeHandler s modePin).modeState = modePin ∧
    (modeHandler s modePin).modeStatePrevious = s.modeState ∧
    ((modeHandler s modePin).pattern = nextPattern s.pattern ↔ modePin = false) ∧
    ((modeHandler s modePin).pattern = s.pattern ↔ modePin = true) := by
  unfold modeHandler
  rw [if_pos h]
  have hne := nextPattern_ne s.pattern
  have hne2 : ¬ s.pattern = nextPattern s.pattern := fun h => hne h.symm
  cases modePin
  · simp [modeBlock, hne]
  · unfold modeBlock
    simp only [Bool.not_true, Bool.false_eq_true, if_false]
    split_ifs <;> simp [commit, hne2]

/-- C10 as amended, witness: pattern 3, Mode last sampled low at 201 ms, now
2202 ms, sampled low again. -/
theorem mode_advances_on_low_level_witness :
    (modeHandler { initState (EEPROM.ofList [2, 0, 0, 0]) with
        pattern := 3, currentMillis := 2202, currentModeMillis := 201 } false).modeState
      = false ∧
    (modeHandler { initState (EEPROM.ofList [2, 0, 0, 0]) with
        pattern := 3, currentMillis := 2202, currentModeMillis := 201 } false).modeStatePrevious
      = ({ initState (EEPROM.ofList [2, 0, 0, 0]) with
        pattern := 3, currentMillis := 2202, currentModeMillis := 201 } : State).modeState ∧
    ((modeHandler { initState (EEPROM.ofList [2, 0, 0, 0]) with
        pattern := 3, currentMillis := 2202, currentModeMillis := 201 } false).pattern
      = nextPattern ({ initState (EEPROM.ofList [2, 0, 0, 0]) with
        pattern := 3, currentMillis := 2202, currentModeMillis := 201 } : State).pattern
      ↔ false = false) ∧
    ((modeHandler { initState (EEPROM.ofList [2, 0, 0, 0]) with
        pattern := 3, currentMillis := 2202, currentModeMillis := 201 } false).pattern
      = ({ initState (EEPROM.ofList [2, 0, 0, 0]) with
        pattern := 3, currentMillis := 2202, currentModeMillis := 201 } : State).pattern
      ↔ false = true) :=
  mode_advances_on_low_level
    { initState (EEPROM.ofList [2, 0, 0, 0]) with
        pattern := 3, currentMillis := 2202, currentModeMillis := 201 } false (by decide)

/-! ## The shape of one `loop()` iteration -/

theorem toggleHandler_returns_iff (s : State) (inp : Inputs) :
    (toggleHandler (tick s inp) inp.togglePin).2 = returnsEarly s inp := by
  unfold toggleHandler returnsEarly toggleSampled tick
  simp only
  cases inp.togglePin <;> cases s.toggleState <;> split_ifs <;> simp_all

/-- One iteration of `loop()` is its toggle part, then, unless that part
returned, its mode part and its frame part. -/
theorem loop_eq_handlers (fuel : Nat) (s : State) (inp : Inputs) :
    loop fuel s inp =
      if (toggleHandler (tick s inp) inp.togglePin).2 then
        some (toggleHandler (tick s inp) inp.togglePin).1
      else
        frameHandler fuel
          (modeHandler (toggleHandler (tick s inp) inp.togglePin).1 inp.modePin) := by
  unfold loop toggleHandler tick
  simp only
  cases inp.togglePin <;> cases s.toggleState <;> split_ifs <;> simp_all

/-- What the toggle part leaves alone. -/
theorem toggleHandler_frame (s : State) (inp : Inputs) :
    (toggleHandler (tick s inp) inp.togglePin).1.eeprom = s.eeprom ∧
    (toggleHandler (tick s inp) inp.togglePin).1.eepromAddress = s.eepromAddress ∧
    (toggleHandler (tick s inp) inp.togglePin).1.currentMillis = inp.millis % 4294967296 ∧
    (toggleHandler (tick s inp) inp.togglePin).1.currentModeMillis = s.currentModeMillis ∧
    (toggleHandler (tick s inp) inp.togglePin).1.modeState = s.modeState ∧
    (toggleHandler (tick s inp) inp.togglePin).1.modeStatePrevious = s.modeStatePrevious ∧
    (toggleHandler (tick s inp) inp.togglePin).1.pixelNumber = s.pixelNumber ∧
    (toggleHandler (tick s inp) inp.togglePin).1.pixelInterval = s.pixelInterval ∧
    (toggleHandler (tick s inp) inp.togglePin).1.pixelPrevious = s.pixelPrevious ∧
    (toggleHandler (tick s inp) inp.togglePin).1.strip = s.strip := by
  unfold toggleHandler tick
  simp only
  split_ifs <;> exact ⟨rfl, rfl, rfl, rfl, rfl, rfl, rfl, rfl, rfl, rfl⟩

/-- The toggle fields after the toggle part: updated when the line is
resampled, untouched otherwise. -/
theorem toggleHandler_fields (s : State) (inp : Inputs) :
    (toggleSampled s inp = true →
      (toggleHandler (tick s inp) inp.togglePin).1.currentToggleMillis
        = inp.millis % 4294967296 ∧
      (toggleHandler (tick s inp) inp.togglePin).1.toggleState = inp.togglePin ∧
      (toggleHandler (tick s inp) inp.togglePin).1.toggleStatePrevious = s.toggleState) ∧
    (toggleSampled s inp = false →
      toggleHandler (tick s inp) inp.togglePin = (tick s inp, false)) := by
  unfold toggleHandler toggleSampled tick
  simp only [decide_eq_true_eq, decide_eq_false_iff_not]
  constructor
  · intro h
    rw [if_pos h]
    split_ifs <;> exact ⟨rfl, rfl, rfl⟩
  · intro h
    rw [if_neg h]

/-- The pattern the toggle part hands on: 1 on a low sample, the stored byte
on a rising edge, the previous pattern otherwise. -/
theorem patternAfterToggle_eq (s : State) (inp : Inputs) :
    patternAfterToggle s inp =
      if toggleSampled s inp then
        if !inp.togglePin then 1
        else if !s.toggleState then s.eeprom.read s.eepromAddress
        else s.pattern
      else s.pattern := by
  unfold patternAfterToggle toggleHandler toggleSampled tick
  simp only [decide_eq_true_eq]
  split_ifs <;> rfl

/-- What the mode part does to the store: a commit of the current pattern
when the line is resampled on a rising edge with a pattern that differs from
the stored byte, nothing otherwise. -/
theorem modeHandler_store (m : State) (pin : Bool) :
    ((decide (MODEDELAY < sub32 m.currentMillis m.currentModeMillis) && !m.modeState && pin
        && (m.pattern != m.eeprom.read m.eepromAddress)) = true →
      (modeHandler m pin).eeprom = (commit m).eeprom ∧
      (modeHandler m pin).eepromAddress = (commit m).eepromAddress ∧
      (modeHandler m pin).pattern = m.pattern) ∧
    ((decide (MODEDELAY < sub32 m.currentMillis m.currentModeMillis) && !m.modeState && pin
        && (m.pattern != m.eeprom.read m.eepromAddress)) = false →
      (modeHandler m pin).eeprom = m.eeprom ∧
      (modeHandler m pin).eepromAddress = m.eepromAddress) := by
  unfold modeHandler modeBlock
  by_cases hel : MODEDELAY < sub32 m.currentMillis m.currentModeMillis
  · simp only [hel, if_true, decide_True, Bool.true_and]
    cases pin <;> cases hms : m.modeState <;>
      by_cases hp : m.pattern = m.eeprom.read m.eepromAddress <;>
      simp [hp, commit]
  · simp [hel]

/-- The mode fields after the mode part: updated when its interval test
passes, untouched otherwise. -/
theorem modeHandler_fields (m : State) (pin : Bool) :
    (MODEDELAY < sub32 m.currentMillis m.currentModeMillis →
      (modeHandler m pin).currentModeMillis = m.currentMillis ∧
      (modeHandler m pin).modeState = pin ∧
      (modeHandler m pin).modeStatePrevious = m.modeState ∧
      (modeHandler m pin).pattern = if pin then m.pattern else nextPattern m.pattern) ∧
    (¬ MODEDELAY < sub32 m.currentMillis m.currentModeMillis → modeHandler m pin = m) := by
  unfold modeHandler modeBlock
  constructor
  · intro hel
    simp only [hel, if_true]
    cases pin
    · simp
    · simp only [Bool.not_true, Bool.false_eq_true, if_false, if_true]
      split_ifs <;> exact ⟨rfl, rfl, rfl, rfl⟩
  · intro hel
    rw [if_neg hel]

/-- What the mode part leaves alone. -/
theorem modeHandler_frame (m : State) (pin : Bool) :
    (modeHandler m pin).currentMillis = m.currentMillis ∧
    (modeHandler m pin).currentToggleMillis = m.currentToggleMillis ∧
    (modeHandler m pin).toggleState = m.toggleState ∧
    (modeHandler m pin).toggleStatePrevious = m.toggleStatePrevious ∧
    (modeHandler m pin).pixelInterval = m.pixelInterval ∧
    (modeHandler m pin).pixelPrevious = m.pixelPrevious ∧
    (modeHandler m pin).strip = m.strip ∧
    (modeHandler m pin).eeprom.length = m.eeprom.length := by
  unfold modeHandler modeBlock
  simp only
  split_ifs <;> exact ⟨rfl, rfl, rfl, rfl, rfl, rfl, rfl, rfl⟩

/-- The store after a commit depends on the store, the cursor and the pattern
only. -/
theorem commit_store_congr (m s : State) (he : m.eeprom = s.eeprom)
    (ha : m.eepromAddress = s.eepromAddress) :
    (commit m).eeprom = (commit { s with pattern := m.pattern }).eeprom ∧
    (commit m).eepromAddress = (commit { s with pattern := m.pattern }).eepromAddress := by
  constructor <;> simp [commit, he, ha]

/-- The store across one iteration of `loop()`: on a lock action it is the
store after the commit of the pattern the toggle part handed on, on any other
iteration it is untouched, write counter included. -/
theorem loop_store {fuel : Nat} {s t : State} {inp : Inputs}
    (h : loop fuel s inp = some t) :
    (lockAction s inp = true →
      t.eeprom = (commit { s with pattern := patternAfterToggle s inp }).eeprom ∧
      t.eepromAddress
        = (commit { s with pattern := patternAfterToggle s inp }).eepromAddress ∧
      t.pattern = patternAfterToggle s inp) ∧
    (lockAction s inp = false → t.eeprom = s.eeprom ∧ t.eepromAddress = s.eepromAddress) := by
  rw [loop_eq_handlers, toggleHandler_returns_iff] at h
  obtain ⟨f1, f2, f3, f4, f5, _, _, _, _, _⟩ := toggleHandler_frame s inp
  by_cases hre : returnsEarly s inp = true
  · rw [if_pos hre] at h
    have ht : t = (toggleHandler (tick s inp) inp.togglePin).1 := (Option.some.inj h).symm
    have hla : lockAction s inp = false := by
      simp [lockAction, modeSampled, hre]
    constructor
    · intro hc
      rw [hla] at hc
      cases hc
    · intro _
      rw [ht]
      exact ⟨f1, f2⟩
  · rw [if_neg hre] at h
    have hre' : returnsEarly s inp = false := by simpa using hre
    obtain ⟨c1, c2, c3, _⟩ := frameHandler_control h
    obtain ⟨m1, m2⟩ := modeHandler_store (toggleHandler (tick s inp) inp.togglePin).1 inp.modePin
    have hcond : (decide (MODEDELAY < sub32
          (toggleHandler (tick s inp) inp.togglePin).1.currentMillis
          (toggleHandler (tick s inp) inp.togglePin).1.currentModeMillis)
        && !(toggleHandler (tick s inp) inp.togglePin).1.modeState && inp.modePin
        && ((toggleHandler (tick s inp) inp.togglePin).1.pattern !=
            (toggleHandler (tick s inp) inp.togglePin).1.eeprom.read
              (toggleHandler (tick s inp) inp.togglePin).1.eepromAddress))
        = lockAction s inp := by
      rw [f1, f2, f3, f4, f5]
      simp [lockAction, modeSampled, hre', patternAfterToggle]
    rw [hcond] at m1 m2
    obtain ⟨k1, k2⟩ := commit_store_congr (toggleHandler (tick s inp) inp.togglePin).1 s f1 f2
    constructor
    · intro hla
      obtain ⟨a1, a2, a3⟩ := m1 hla
      rw [c1, c2, c3, a1, a2, a3, k1, k2]
      exact ⟨rfl, rfl, rfl⟩
    · intro hla
      obtain ⟨a1, a2⟩ := m2 hla
      rw [c2, c3, a1, a2]
      exact ⟨f1, f2⟩

/-- The pattern the toggle part hands on is a valid one in a valid state. -/
theorem patternAfterToggle_valid (s : State) (inp : Inputs) (h : PatternValid s) :
    1 ≤ patternAfterToggle s inp ∧ patternAfterToggle s inp ≤ TOTALPATTERNS := by
  obtain ⟨h1, h2, h3, h4⟩ := h
  rw [patternAfterToggle_eq]
  split_ifs
  · exact ⟨le_refl 1, by decide⟩
  · exact ⟨h3, h4⟩
  · exact ⟨h1, h2⟩
  · exact ⟨h1, h2⟩

/-- One iteration of `loop()` keeps the invariant of the store cursor. -/
theorem loop_storeInv {fuel : Nat} {s t : State} {inp : Inputs}
    (hv : PatternValid s) (hs : StoreInv s) (h : loop fuel s inp = some t) :
    StoreInv t := by
  obtain ⟨l1, l2⟩ := loop_store h
  cases hla : lockAction s inp
  · obtain ⟨e1, e2⟩ := l2 hla
    unfold StoreInv
    rw [e1, e2]
    exact hs
  · obtain ⟨e1, e2, _⟩ := l1 hla
    obtain ⟨s1, s2, s3⟩ := hs
    obtain ⟨c0, c1, cz, _⟩ := commit_keeps_scan_invariant s (patternAfterToggle s inp)
      s1 s2 s3 (patternAfterToggle_valid s inp hv).2
    unfold StoreInv
    rw [e1, e2]
    exact ⟨c0, c1, cz⟩

/-- After `setup()` the active address is inside the persistent range and
every address below it holds 0. -/
theorem setup_storeInv (e : EEPROM) (hlen : 1 ≤ e.length) : StoreInv (setup (initState e)) := by
  by_cases hex : ∃ k : Nat, k < e.length ∧ e.read k ≠ 0
  · have hk := Nat.find_spec hex
    have hmin := fun m (hm : m < Nat.find hex) => Nat.find_min hex hm
    have hz : ∀ j : Int, 0 ≤ j → j < (Nat.find hex : Nat) → e.read j = 0 := by
      intro j h0 hj
      have hjn : j.toNat < Nat.find hex := by omega
      have := hmin j.toNat hjn
      rw [not_and_or, not_not] at this
      rcases this with h | h
      · omega
      · rwa [Int.toNat_of_nonneg h0] at h
    rw [setup_first_nonzero e (Nat.find hex) hk.1 hz hk.2]
    split_ifs with hv
    · refine ⟨?_, ?_, ?_⟩
      · simp
      · simp only [initState]; exact_mod_cast hk.1
      · intro j h0 hj
        exact hz j h0 hj
    · refine ⟨le_refl _, ?_, ?_⟩
      · simp only [defaultAdopted, EEPROM.write, initState]; omega
      · intro j h0 hj
        simp only [defaultAdopted] at hj
        omega
  · have hall : ∀ j : Int, 0 ≤ j → j < e.length → e.read j = 0 ∨ TOTALPATTERNS < e.read j := by
      intro j h0 hj
      left
      by_contra hne
      exact hex ⟨j.toNat, by omega, by rwa [Int.toNat_of_nonneg h0]⟩
    rw [setup_no_valid e hlen hall]
    refine ⟨le_refl _, ?_, ?_⟩
    · simp only [defaultAdopted, EEPROM.write, initState]; omega
    · intro j h0 hj
      simp only [defaultAdopted] at hj
      omega

/-- Every run of `loop()` iterations from boot returns a state that satisfies
the pattern invariant and the invariant of the store cursor. -/
theorem run_invariants (fuel : Nat) : ∀ (inputs : List Inputs) (s : State),
    PatternValid s → StoreInv s → s.pixelNumber + 18 ≤ 65536 → s.pixelNumber < fuel →
    ∃ t, run fuel s inputs = some t ∧ PatternValid t ∧ StoreInv t ∧
      t.pixelNumber = s.pixelNumber ∧ t.eeprom.length = s.eeprom.length := by
  intro inputs
  induction inputs with
  | nil => intro s h hs _ _; exact ⟨s, rfl, h, hs, rfl, rfl⟩
  | cons inp rest ih =>
    intro s h hs hN hfuel
    obtain ⟨s1, hs1⟩ := loop_returns fuel s inp hN hfuel
    obtain ⟨hv, hpn⟩ := loop_valid h hs1
    have hsi := loop_storeInv h hs hs1
    have hlen : s1.eeprom.length = s.eeprom.length := by
      obtain ⟨l1, l2⟩ := loop_store hs1
      cases hla : lockAction s inp
      · rw [(l2 hla).1]
      · rw [(l1 hla).1]; rfl
    obtain ⟨t, ht, htv, hts, htn, htl⟩ :=
      ih s1 hv hsi (by rw [hpn]; exact hN) (by rw [hpn]; exact hfuel)
    exact ⟨t, by simp only [run, hs1, Option.some_bind, ht], htv, hts,
      by rw [htn, hpn], by rw [htl, hlen]⟩

/-! ## Storage is written on a lock action only -/

/-- Either some address of the persistent range holds a nonzero byte, and then
there is a least one, or the whole range holds 0. -/
theorem first_nonzero_or_all_zero (e : EEPROM) :
    (∃ k : Nat, k < e.length ∧ (∀ j : Int, 0 ≤ j → j < k → e.read j = 0) ∧ e.read k ≠ 0) ∨
    (∀ j : Int, 0 ≤ j → j < e.length → e.read j = 0) := by
  by_cases hex : ∃ k : Nat, k < e.length ∧ e.read k ≠ 0
  · left
    have hk := Nat.find_spec hex
    have hmin := fun m (hm : m < Nat.find hex) => Nat.find_min hex hm
    refine ⟨Nat.find hex, hk.1, ?_, hk.2⟩
    intro j h0 hj
    have hjn : j.toNat < Nat.find hex := by omega
    have := hmin j.toNat hjn
    rw [not_and_or, not_not] at this
    rcases this with h | h
    · omega
    · rwa [Int.toNat_of_nonneg h0] at h
  · right
    intro j h0 hj
    by_contra hne
    exact hex ⟨j.toNat, by omega, by rwa [Int.toNat_of_nonneg h0]⟩

/-- The boot scan keeps the capacity of the store. -/
theorem setup_eeprom_length (e : EEPROM) (hlen : 1 ≤ e.length) :
    (setup (initState e)).eeprom.length = e.length := by
  rcases first_nonzero_or_all_zero e with ⟨k, hk, hz, hnz⟩ | hall
  · rw [setup_first_nonzero e k hk hz hnz]
    split_ifs <;> rfl
  · rw [setup_no_valid e hlen (fun j h0 hj => Or.inl (hall j h0 hj))]
    rfl

theorem image_read_eq (e1 e2 : EEPROM) (hl : e1.length = e2.length)
    (h : e1.image = e2.image) (i : Nat) (hi : i < e1.length) :
    e1.read (i : Int) = e2.read (i : Int) := by
  unfold EEPROM.image at h
  rw [← hl] at h
  exact List.map_inj_left.mp h i (List.mem_range.mpr hi)

/-- A commit of a valid pattern in a state reached after boot moves the
cursor and changes the bytes of the persistent range. -/
theorem commit_changes_store (s : State) (p : Nat) (hs : StoreInv s)
    (hlen : 2 ≤ s.eeprom.length) (hstored : 1 ≤ s.eeprom.read s.eepromAddress)
    (hp1 : 1 ≤ p) (hp2 : p ≤ TOTALPATTERNS) :
    (commit { s with pattern := p }).eepromAddress ≠ s.eepromAddress ∧
    (commit { s with pattern := p }).eeprom.image ≠ s.eeprom.image := by
  obtain ⟨s1, s2, s3⟩ := hs
  have hp256 : p % 256 = p := Nat.mod_eq_of_lt (by unfold TOTALPATTERNS at hp2; omega)
  by_cases hw : s.eepromAddress + 1 = (s.eeprom.length : Int)
  · obtain ⟨h1, h2, _⟩ := commit_last { s with pattern := p } s1 hw
    constructor
    · rw [h1]; omega
    · intro himg
      have h2' : (commit { s with pattern := p }).eeprom.read 0 = p := by
        rw [h2]; exact hp256
      have := image_read_eq _ _ (commit_length _) himg 0 (by rw [commit_length]; simp only; omega)
      simp only [Nat.cast_zero] at this
      rw [h2', s3 0 (le_refl _) (by omega)] at this
      omega
  · obtain ⟨h1, h2, _, _⟩ := commit_inner { s with pattern := p } s1
      (by simp only; omega)
    constructor
    · rw [h1]; simp only; omega
    · intro himg
      have h2' : (commit { s with pattern := p }).eeprom.read s.eepromAddress = 0 := h2
      have := image_read_eq _ _ (commit_length _) himg s.eepromAddress.toNat
        (by rw [commit_length]; simp only; omega)
      rw [Int.toNat_of_nonneg s1, h2'] at this
      have hzero : 0 = s.eeprom.read s.eepromAddress := this
      omega

/-- C11. Storage is written only on a lock action: in any `loop()` iteration
after boot (capacity at least 2), the bytes of the persistent range and the
active address both change when the Mode line is resampled in that iteration,
the sample is a rising edge and the current pattern differs from the byte
stored at the active address (`lockAction`); in every other iteration the
EEPROM object, write counter included, and the active address are exactly what
they were. -/
theorem storage_written_only_on_lock_action (e : EEPROM) (inputs : List Inputs)
    (inp : Inputs) (fuel : Nat) (hlen : 2 ≤ e.length) (hfuel : LED_COUNT < fuel) :
    ∃ s t, run fuel (setup (initState e)) inputs = some s ∧ loop fuel s inp = some t ∧
      (lockAction s inp = true →
        t.eepromAddress ≠ s.eepromAddress ∧ t.eeprom.image ≠ s.eeprom.image) ∧
      (lockAction s inp = false →
        t.eepromAddress = s.eepromAddress ∧ t.eeprom = s.eeprom) := by
  obtain ⟨hv, hpn⟩ := setup_valid e (by omega)
  have hsi := setup_storeInv e (by omega)
  have hl0 := setup_eeprom_length e (by omega)
  obtain ⟨s, hs, hsv, hss, hsn, hsl⟩ := run_invariants fuel inputs (setup (initState e)) hv hsi
    (by rw [hpn]; decide) (by rw [hpn]; exact hfuel)
  obtain ⟨t, ht⟩ := loop_returns fuel s inp (by rw [hsn, hpn]; decide)
    (by rw [hsn, hpn]; exact hfuel)
  obtain ⟨l1, l2⟩ := loop_store ht
  refine ⟨s, t, hs, ht, ?_, ?_⟩
  · intro hla
    obtain ⟨e1, e2, _⟩ := l1 hla
    rw [e1, e2]
    have hpv := patternAfterToggle_valid s inp hsv
    exact commit_changes_store s _ hss (by rw [hsl, hl0]; exact hlen) hsv.2.2.1 hpv.1 hpv.2
  · intro hla
    obtain ⟨e1, e2⟩ := l2 hla
    exact ⟨e2, e1⟩

/-- The boot state on the all-zero storage of capacity 4, spelled out. -/
theorem setup_zero4 :
    setup (initState (EEPROM.ofList [0, 0, 0, 0])) =
      defaultAdopted { initState (EEPROM.ofList [0, 0, 0, 0]) with
        strip := (initState (EEPROM.ofList [0, 0, 0, 0])).strip.showPixels } :=
  setup_no_valid (EEPROM.ofList [0, 0, 0, 0]) (by decide)
    (fun j h0 h4 => by
      left
      have h4 : j < 4 := h4
      interval_cases j <;> rfl)

/-- C11, witness: the first iteration after boot on storage `[0,0,0,0]`, at
300 ms with Toggle low and Mode high.  It is a lock action (Toggle low made
the pattern 1, the stored byte is 2), and the commit leaves address 1 and
storage `[0,1,0,0]`. -/
theorem storage_written_only_on_lock_action_witness :
    (∃ s t, run 100 (setup (initState (EEPROM.ofList [0, 0, 0, 0]))) [] = some s ∧
      loop 100 s ⟨300, false, true⟩ = some t ∧
      (lockAction s ⟨300, false, true⟩ = true →
        t.eepromAddress ≠ s.eepromAddress ∧ t.eeprom.image ≠ s.eeprom.image) ∧
      (lockAction s ⟨300, false, true⟩ = false →
        t.eepromAddress = s.eepromAddress ∧ t.eeprom = s.eeprom)) ∧
    lockAction (defaultAdopted { initState (EEPROM.ofList [0, 0, 0, 0]) with
        strip := (initState (EEPROM.ofList [0, 0, 0, 0])).strip.showPixels })
      ⟨300, false, true⟩ = true ∧
    (loop 100 (defaultAdopted { initState (EEPROM.ofList [0, 0, 0, 0]) with
        strip := (initState (EEPROM.ofList [0, 0, 0, 0])).strip.showPixels })
      ⟨300, false, true⟩).map (fun t => (t.eepromAddress, t.eeprom.image, t.pattern))
      = some (1, [0, 1, 0, 0], 1) :=
  ⟨storage_written_only_on_lock_action (EEPROM.ofList [0, 0, 0, 0]) [] ⟨300, false, true⟩ 100
    (by decide) (by decide), by decide, by decide⟩

/-! ## Toggle handling -/

set_option maxRecDepth 100000 in
/-- C12, the code at the failing input: booted on storage `[0,0,0,0]`, first
iteration at 10001 ms with the Toggle line low and the Mode line low.  The
Toggle line is resampled and reads low (pattern forced to 1), then the Mode
line is resampled low in the same iteration and advances the pattern: the
iteration ends with pattern 2, and the frame it renders is the one of pattern
2 (`rainbowFull`: interval 1, first pixel red), not the off pattern. -/
theorem toggle_low_does_not_hold_off_against_mode_low :
    toggleSampled (setup (initState (EEPROM.ofList [0, 0, 0, 0]))) ⟨10001, false, false⟩ = true ∧
    patternAfterToggle (setup (initState (EEPROM.ofList [0, 0, 0, 0])))
      ⟨10001, false, false⟩ = 1 ∧
    frameDue (setup (initState (EEPROM.ofList [0, 0, 0, 0]))) ⟨10001, false, false⟩ = true ∧
    (loop 100 (setup (initState (EEPROM.ofList [0, 0, 0, 0]))) ⟨10001, false, false⟩).map
      (fun t => (t.toggleState, t.currentToggleMillis, t.pattern, t.pixelInterval,
        t.strip.shows, t.strip.pixels 0))
      = some (false, 10001, 2, 1, 2, 16711680) := by
  rw [setup_zero4]
  refine ⟨by decide, by decide, by decide, by decide⟩

/-- Along every run from a state reached after boot, the byte at the active
address is the locked pattern that `runLocked` tracks. -/
theorem runLocked_invariants (fuel : Nat) : ∀ (inputs : List Inputs) (s : State) (locked : Nat),
    PatternValid s → StoreInv s → s.pixelNumber + 18 ≤ 65536 → s.pixelNumber < fuel →
    s.eeprom.read s.eepromAddress = locked →
    ∃ t l, runLocked fuel s locked inputs = some (t, l) ∧ run fuel s inputs = some t ∧
      t.eeprom.read t.eepromAddress = l := by
  intro inputs
  induction inputs with
  | nil => intro s locked _ _ _ _ h; exact ⟨s, locked, rfl, rfl, h⟩
  | cons inp rest ih =>
    intro s locked hv hs hN hfuel hl
    obtain ⟨s1, hs1⟩ := loop_returns fuel s inp hN hfuel
    obtain ⟨hv1, hpn⟩ := loop_valid hv hs1
    have hsi := loop_storeInv hv hs hs1
    obtain ⟨l1, l2⟩ := loop_store hs1
    have hread : s1.eeprom.read s1.eepromAddress
        = if lockAction s inp then patternAfterToggle s inp else locked := by
      cases hla : lockAction s inp
      · obtain ⟨e1, e2⟩ := l2 hla
        rw [e1, e2]
        simpa using hl
      · obtain ⟨e1, e2, _⟩ := l1 hla
        rw [e1, e2]
        simp only [if_true]
        exact (commit_keeps_scan_invariant s (patternAfterToggle s inp) hs.1 hs.2.1 hs.2.2
          (patternAfterToggle_valid s inp hv).2).2.2.2
    obtain ⟨t, l, ht, hr, htl⟩ := ih s1 _ hv1 hsi (by rw [hpn]; exact hN)
      (by rw [hpn]; exact hfuel) hread
    exact ⟨t, l, by simp only [runLocked, hs1, Option.some_bind, ht],
      by simp only [run, hs1, Option.some_bind, hr], htl⟩

/-- C13. Toggle rising edge restores the locked pattern: in every state
reached after boot, the byte at the active storage address is the pattern of
the most recent commit, or the pattern `setup()` established when there has
been no commit; and when the Toggle line is resampled high with previous
sampled level low, the toggle part of `loop()` sets `pattern` to that byte and
hands on to the mode part. -/
theorem toggle_rising_edge_restores_locked (e : EEPROM) (inputs : List Inputs)
    (inp : Inputs) (fuel : Nat) (hlen : 1 ≤ e.length) (hfuel : LED_COUNT < fuel) :
    ∃ s locked,
      runLocked fuel (setup (initState e)) (setup (initState e)).pattern inputs
        = some (s, locked) ∧
      s.eeprom.read s.eepromAddress = locked ∧
      (toggleSampled s inp = true → inp.togglePin = true → s.toggleState = false →
        (toggleHandler (tick s inp) inp.togglePin).1.pattern
          = s.eeprom.read s.eepromAddress ∧
        (toggleHandler (tick s inp) inp.togglePin).1.pattern = locked ∧
        (toggleHandler (tick s inp) inp.togglePin).2 = false) := by
  obtain ⟨hv, hpn⟩ := setup_valid e hlen
  have hsi := setup_storeInv e hlen
  have hboot : (setup (initState e)).eeprom.read (setup (initState e)).eepromAddress
      = (setup (initState e)).pattern := by
    rcases first_nonzero_or_all_zero e with ⟨k, hk, hz, hnz⟩ | hall
    · rw [setup_first_nonzero e k hk hz hnz]
      split_ifs
      · rfl
      · simp [defaultAdopted, EEPROM.read, EEPROM.write, EEPROM.cell, DEFAULT_PATTERN]
    · rw [setup_no_valid e hlen (fun j h0 hj => Or.inl (hall j h0 hj))]
      simp [defaultAdopted, EEPROM.read, EEPROM.write, EEPROM.cell, DEFAULT_PATTERN]
  obtain ⟨s, locked, hrun, _, hl⟩ := runLocked_invariants fuel inputs (setup (initState e))
    (setup (initState e)).pattern hv hsi (by rw [hpn]; decide) (by rw [hpn]; exact hfuel) hboot
  refine ⟨s, locked, hrun, hl, ?_⟩
  intro hts hpin hprev
  have hp : patternAfterToggle s inp = s.eeprom.read s.eepromAddress := by
    rw [patternAfterToggle_eq, hts, hpin, hprev]
    rfl
  have hre : returnsEarly s inp = false := by
    simp [returnsEarly, hprev]
  refine ⟨hp, by rw [← hl]; exact hp, ?_⟩
  rw [toggleHandler_returns_iff, hre]

set_option maxRecDepth 100000 in
/-- C13, witness: booted on storage `[0,0,0,0]`; pattern 3 is selected and
locked (commit at 4501 ms, storage `[0,3,0,0]`), the Toggle line is sampled low
at 4800 ms (pattern 1), and at 5100 ms it is resampled high: the toggle part
sets the pattern back to 3. -/
theorem toggle_rising_edge_restores_locked_witness :
    (∃ s locked,
      runLocked 100 (setup (initState (EEPROM.ofList [0, 0, 0, 0])))
        (setup (initState (EEPROM.ofList [0, 0, 0, 0]))).pattern
        [⟨300, true, true⟩, ⟨2400, true, true⟩, ⟨2401, true, false⟩, ⟨4500, true, false⟩,
         ⟨4501, true, true⟩, ⟨4800, false, true⟩] = some (s, locked) ∧
      s.eeprom.read s.eepromAddress = locked ∧
      (toggleSampled s ⟨5100, true, true⟩ = true → (⟨5100, true, true⟩ : Inputs).togglePin = true →
        s.toggleState = false →
        (toggleHandler (tick s ⟨5100, true, true⟩) (⟨5100, true, true⟩ : Inputs).togglePin).1.pattern
          = s.eeprom.read s.eepromAddress ∧
        (toggleHandler (tick s ⟨5100, true, true⟩) (⟨5100, true, true⟩ : Inputs).togglePin).1.pattern
          = locked ∧
        (toggleHandler (tick s ⟨5100, true, true⟩) (⟨5100, true, true⟩ : Inputs).togglePin).2
          = false)) ∧
    (runLocked 100 (defaultAdopted { initState (EEPROM.ofList [0, 0, 0, 0]) with
          strip := (initState (EEPROM.ofList [0, 0, 0, 0])).strip.showPixels }) 2
        [⟨300, true, true⟩, ⟨2400, true, true⟩, ⟨2401, true, false⟩, ⟨4500, true, false⟩,
         ⟨4501, true, true⟩, ⟨4800, false, true⟩]).map
      (fun r => (r.1.pattern, r.1.toggleState, r.1.eeprom.image, r.2))
      = some (1, false, [0, 3, 0, 0], 3) ∧
    (runLocked 100 (defaultAdopted { initState (EEPROM.ofList [0, 0, 0, 0]) with
          strip := (initState (EEPROM.ofList [0, 0, 0, 0])).strip.showPixels }) 2
        [⟨300, true, true⟩, ⟨2400, true, true⟩, ⟨2401, true, false⟩, ⟨4500, true, false⟩,
         ⟨4501, true, true⟩, ⟨4800, false, true⟩]).map
      (fun r => (toggleSampled r.1 ⟨5100, true, true⟩,
        (toggleHandler (tick r.1 ⟨5100, true, true⟩) true).1.pattern))
      = some (true, 3) :=
  ⟨toggle_rising_edge_restores_locked (EEPROM.ofList [0, 0, 0, 0])
    [⟨300, true, true⟩, ⟨2400, true, true⟩, ⟨2401, true, false⟩, ⟨4500, true, false⟩,
     ⟨4501, true, true⟩, ⟨4800, false, true⟩] ⟨5100, true, true⟩ 100 (by decide) (by decide),
   by decide, by decide⟩

/-! ## Every renderer pushes the buffer exactly once -/

theorem setPixelColor_shows (st : Strip) (n c : Nat) : (st.setPixelColor n c).shows = st.shows := by
  unfold Strip.setPixelColor
  split_ifs <;> rfl

theorem forRange_shows {body : Nat → Strip → Strip}
    (hb : ∀ i st, (body i st).shows = st.shows) (lo hi : Nat) (st : Strip) :
    (forRange lo hi body st).shows = st.shows := by
  unfold forRange
  generalize List.range' lo (hi - lo) = l
  induction l generalizing st with
  | nil => rfl
  | cons i l ih => rw [List.foldl_cons, ih, hb]

theorem forStride_shows {body : Nat → Strip → Option Strip} {bound step : Nat}
    (hb : ∀ c st r, body c st = some r → r.shows = st.shows) :
    ∀ (fuel c : Nat) (st r : Strip),
      forStride body bound step fuel c st = some r → r.shows = st.shows := by
  intro fuel
  induction fuel with
  | zero => intro c st r h; cases h
  | succ fuel ih =>
    intro c st r h
    unfold forStride at h
    split_ifs at h
    · cases hbody : body c st with
      | none => rw [hbody] at h; cases h
      | some st1 =>
        rw [hbody] at h
        rw [ih _ _ _ h, hb c st st1 hbody]
    · cases h; rfl

theorem setPixel_body_shows (f : Nat → Strip → Strip)
    (hf : ∀ c st, (f c st).shows = st.shows) :
    ∀ c st r, (fun c st => some (f c st)) c st = some r → r.shows = st.shows := by
  intro c st r h
  cases h
  exact hf c st

theorem fillRun_shows (width color : Nat) :
    ∀ c st r, fillRun width color c st = some r → r.shows = st.shows := by
  intro c st r h
  unfold fillRun at h
  split_ifs at h
  cases h
  exact forRange_shows (fun i acc => setPixelColor_shows acc _ _) _ _ _

theorem shows_bind {x : Option Strip} {f : Strip → Option Strip} {k : Nat}
    (hx : ∀ a, x = some a → a.shows = k) (hf : ∀ a r, f a = some r → r.shows = a.shows) :
    ∀ r, x.bind f = some r → r.shows = k := by
  intro r h
  cases x with
  | none => cases h
  | some a => rw [hf a r h, hx a rfl]

theorem bandStep_shows (n color : Nat) (p : Nat × Strip) :
    (bandStep n color p).2.shows = p.2.shows := by
  unfold bandStep
  split_ifs
  · exact setPixelColor_shows _ _ _
  · rfl

theorem bandStep_iterate_shows (n color k : Nat) :
    ∀ p : Nat × Strip, ((bandStep n color)^[k] p).2.shows = p.2.shows := by
  induction k with
  | zero => intro p; rfl
  | succ k ih =>
    intro p
    rw [Function.iterate_succ_apply, ih, bandStep_shows]

theorem bandsLoop_shows (n w first second : Nat) :
    ∀ (fuel i : Nat) (st r : Strip),
      bandsLoop n w first second fuel i st = some r → r.shows = st.shows := by
  intro fuel
  induction fuel with
  | zero => intro i st r h; cases h
  | succ fuel ih =>
    intro i st r h
    unfold bandsLoop at h
    split_ifs at h
    · rw [ih _ _ _ h, bandStep_iterate_shows, bandStep_iterate_shows]
    · cases h; rfl

/-- What a renderer built as "loops on the buffer, then one `strip.show()`"
does to the push counter and to `pixelPrevious`. -/
theorem shows_of_map {s t : State} {x : Option Strip} {f : Strip → State}
    (h : x.map f = some t) (hx : ∀ a, x = some a → a.shows = s.strip.shows)
    (hf : ∀ a, (f a).strip.shows = a.shows + 1 ∧ (f a).pixelPrevious = s.pixelPrevious) :
    t.strip.shows = s.strip.shows + 1 ∧ t.pixelPrevious = s.pixelPrevious := by
  cases x with
  | none => cases h
  | some a =>
    have : f a = t := Option.some.inj h
    rw [← this, (hf a).1, (hf a).2, hx a rfl]
    exact ⟨rfl, rfl⟩

theorem stride_setPixel_shows (bound step fuel c color : Nat) (st : Strip) :
    ∀ a, forStride (fun c st => some (st.setPixelColor c color)) bound step fuel c st = some a →
      a.shows = st.shows :=
  fun a h => forStride_shows
    (setPixel_body_shows (fun c st => st.setPixelColor c color)
      (fun c st => setPixelColor_shows st c color)) fuel c st a h

theorem theaterChase_shows {fuel color : Nat} {wait : Int} {s t : State}
    (h : theaterChase fuel color wait s = some t) :
    t.strip.shows = s.strip.shows + 1 ∧ t.pixelPrevious = s.pixelPrevious := by
  unfold theaterChase at h
  refine shows_of_map h ?_ (fun a => ⟨rfl, rfl⟩)
  intro a ha
  have := stride_setPixel_shows _ _ _ _ _ _ a ha
  exact this

theorem theaterChaseTricolor_shows {fuel c1 c2 c3 : Nat} {wait : Int} {s t : State}
    (h : theaterChaseTricolor fuel c1 c2 c3 wait s = some t) :
    t.strip.shows = s.strip.shows + 1 ∧ t.pixelPrevious = s.pixelPrevious := by
  unfold theaterChaseTricolor at h
  refine shows_of_map h ?_ (fun a => ⟨rfl, rfl⟩)
  refine shows_bind (shows_bind ?_ ?_) ?_
  · intro a ha
    have := stride_setPixel_shows _ _ _ _ _ _ a ha
    exact this
  · intro a r hr
    exact stride_setPixel_shows _ _ _ _ _ _ r hr
  · intro a r hr
    exact stride_setPixel_shows _ _ _ _ _ _ r hr

theorem theaterChaseTricolorSpaces_shows {fuel c1 c2 c3 : Nat} {wait : Int} {s t : State}
    (h : theaterChaseTricolorSpaces fuel c1 c2 c3 wait s = some t) :
    t.strip.shows = s.strip.shows + 1 ∧ t.pixelPrevious = s.pixelPrevious := by
  unfold theaterChaseTricolorSpaces at h
  refine shows_of_map h ?_ (fun a => ⟨rfl, rfl⟩)
  refine shows_bind (shows_bind (shows_bind ?_ ?_) ?_) ?_
  · intro a ha
    have := stride_setPixel_shows _ _ _ _ _ _ a ha
    exact this
  · intro a r hr
    exact stride_setPixel_shows _ _ _ _ _ _ r hr
  · intro a r hr
    exact stride_setPixel_shows _ _ _ _ _ _ r hr
  · intro a r hr
    refine forStride_shows ?_ _ _ _ _ hr
    intro c st r1 h1
    cases h1
    rw [setPixelColor_shows, setPixelColor_shows, setPixelColor_shows]

theorem widthPass_shows (fuel : Nat) (s : State) (width color : Nat) (k : Int) :
    ∀ a r, widthPass fuel s width color k a = some r → r.shows = a.shows := by
  intro a r h
  unfold widthPass at h
  exact forStride_shows (fillRun_shows width color) _ _ _ _ h

theorem theaterChaseTricolorWidth_shows {fuel c1 c2 c3 width : Nat} {wait : Int}
    {s t : State} (h : theaterChaseTricolorWidth fuel c1 c2 c3 width wait s = some t) :
    t.strip.shows = s.strip.shows + 1 ∧ t.pixelPrevious = s.pixelPrevious := by
  unfold theaterChaseTricolorWidth at h
  refine shows_of_map h ?_ (fun a => ⟨rfl, rfl⟩)
  repeat' first
    | exact widthPass_shows fuel s _ _ _
    | (intro a ha; exact widthPass_shows fuel s _ _ _ s.strip.clear a ha)
    | apply shows_bind

theorem theaterChaseRainbow_shows {fuel wait : Nat} {s t : State}
    (h : theaterChaseRainbow fuel wait s = some t) :
    t.strip.shows = s.strip.shows + 1 ∧ t.pixelPrevious = s.pixelPrevious := by
  unfold theaterChaseRainbow at h
  cases h1 : forStride (fun i st => some (st.setPixelColor (u16 ((i : Int) + s.pixelQueue))
        (Wheel (u16 ((i : Int) + s.pixelCycle) % 255)))) s.pixelNumber 3 fuel 0 s.strip with
  | none => rw [h1] at h; cases h
  | some shown =>
    rw [h1] at h
    simp only [Option.some_bind] at h
    have hs1 : shown.shows = s.strip.shows :=
      forStride_shows (setPixel_body_shows _ (fun c st => setPixelColor_shows st _ _)) _ _ _ _ h1
    cases h2 : forStride (fun i st => some (st.setPixelColor (u16 ((i : Int) + s.pixelQueue))
        (Strip.Color 0 0 0))) s.pixelNumber 3 fuel 0 shown.showPixels with
    | none => rw [h2] at h; cases h
    | some st2 =>
      rw [h2] at h
      have hs2 : st2.shows = shown.showPixels.shows :=
        forStride_shows (setPixel_body_shows _ (fun c st => setPixelColor_shows st _ _)) _ _ _ _ h2
      cases h
      exact ⟨by rw [hs2, ← hs1]; rfl, rfl⟩

theorem alternatingBands_shows {fuel c1 c2 width wait : Nat} {s t : State}
    (h : alternatingBands fuel c1 c2 width wait s = some t) :
    t.strip.shows = s.strip.shows + 1 ∧ t.pixelPrevious = s.pixelPrevious := by
  unfold alternatingBands at h
  simp only at h
  split_ifs at h <;>
    exact shows_of_map h (fun a ha => bandsLoop_shows _ _ _ _ _ _ _ a ha) (fun a => ⟨rfl, rfl⟩)

theorem solidColor_shows (color : Nat) (s : State) :
    (solidColor color s).strip.shows = s.strip.shows + 1 ∧
    (solidColor color s).pixelPrevious = s.pixelPrevious := by
  unfold solidColor
  refine ⟨?_, rfl⟩
  show (forRange 0 s.pixelNumber _ s.strip).shows + 1 = _
  rw [forRange_shows (fun i st => setPixelColor_shows st _ _)]

theorem colorWipe_shows (color : Nat) (wait : Int) (s : State) :
    (colorWipe color wait s).strip.shows = s.strip.shows + 1 ∧
    (colorWipe color wait s).pixelPrevious = s.pixelPrevious := by
  unfold colorWipe
  refine ⟨?_, rfl⟩
  show (s.strip.setPixelColor _ _).shows + 1 = _
  rw [setPixelColor_shows]

theorem rainbow_shows (wait : Nat) (s : State) :
    (rainbow wait s).strip.shows = s.strip.shows + 1 ∧
    (rainbow wait s).pixelPrevious = s.pixelPrevious := by
  unfold rainbow
  refine ⟨?_, rfl⟩
  show (forRange 0 s.pixelNumber _ s.strip).shows + 1 = _
  rw [forRange_shows (fun i st => setPixelColor_shows st _ _)]

theorem rainbowFull_shows (wait : Nat) (s : State) :
    (rainbowFull wait s).strip.shows = s.strip.shows + 1 ∧
    (rainbowFull wait s).pixelPrevious = s.pixelPrevious := by
  unfold rainbowFull
  refine ⟨?_, rfl⟩
  show (forRange 0 s.strip.numLEDs _ s.strip).shows + 1 = _
  rw [forRange_shows (fun i st => setPixelColor_shows st _ _)]

theorem flashingColor_shows (color wait : Nat) (s : State) :
    (flashingColor color wait s).strip.shows = s.strip.shows + 1 ∧
    (flashingColor color wait s).pixelPrevious = s.pixelPrevious := by
  unfold flashingColor
  simp only
  split_ifs <;>
  · refine ⟨?_, rfl⟩
    show (forRange 0 s.pixelNumber _ s.strip).shows + 1 = _
    rw [forRange_shows (fun i st => setPixelColor_shows st _ _)]

theorem emergency_shows (c1 c2 wait : Nat) (s : State) :
    (emergency c1 c2 wait s).strip.shows = s.strip.shows + 1 ∧
    (emergency c1 c2 wait s).pixelPrevious = s.pixelPrevious := by
  unfold emergency
  simp only
  split_ifs <;>
  · refine ⟨?_, rfl⟩
    show (forRange _ _ _ (forRange _ _ _ s.strip)).shows + 1 = _
    rw [forRange_shows (fun i st => setPixelColor_shows st _ _),
      forRange_shows (fun i st => setPixelColor_shows st _ _)]

/-- Every case of the `switch` that returns has pushed the buffer exactly once
and left `pixelPrevious` alone. -/
theorem renderFrame_shows {fuel : Nat} {s t : State} (h : renderFrame fuel s = some t) :
    t.strip.shows = s.strip.shows + 1 ∧ t.pixelPrevious = s.pixelPrevious := by
  unfold renderFrame at h
  split at h
  · cases h; exact ⟨rfl, rfl⟩
  · cases h; exact rainbowFull_shows _ s
  · exact theaterChaseTricolor_shows h
  · cases h; exact rainbow_shows _ s
  · exact theaterChaseRainbow_shows h
  · cases h; exact colorWipe_shows _ _ s
  · exact theaterChaseTricolorSpaces_shows h
  · cases h; exact solidColor_shows _ s
  · cases h; exact flashingColor_shows _ _ s
  · exact theaterChase_shows h
  · cases h; exact emergency_shows _ _ _ s
  · exact alternatingBands_shows h
  · exact theaterChaseTricolorWidth_shows h
  · cases h; exact flashingColor_shows _ _ s

/-! ## What one iteration does to the polling variables and to the frame -/

/-- The toggle variables across one iteration of `loop()`. -/
theorem loop_toggle_fields {fuel : Nat} {s t : State} {inp : Inputs}
    (h : loop fuel s inp = some t) :
    (toggleSampled s inp = true →
      t.currentToggleMillis = inp.millis % 4294967296 ∧ t.toggleState = inp.togglePin ∧
      t.toggleStatePrevious = s.toggleState) ∧
    (toggleSampled s inp = false →
      t.currentToggleMillis = s.currentToggleMillis ∧ t.toggleState = s.toggleState ∧
      t.toggleStatePrevious = s.toggleStatePrevious) := by
  rw [loop_eq_handlers] at h
  obtain ⟨g1, g2⟩ := toggleHandler_fields s inp
  have key : t.currentToggleMillis
        = (toggleHandler (tick s inp) inp.togglePin).1.currentToggleMillis ∧
      t.toggleState = (toggleHandler (tick s inp) inp.togglePin).1.toggleState ∧
      t.toggleStatePrevious
        = (toggleHandler (tick s inp) inp.togglePin).1.toggleStatePrevious := by
    split_ifs at h
    · cases h; exact ⟨rfl, rfl, rfl⟩
    · obtain ⟨_, _, _, _, _, _, c7, c8, _, _, c11⟩ := frameHandler_control h
      obtain ⟨_, m2, m3, m4, _⟩ :=
        modeHandler_frame (toggleHandler (tick s inp) inp.togglePin).1 inp.modePin
      rw [c11, c7, c8, m2, m3, m4]
      exact ⟨rfl, rfl, rfl⟩
  obtain ⟨k1, k2, k3⟩ := key
  constructor
  · intro hts
    rw [k1, k2, k3]
    exact g1 hts
  · intro hts
    rw [k1, k2, k3, g2 hts]
    exact ⟨rfl, rfl, rfl⟩

/-- The mode variables and the pattern across one iteration of `loop()`. -/
theorem loop_mode_fields {fuel : Nat} {s t : State} {inp : Inputs}
    (h : loop fuel s inp = some t) :
    (modeSampled s inp = true →
      t.currentModeMillis = inp.millis % 4294967296 ∧ t.modeState = inp.modePin ∧
      t.modeStatePrevious = s.modeState ∧
      t.pattern = if inp.modePin then patternAfterToggle s inp
                  else nextPattern (patternAfterToggle s inp)) ∧
    (modeSampled s inp = false →
      t.currentModeMillis = s.currentModeMillis ∧ t.modeState = s.modeState ∧
      t.modeStatePrevious = s.modeStatePrevious ∧ t.pattern = patternAfterToggle s inp) := by
  rw [loop_eq_handlers, toggleHandler_returns_iff] at h
  obtain ⟨f1, f2, f3, f4, f5, f6, _, _, _, _⟩ := toggleHandler_frame s inp
  by_cases hre : returnsEarly s inp = true
  · rw [if_pos hre] at h
    have hms : modeSampled s inp = false := by simp [modeSampled, hre]
    rw [hms]
    cases h
    exact ⟨fun hc => (by cases hc), fun _ => ⟨f4, f5, f6, rfl⟩⟩
  · rw [if_neg hre] at h
    have hre' : returnsEarly s inp = false := by simpa using hre
    obtain ⟨c1, _, _, _, c5, c6, _, _, _, c10, _⟩ := frameHandler_control h
    obtain ⟨m1, m2⟩ :=
      modeHandler_fields (toggleHandler (tick s inp) inp.togglePin).1 inp.modePin
    rw [f3, f4] at m1 m2
    rw [c1, c5, c6, c10]
    constructor
    · intro hms
      have hel : MODEDELAY < sub32 (inp.millis % 4294967296) s.currentModeMillis := by
        simpa [modeSampled, hre'] using hms
      obtain ⟨a1, a2, a3, a4⟩ := m1 hel
      rw [a1, a2, a3, a4, f5]
      exact ⟨rfl, rfl, rfl, rfl⟩
    · intro hms
      have hel : ¬ MODEDELAY < sub32 (inp.millis % 4294967296) s.currentModeMillis := by
        simpa [modeSampled, hre'] using hms
      rw [m2 hel]
      exact ⟨f4, f5, f6, rfl⟩

/-- The frame part across one iteration of `loop()`: when the iteration
reaches the frame test and the test passes, the renderer of the current
pattern runs once and `pixelPrevious` becomes the current time; otherwise the
strip and `pixelPrevious` are untouched. -/
theorem loop_frame {fuel : Nat} {s t : State} {inp : Inputs}
    (h : loop fuel s inp = some t) :
    (frameDue s inp = true →
      t.strip.shows = s.strip.shows + 1 ∧ t.pixelPrevious = inp.millis % 4294967296 ∧
      ∃ m, renderFrame fuel m = some t ∧ m.pattern = t.pattern ∧ m.strip = s.strip) ∧
    (frameDue s inp = false → t.strip = s.strip ∧ t.pixelPrevious = s.pixelPrevious) := by
  rw [loop_eq_handlers, toggleHandler_returns_iff] at h
  obtain ⟨_, _, f3, _, _, _, _, f8, f9, f10⟩ := toggleHandler_frame s inp
  by_cases hre : returnsEarly s inp = true
  · rw [if_pos hre] at h
    have hfd : frameDue s inp = false := by simp [frameDue, hre]
    rw [hfd]
    cases h
    exact ⟨fun hc => (by cases hc), fun _ => ⟨f10, f9⟩⟩
  · rw [if_neg hre] at h
    have hre' : returnsEarly s inp = false := by simpa using hre
    obtain ⟨m1, _, _, _, m5, m6, m7, _⟩ :=
      modeHandler_frame (toggleHandler (tick s inp) inp.togglePin).1 inp.modePin
    unfold frameHandler at h
    rw [m5, m6, m1, f3, f8, f9] at h
    constructor
    · intro hfd
      have hdue : s.pixelInterval ≤ sub32 (inp.millis % 4294967296) s.pixelPrevious := by
        simpa [frameDue, hre'] using hfd
      rw [if_pos hdue] at h
      obtain ⟨r1, r2⟩ := renderFrame_shows h
      have hc := renderFrame_control h
      refine ⟨?_, ?_, _, h, hc.1.symm, ?_⟩
      · rw [r1]; simp only; rw [m7, f10]
      · rw [r2]
      · simp only; rw [m7, f10]
    · intro hfd
      have hdue : ¬ s.pixelInterval ≤ sub32 (inp.millis % 4294967296) s.pixelPrevious := by
        simpa [frameDue, hre'] using hfd
      rw [if_neg hdue] at h
      cases h
      exact ⟨by rw [m7, f10], by rw [m6, f9]⟩

/-- C14, counterexample: booted on storage `[0,0,0,0]`, one iteration at
300 ms (Toggle high, Mode high), then one at 3000 ms with Toggle high and Mode
low.  At 3000 ms the Toggle line is resampled high with previous level high
and the Mode interval has elapsed (2700 ms), yet the Mode line is not
resampled: `currentModeMillis` is still 300, `modeState` still high, and the
pattern is still 2. -/
theorem idle_toggle_blocks_mode :
    (run 100 (setup (initState (EEPROM.ofList [0, 0, 0, 0]))) [⟨300, true, true⟩]).map
      (fun s => (s.toggleState, toggleSampled s ⟨3000, true, false⟩,
        decide (MODEDELAY < sub32 3000 s.currentModeMillis), s.pattern, s.modeState))
      = some (true, true, true, 2, true) ∧
    (run 100 (setup (initState (EEPROM.ofList [0, 0, 0, 0])))
        [⟨300, true, true⟩, ⟨3000, true, false⟩]).map
      (fun t => (t.currentModeMillis, t.modeState, t.pattern)) = some (300, true, 2) := by
  rw [setup_zero4]
  refine ⟨by decide, by decide⟩

/-- C14, as amended. In a `loop()` iteration where the Toggle line is
resampled high and its previous sampled level was also high, the toggle part
records the sample and ends the iteration (`else return;`): the state after the
iteration differs from the one before only in `currentMillis`,
`currentToggleMillis` and the recorded Toggle levels, so the Mode line is not
resampled, the pattern is not advanced, nothing is committed and no frame is
rendered, whether or not the Mode interval has elapsed. -/
theorem idle_toggle_ends_iteration (fuel : Nat) (s : State) (inp : Inputs)
    (hts : toggleSampled s inp = true) (hpin : inp.togglePin = true)
    (hprev : s.toggleState = true) :
    loop fuel s inp = some { s with currentMillis := inp.millis % 4294967296,
                                    currentToggleMillis := inp.millis % 4294967296,
                                    toggleStatePrevious := true, toggleState := true } := by
  have hel : TOGGLEDELAY < sub32 (inp.millis % 4294967296) s.currentToggleMillis := by
    simpa [toggleSampled] using hts
  unfold loop
  simp only [hel, if_true, hpin, hprev, Bool.not_true, Bool.false_eq_true, if_false]

/-- C14 as amended, witness: Toggle last sampled high at 300 ms, now 3000 ms
and high again, Mode interval elapsed and Mode low. -/
theorem idle_toggle_ends_iteration_witness :
    loop 100 { initState (EEPROM.ofList [2, 0, 0, 0]) with
        pattern := 2, toggleState := true, currentToggleMillis := 300,
        currentModeMillis := 300 } ⟨3000, true, false⟩ =
      some { ({ initState (EEPROM.ofList [2, 0, 0, 0]) with
        pattern := 2, toggleState := true, currentToggleMillis := 300,
        currentModeMillis := 300 } : State) with
          currentMillis := (⟨3000, true, false⟩ : Inputs).millis % 4294967296,
          currentToggleMillis := (⟨3000, true, false⟩ : Inputs).millis % 4294967296,
          toggleStatePrevious := true, toggleState := true } :=
  idle_toggle_ends_iteration 100 { initState (EEPROM.ofList [2, 0, 0, 0]) with
        pattern := 2, toggleState := true, currentToggleMillis := 300,
        currentModeMillis := 300 } ⟨3000, true, false⟩ (by decide) (by decide) (by decide)

/-! ## The render interval -/

theorem interval_of_map {t : State} {x : Option Strip} {f : Strip → State} {k : Nat}
    (h : x.map f = some t) (hf : ∀ a, (f a).pixelInterval = k) : t.pixelInterval = k := by
  cases x with
  | none => cases h
  | some a =>
    have : f a = t := Option.some.inj h
    rw [← this]; exact hf a

theorem rainbow_interval (wait : Nat) (s : State) :
    (rainbow wait s).pixelInterval = wait % 256 := by
  unfold rainbow
  simp only
  split_ifs with h
  · rfl
  · exact not_not.mp h

theorem rainbowFull_interval (wait : Nat) (s : State) :
    (rainbowFull wait s).pixelInterval = wait % 256 := by
  unfold rainbowFull
  simp only
  split_ifs with h
  · rfl
  · exact not_not.mp h

theorem theaterChaseRainbow_interval {fuel wait : Nat} {s t : State}
    (h : theaterChaseRainbow fuel wait s = some t) : t.pixelInterval = wait % 256 := by
  unfold theaterChaseRainbow at h
  refine interval_of_map h (fun a => ?_)
  simp only
  split_ifs with hne
  · rfl
  · exact not_not.mp hne

theorem flashingColor_interval (color wait : Nat) (s : State) :
    (flashingColor color wait s).pixelInterval = wait % 256 := by
  unfold flashingColor
  simp only
  split_ifs <;> rfl

theorem emergency_interval (c1 c2 wait : Nat) (s : State) :
    (emergency c1 c2 wait s).pixelInterval = wait % 256 := by
  unfold emergency
  simp only
  split_ifs <;> rfl

theorem alternatingBands_interval {fuel c1 c2 width wait : Nat} {s t : State}
    (h : alternatingBands fuel c1 c2 width wait s = some t) : t.pixelInterval = wait % 256 := by
  unfold alternatingBands at h
  simp only at h
  split_ifs at h <;> exact interval_of_map h (fun _ => rfl)

/-- The renderer the `switch` runs for each identifier of the pattern table. -/
theorem renderFrame_of_pattern (fuel : Nat) (s : State) :
    (s.pattern = 1 → renderFrame fuel s = some { s with strip := s.strip.clear.showPixels }) ∧
    (s.pattern = 2 → renderFrame fuel s = some (rainbowFull 1 s)) ∧
    (s.pattern = 3 → renderFrame fuel s =
      theaterChaseTricolor fuel (Strip.Color 255 0 0) (Strip.Color 255 255 255)
        (Strip.Color 0 0 255) 50 s) ∧
    (s.pattern = 4 → renderFrame fuel s = some (rainbow 5 s)) ∧
    (s.pattern = 5 → renderFrame fuel s = theaterChaseRainbow fuel 50 s) ∧
    (s.pattern = 6 → renderFrame fuel s = some (colorWipe (Strip.Color 0 255 0) 10 s)) ∧
    (s.pattern = 7 → renderFrame fuel s =
      theaterChaseTricolorSpaces fuel (Strip.Color 255 0 0) (Strip.Color 255 255 255)
        (Strip.Color 0 0 255) 25 s) ∧
    (s.pattern = 8 → renderFrame fuel s = some (solidColor (Strip.Color 255 255 255) s)) ∧
    (s.pattern = 9 → renderFrame fuel s =
      some (flashingColor (Strip.Color 255 255 255) 200 s)) ∧
    (s.pattern = 10 → renderFrame fuel s = theaterChase fuel (Strip.Color 255 0 0) 50 s) ∧
    (s.pattern = 11 → renderFrame fuel s =
      some (emergency (Strip.Color 255 0 0) (Strip.Color 0 0 255) 100 s)) ∧
    (s.pattern = 12 → renderFrame fuel s =
      alternatingBands fuel (Strip.Color 245 200 66) (Strip.Color 0 0 255) 10 100 s) ∧
    (s.pattern = 13 → renderFrame fuel s =
      theaterChaseTricolorWidth fuel (Strip.Color 168 117 0) (Strip.Color 255 14 89)
        (Strip.Color 43 198 57) 3 20 s) := by
  unfold renderFrame
  refine ⟨?_, ?_, ?_, ?_, ?_, ?_, ?_, ?_, ?_, ?_, ?_, ?_, ?_⟩ <;>
  · intro hp
    rw [hp]

/-- C15, counterexample: a frame of pattern 8 (`solidColor`) and a frame of
pattern 1 (all off) leave `pixelInterval` at whatever it was before the call,
50 in one run and 7 in another. -/
theorem solid_and_off_keep_render_interval :
    (renderFrame 100 { initState (EEPROM.ofList [2, 0, 0, 0]) with
        pattern := 8, pixelInterval := 50 }).map (fun t => t.pixelInterval) = some 50 ∧
    (renderFrame 100 { initState (EEPROM.ofList [2, 0, 0, 0]) with
        pattern := 8, pixelInterval := 7 }).map (fun t => t.pixelInterval) = some 7 ∧
    (renderFrame 100 { initState (EEPROM.ofList [2, 0, 0, 0]) with
        pattern := 1, pixelInterval := 50 }).map (fun t => t.pixelInterval) = some 50 ∧
    (renderFrame 100 { initState (EEPROM.ofList [2, 0, 0, 0]) with
        pattern := 1, pixelInterval := 7 }).map (fun t => t.pixelInterval) = some 7 := by
  refine ⟨by decide, by decide, by decide, by decide⟩

/-- C15, as amended. After the dispatch in `loop()` has rendered one frame of
a pattern of the table other than 1 (all off) and 8 (`solidColor`),
`pixelInterval` equals that pattern's own frame period (`framePeriod`),
whatever it was before the call; a frame of pattern 1 or 8 leaves
`pixelInterval` as it was. -/
theorem render_interval_after_frame (fuel : Nat) (s : State)
    (h1 : 1 ≤ s.pattern) (h2 : s.pattern ≤ TOTALPATTERNS)
    (hN : s.pixelNumber + 18 ≤ 65536) (hfuel : s.pixelNumber < fuel) :
    ∃ t, renderFrame fuel s = some t ∧
      t.pixelInterval = (framePeriod s.pattern).getD s.pixelInterval ∧
      (framePeriod s.pattern = none ↔ s.pattern = 1 ∨ s.pattern = 8) := by
  obtain ⟨t, ht⟩ := renderFrame_returns fuel s hN hfuel
  refine ⟨t, ht, ?_⟩
  obtain ⟨r1, r2, r3, r4, r5, r6, r7, r8, r9, r10, r11, r12, r13⟩ :=
    renderFrame_of_pattern fuel s
  unfold TOTALPATTERNS at h2
  have hcases : s.pattern = 1 ∨ s.pattern = 2 ∨ s.pattern = 3 ∨ s.pattern = 4 ∨
      s.pattern = 5 ∨ s.pattern = 6 ∨ s.pattern = 7 ∨ s.pattern = 8 ∨ s.pattern = 9 ∨
      s.pattern = 10 ∨ s.pattern = 11 ∨ s.pattern = 12 ∨ s.pattern = 13 := by omega
  rcases hcases with hp | hp | hp | hp | hp | hp | hp | hp | hp | hp | hp | hp | hp
  · rw [r1 hp] at ht; cases ht; rw [hp]; exact ⟨rfl, by decide⟩
  · rw [r2 hp] at ht; cases ht; rw [hp]; exact ⟨rainbowFull_interval 1 s, by decide⟩
  · rw [r3 hp] at ht; rw [hp]
    exact ⟨interval_of_map ht (fun _ => rfl), by decide⟩
  · rw [r4 hp] at ht; cases ht; rw [hp]; exact ⟨rainbow_interval 5 s, by decide⟩
  · rw [r5 hp] at ht; rw [hp]; exact ⟨theaterChaseRainbow_interval ht, by decide⟩
  · rw [r6 hp] at ht; cases ht; rw [hp]; exact ⟨rfl, by decide⟩
  · rw [r7 hp] at ht; rw [hp]
    exact ⟨interval_of_map ht (fun _ => rfl), by decide⟩
  · rw [r8 hp] at ht; cases ht; rw [hp]; exact ⟨rfl, by decide⟩
  · rw [r9 hp] at ht; cases ht; rw [hp]; exact ⟨flashingColor_interval _ 200 s, by decide⟩
  · rw [r10 hp] at ht; rw [hp]
    exact ⟨interval_of_map ht (fun _ => rfl), by decide⟩
  · rw [r11 hp] at ht; cases ht; rw [hp]; exact ⟨emergency_interval _ _ 100 s, by decide⟩
  · rw [r12 hp] at ht; rw [hp]; exact ⟨alternatingBands_interval ht, by decide⟩
  · rw [r13 hp] at ht; rw [hp]
    exact ⟨interval_of_map ht (fun _ => rfl), by decide⟩

/-- C15 as amended, witness: a frame of pattern 6 (`colorWipe`) on the boot
strip sets the interval to 10. -/
theorem render_interval_after_frame_witness :
    (∃ t, renderFrame 100 { initState (EEPROM.ofList [2, 0, 0, 0]) with pattern := 6 } = some t ∧
      t.pixelInterval = (framePeriod ({ initState (EEPROM.ofList [2, 0, 0, 0]) with
          pattern := 6 } : State).pattern).getD
        ({ initState (EEPROM.ofList [2, 0, 0, 0]) with pattern := 6 } : State).pixelInterval ∧
      (framePeriod ({ initState (EEPROM.ofList [2, 0, 0, 0]) with pattern := 6 } : State).pattern
          = none ↔
        ({ initState (EEPROM.ofList [2, 0, 0, 0]) with pattern := 6 } : State).pattern = 1 ∨
        ({ initState (EEPROM.ofList [2, 0, 0, 0]) with pattern := 6 } : State).pattern = 8)) ∧
    (renderFrame 100 { initState (EEPROM.ofList [2, 0, 0, 0]) with pattern := 6 }).map
      (fun t => t.pixelInterval) = some 10 :=
  ⟨render_interval_after_frame 100 { initState (EEPROM.ofList [2, 0, 0, 0]) with pattern := 6 }
    (by decide) (by decide) (by decide) (by decide), by decide⟩

/-! ## Renderers that do not return -/

/-- With band width 0 the outer loop of `alternatingBands` never moves its
counter: it runs out of every amount of fuel. -/
theorem bandsLoop_width_zero (n first second : Nat) :
    ∀ (fuel i : Nat) (st : Strip), i < n → bandsLoop n 0 first second fuel i st = none := by
  intro fuel
  induction fuel with
  | zero => intro i st _; rfl
  | succ fuel ih =>
    intro i st hi
    unfold bandsLoop
    rw [if_pos hi]
    exact ih i st hi

/-- A stride loop whose step is 0 mod 2^16 never moves its counter: below the
bound, with a body that returns, it runs out of every amount of fuel. -/
theorem forStride_step_zero {body : Nat → Strip → Option Strip} {bound : Nat}
    (hbody : ∀ c st, ∃ r, body c st = some r) :
    ∀ (fuel c : Nat) (st : Strip), c < bound → c < 65536 →
      forStride body bound 0 fuel c st = none := by
  intro fuel
  induction fuel with
  | zero => intro c st _ _; rfl
  | succ fuel ih =>
    intro c st hc h16
    unfold forStride
    rw [if_pos hc]
    obtain ⟨r, hr⟩ := hbody c st
    rw [hr]
    have : (c + 0) % 65536 = c := by omega
    simp only [this]
    exact ih c r hc h16

/-- On a strip of 65535 pixels a stride loop with step 18 that starts at an
even counter never reaches the bound: the counter stays even. -/
theorem forStride_even_never_ends {body : Nat → Strip → Option Strip}
    (hbody : ∀ c st, ∃ r, body c st = some r) :
    ∀ (fuel c : Nat) (st : Strip), c % 2 = 0 → c < 65536 →
      forStride body 65535 18 fuel c st = none := by
  intro fuel
  induction fuel with
  | zero => intro c st _ _; rfl
  | succ fuel ih =>
    intro c st hc h16
    unfold forStride
    rw [if_pos (by omega)]
    obtain ⟨r, hr⟩ := hbody c st
    rw [hr]
    exact ih _ r (by omega) (by omega)

/-- C16, counterexample.  On the boot strip (74 pixels), `alternatingBands`
with `width = 0` and `theaterChaseTricolorWidth` with `width = 0` run out of
every amount of fuel, for all colours and waits: their loops never advance.
With the parameters of the pattern table (width 3) on a strip of 65535 pixels,
the frame of pattern 13 does not return either: the 16-bit loop counter wraps
without ever reaching the bound. -/
theorem renderers_do_not_return :
    (∀ fuel c1 c2 wait : Nat,
      alternatingBands fuel c1 c2 0 wait (initState (EEPROM.ofList [2, 0, 0, 0])) = none) ∧
    (∀ (fuel c1 c2 c3 : Nat) (wait : Int),
      theaterChaseTricolorWidth fuel c1 c2 c3 0 wait (initState (EEPROM.ofList [2, 0, 0, 0]))
        = none) ∧
    (∀ fuel : Nat,
      renderFrame fuel { initState (EEPROM.ofList [2, 0, 0, 0]) with
        pattern := 13, pixelNumber := 65535 } = none) := by
  refine ⟨?_, ?_, ?_⟩
  · intro fuel c1 c2 wait
    unfold alternatingBands
    simp only
    have h0 : bandsLoop (initState (EEPROM.ofList [2, 0, 0, 0])).pixelNumber (0 % 256) c2 c1
        fuel 0 (initState (EEPROM.ofList [2, 0, 0, 0])).strip = none :=
      bandsLoop_width_zero _ _ _ fuel 0 _ (by decide)
    have hc : (initState (EEPROM.ofList [2, 0, 0, 0])).pixelCycle = 0 := rfl
    simp [hc, h0]
  · intro fuel c1 c2 c3 wait
    unfold theaterChaseTricolorWidth
    have h0 : widthPass fuel (initState (EEPROM.ofList [2, 0, 0, 0])) (0 % 4294967296) c1 (-6)
        (initState (EEPROM.ofList [2, 0, 0, 0])).strip.clear = none := by
      unfold widthPass
      exact forStride_step_zero (fun c st => ⟨_, if_pos (by decide)⟩) fuel _ _
        (by decide) (by decide)
    simp only [h0, Option.none_bind, Option.map_none']
  · intro fuel
    have h0 : widthPass fuel { initState (EEPROM.ofList [2, 0, 0, 0]) with
          pattern := 13, pixelNumber := 65535 } (3 % 4294967296)
        (Strip.Color 168 117 0) (-6)
        (initState (EEPROM.ofList [2, 0, 0, 0])).strip.clear = none := by
      unfold widthPass
      exact forStride_even_never_ends (fun c st => ⟨_, if_pos (by decide)⟩) fuel _ _
        (by decide) (by decide)
    unfold renderFrame theaterChaseTricolorWidth
    simp only [h0, Option.none_bind, Option.map_none']

/-- C16, as amended.  For every phase state, every colour and every wait,
every renderer returns and pushes the buffer exactly once per call, provided
no loop can stall or wrap its 16-bit counter: the width of
`theaterChaseTricolorWidth` is at least 1 and the strip length plus
`6 * width` is at most 65536, and the width of `alternatingBands` is not 0 as
a `uint8_t`.  On a strip of at most 65518 pixels every frame of the pattern
table, the off case included, returns with exactly one push. -/
theorem renderers_return_with_one_push (fuel : Nat) (s : State)
    (c1 c2 c3 wait width bands : Nat) (iwait : Int)
    (hfuel : s.pixelNumber < fuel) (hw : 1 ≤ width)
    (hN : s.pixelNumber + 6 * width ≤ 65536) (hb : bands % 256 ≠ 0) :
    ((solidColor c1 s).strip.shows = s.strip.shows + 1 ∧
     (colorWipe c1 iwait s).strip.shows = s.strip.shows + 1 ∧
     (rainbow wait s).strip.shows = s.strip.shows + 1 ∧
     (rainbowFull wait s).strip.shows = s.strip.shows + 1 ∧
     (flashingColor c1 wait s).strip.shows = s.strip.shows + 1 ∧
     (emergency c1 c2 wait s).strip.shows = s.strip.shows + 1) ∧
    (∃ t, theaterChase fuel c1 iwait s = some t ∧ t.strip.shows = s.strip.shows + 1) ∧
    (∃ t, theaterChaseTricolor fuel c1 c2 c3 iwait s = some t ∧
      t.strip.shows = s.strip.shows + 1) ∧
    (∃ t, theaterChaseTricolorSpaces fuel c1 c2 c3 iwait s = some t ∧
      t.strip.shows = s.strip.shows + 1) ∧
    (∃ t, theaterChaseRainbow fuel wait s = some t ∧ t.strip.shows = s.strip.shows + 1) ∧
    (∃ t, theaterChaseTricolorWidth fuel c1 c2 c3 width iwait s = some t ∧
      t.strip.shows = s.strip.shows + 1) ∧
    (∃ t, alternatingBands fuel c1 c2 bands wait s = some t ∧
      t.strip.shows = s.strip.shows + 1) ∧
    (s.pixelNumber + 18 ≤ 65536 →
      ∃ t, renderFrame fuel s = some t ∧ t.strip.shows = s.strip.shows + 1) := by
  refine ⟨⟨(solidColor_shows c1 s).1, (colorWipe_shows c1 iwait s).1, (rainbow_shows wait s).1,
    (rainbowFull_shows wait s).1, (flashingColor_shows c1 wait s).1,
    (emergency_shows c1 c2 wait s).1⟩, ?_, ?_, ?_, ?_, ?_, ?_, ?_⟩
  · obtain ⟨t, ht⟩ := theaterChase_returns fuel c1 iwait s (by omega) hfuel
    exact ⟨t, ht, (theaterChase_shows ht).1⟩
  · obtain ⟨t, ht⟩ := theaterChaseTricolor_returns fuel c1 c2 c3 iwait s (by omega) hfuel
    exact ⟨t, ht, (theaterChaseTricolor_shows ht).1⟩
  · obtain ⟨t, ht⟩ := theaterChaseTricolorSpaces_returns fuel c1 c2 c3 iwait s (by omega) hfuel
    exact ⟨t, ht, (theaterChaseTricolorSpaces_shows ht).1⟩
  · obtain ⟨t, ht⟩ := theaterChaseRainbow_returns fuel wait s (by omega) hfuel
    exact ⟨t, ht, (theaterChaseRainbow_shows ht).1⟩
  · obtain ⟨t, ht⟩ := theaterChaseTricolorWidth_returns_of_room fuel c1 c2 c3 width iwait s
      hw hN hfuel
    exact ⟨t, ht, (theaterChaseTricolorWidth_shows ht).1⟩
  · obtain ⟨t, ht⟩ := alternatingBands_returns_of_width fuel c1 c2 bands wait s hb
      (by omega) hfuel
    exact ⟨t, ht, (alternatingBands_shows ht).1⟩
  · intro h18
    obtain ⟨t, ht⟩ := renderFrame_returns fuel s h18 hfuel
    exact ⟨t, ht, (renderFrame_shows ht).1⟩

/-- C16 as amended, witness: on the boot strip (74 pixels, no push yet), with
the widths of the pattern table, 3 for `theaterChaseTricolorWidth` and 10 for
`alternatingBands`, both renderers return with the push counter at 1, and so
does the frame of the booted pattern. -/
theorem renderers_return_with_one_push_witness :
    (∃ t, theaterChaseTricolorWidth 100 (Strip.Color 168 117 0) (Strip.Color 255 14 89)
        (Strip.Color 43 198 57) 3 20 (initState (EEPROM.ofList [2, 0, 0, 0])) = some t ∧
      t.strip.shows = (initState (EEPROM.ofList [2, 0, 0, 0])).strip.shows + 1) ∧
    (∃ t, alternatingBands 100 (Strip.Color 168 117 0) (Strip.Color 255 14 89) 10 100
        (initState (EEPROM.ofList [2, 0, 0, 0])) = some t ∧
      t.strip.shows = (initState (EEPROM.ofList [2, 0, 0, 0])).strip.shows + 1) ∧
    (∃ t, renderFrame 100 (initState (EEPROM.ofList [2, 0, 0, 0])) = some t ∧
      t.strip.shows = (initState (EEPROM.ofList [2, 0, 0, 0])).strip.shows + 1) ∧
    (initState (EEPROM.ofList [2, 0, 0, 0])).strip.shows = 0 ∧
    (initState (EEPROM.ofList [2, 0, 0, 0])).pixelNumber = 74 :=
  ⟨(renderers_return_with_one_push 100 (initState (EEPROM.ofList [2, 0, 0, 0]))
      (Strip.Color 168 117 0) (Strip.Color 255 14 89) (Strip.Color 43 198 57) 100 3 10 20
      (by decide) (by decide) (by decide) (by decide)).2.2.2.2.2.1,
   (renderers_return_with_one_push 100 (initState (EEPROM.ofList [2, 0, 0, 0]))
      (Strip.Color 168 117 0) (Strip.Color 255 14 89) (Strip.Color 43 198 57) 100 3 10 20
      (by decide) (by decide) (by decide) (by decide)).2.2.2.2.2.2.1,
   (renderers_return_with_one_push 100 (initState (EEPROM.ofList [2, 0, 0, 0]))
      (Strip.Color 168 117 0) (Strip.Color 255 14 89) (Strip.Color 43 198 57) 100 3 10 20
      (by decide) (by decide) (by decide) (by decide)).2.2.2.2.2.2.2 (by decide),
   by decide, by decide⟩

/-! ## Wipe -/

theorem setPixelColor_pixels (st : Strip) (n c : Nat) (hn : n < st.numLEDs) (h16 : n < 65536) :
    (st.setPixelColor n c).numLEDs = st.numLEDs ∧
    (st.setPixelColor n c).pixels n = c % 16777216 ∧
    ∀ i, i ≠ n → (st.setPixelColor n c).pixels i = st.pixels i := by
  have hmod : n % 65536 = n := Nat.mod_eq_of_lt h16
  unfold Strip.setPixelColor
  rw [hmod, if_pos hn]
  refine ⟨rfl, ?_, ?_⟩
  · simp
  · intro i hi
    simp [hi]

/-- One call of `colorWipe` on a strip of `N` pixels with the cursor inside the
strip: the cursor moves on by one, or wraps to 0 and flips the phase at the end
of the strip; the pixel at the new cursor gets the colour of the new phase and
no other pixel changes. -/
theorem colorWipe_step (color : Nat) (wait : Int) (a : State) (N : Nat)
    (hN : N < 65536) (hpn : a.pixelNumber = N) (hled : a.strip.numLEDs = N)
    (hc : a.wipePixel < N) :
    (colorWipe color wait a).pixelNumber = N ∧
    (colorWipe color wait a).strip.numLEDs = N ∧
    (colorWipe color wait a).wipePixel = (if a.wipePixel + 1 = N then 0 else a.wipePixel + 1) ∧
    (colorWipe color wait a).ledColorOff
      = (if a.wipePixel + 1 = N then !a.ledColorOff else a.ledColorOff) ∧
    (colorWipe color wait a).strip.pixels (colorWipe color wait a).wipePixel
      = (if (colorWipe color wait a).ledColorOff then 0 else color % 16777216) ∧
    (∀ i, i ≠ (colorWipe color wait a).wipePixel →
      (colorWipe color wait a).strip.pixels i = a.strip.pixels i) := by
  subst hpn
  have hmod : (a.wipePixel + 1) % 65536 = a.wipePixel + 1 := Nat.mod_eq_of_lt (by omega)
  by_cases hw : a.wipePixel + 1 = a.pixelNumber
  · have hdec : decide (a.pixelNumber ≤ a.wipePixel + 1) = true := by
      rw [decide_eq_true_eq]; omega
    have heq : colorWipe color wait a =
        { a with pixelInterval := u32 wait, wipePixel := 0, ledColorOff := !a.ledColorOff,
                 strip := (a.strip.setPixelColor 0
                   (if !(!a.ledColorOff) then color else 0)).showPixels } := by
      unfold colorWipe
      simp only [hmod, hdec, if_true]
    obtain ⟨p1, p2, p3⟩ := setPixelColor_pixels a.strip 0
      (if !(!a.ledColorOff) then color else 0) (by omega) (by omega)
    rw [heq, if_pos hw, if_pos hw]
    refine ⟨rfl, ?_, rfl, rfl, ?_, ?_⟩
    · show (a.strip.setPixelColor 0 _).numLEDs = _
      rw [p1, hled]
    · show (a.strip.setPixelColor 0 _).pixels 0 = _
      rw [p2]
      cases a.ledColorOff <;> simp
    · intro i hi
      exact p3 i hi
  · have hdec : decide (a.pixelNumber ≤ a.wipePixel + 1) = false := by
      rw [decide_eq_false_iff_not]; omega
    have heq : colorWipe color wait a =
        { a with pixelInterval := u32 wait, wipePixel := a.wipePixel + 1,
                 ledColorOff := a.ledColorOff,
                 strip := (a.strip.setPixelColor (a.wipePixel + 1)
                   (if !a.ledColorOff then color else 0)).showPixels } := by
      unfold colorWipe
      simp only [hmod, hdec, Bool.false_eq_true, if_false]
    obtain ⟨p1, p2, p3⟩ := setPixelColor_pixels a.strip (a.wipePixel + 1)
      (if !a.ledColorOff then color else 0) (by omega) (by omega)
    rw [heq, if_neg hw, if_neg hw]
    refine ⟨rfl, ?_, rfl, rfl, ?_, ?_⟩
    · show (a.strip.setPixelColor _ _).numLEDs = _
      rw [p1, hled]
    · show (a.strip.setPixelColor (a.wipePixel + 1) _).pixels (a.wipePixel + 1) = _
      rw [p2]
      cases a.ledColorOff <;> simp
    · intro i hi
      exact p3 i hi

/-- The cursor and the phase flag after `k` calls of `colorWipe` that started
at cursor 0, for `k` below the strip length: no wrap and no flip yet. -/
theorem colorWipe_iterate (color : Nat) (wait : Int) (s : State) (N : Nat)
    (hN : N < 65536) (hpn : s.pixelNumber = N) (hled : s.strip.numLEDs = N)
    (hc : s.wipePixel = 0) :
    ∀ k, k < N →
      ((colorWipe color wait)^[k] s).pixelNumber = N ∧
      ((colorWipe color wait)^[k] s).strip.numLEDs = N ∧
      ((colorWipe color wait)^[k] s).wipePixel = k ∧
      ((colorWipe color wait)^[k] s).ledColorOff = s.ledColorOff := by
  intro k
  induction k with
  | zero => intro _; exact ⟨hpn, hled, hc, rfl⟩
  | succ k ih =>
    intro hk
    obtain ⟨i1, i2, i3, i4⟩ := ih (by omega)
    obtain ⟨c1, c2, c3, c4, _, _⟩ := colorWipe_step color wait _ N hN i1 i2 (by omega)
    rw [Function.iterate_succ_apply']
    rw [c3, c4, i3, i4, if_neg (by omega), if_neg (by omega)]
    exact ⟨c1, c2, rfl, rfl⟩

/-- C17. Wipe period: on a strip of `N >= 1` pixels, starting from cursor 0,
the first `N - 1` calls of `colorWipe` move the cursor to `1, ..., N - 1`
without touching the phase flag, and the `N`-th call wraps the cursor to 0 and
flips `ledColorOff`: one flip and one wrap in `N` calls.  Each call sets
exactly one pixel, the one at the cursor after its advance, to the colour when
the phase (after the call) is on and to 0 when it is off, and leaves every
other pixel as it was. -/
theorem colorWipe_period (color : Nat) (wait : Int) (s : State) (N : Nat)
    (hN1 : 1 ≤ N) (hN : N < 65536) (hpn : s.pixelNumber = N) (hled : s.strip.numLEDs = N)
    (hc : s.wipePixel = 0) :
    (∀ k, k < N →
      ((colorWipe color wait)^[k] s).wipePixel = k ∧
      ((colorWipe color wait)^[k] s).ledColorOff = s.ledColorOff) ∧
    ((colorWipe color wait)^[N] s).wipePixel = 0 ∧
    ((colorWipe color wait)^[N] s).ledColorOff = (!s.ledColorOff) ∧
    (∀ k, k < N →
      ((colorWipe color wait)^[k + 1] s).wipePixel < N ∧
      ((colorWipe color wait)^[k + 1] s).strip.pixels
          ((colorWipe color wait)^[k + 1] s).wipePixel
        = (if ((colorWipe color wait)^[k + 1] s).ledColorOff then 0
           else color % 16777216) ∧
      ∀ i, i ≠ ((colorWipe color wait)^[k + 1] s).wipePixel →
        ((colorWipe color wait)^[k + 1] s).strip.pixels i
          = ((colorWipe color wait)^[k] s).strip.pixels i) := by
  have hit := colorWipe_iterate color wait s N hN hpn hled hc
  refine ⟨fun k hk => ⟨(hit k hk).2.2.1, (hit k hk).2.2.2⟩, ?_, ?_, ?_⟩
  · obtain ⟨k, rfl⟩ : ∃ k, N = k + 1 := ⟨N - 1, by omega⟩
    obtain ⟨i1, i2, i3, i4⟩ := hit k (by omega)
    obtain ⟨_, _, c3, _⟩ := colorWipe_step color wait _ (k + 1) hN i1 i2 (by omega)
    rw [Function.iterate_succ_apply', c3, i3, if_pos rfl]
  · obtain ⟨k, rfl⟩ : ∃ k, N = k + 1 := ⟨N - 1, by omega⟩
    obtain ⟨i1, i2, i3, i4⟩ := hit k (by omega)
    obtain ⟨_, _, _, c4, _⟩ := colorWipe_step color wait _ (k + 1) hN i1 i2 (by omega)
    rw [Function.iterate_succ_apply', c4, i3, i4, if_pos rfl]
  · intro k hk
    obtain ⟨i1, i2, i3, i4⟩ := hit k hk
    obtain ⟨_, _, c3, _, c5, c6⟩ := colorWipe_step color wait _ N hN i1 i2 (by omega)
    rw [Function.iterate_succ_apply']
    refine ⟨?_, c5, c6⟩
    rw [c3, i3]
    split_ifs <;> omega

/-- C17, witness: strip of 10 pixels, green, `wait = 10`.  After 3 calls the
cursor is 3 and the phase is still on; the 4th call paints pixel 4 green; after
10 calls the cursor is back at 0 and the phase has flipped to off. -/
theorem colorWipe_period_witness :
    (((colorWipe (Strip.Color 0 255 0) 10)^[3]
        (initStateOn 10 (EEPROM.ofList [2, 0, 0, 0]))).wipePixel = 3 ∧
      ((colorWipe (Strip.Color 0 255 0) 10)^[3]
        (initStateOn 10 (EEPROM.ofList [2, 0, 0, 0]))).ledColorOff = false) ∧
    ((colorWipe (Strip.Color 0 255 0) 10)^[10]
      (initStateOn 10 (EEPROM.ofList [2, 0, 0, 0]))).wipePixel = 0 ∧
    ((colorWipe (Strip.Color 0 255 0) 10)^[10]
      (initStateOn 10 (EEPROM.ofList [2, 0, 0, 0]))).ledColorOff = true ∧
    ((colorWipe (Strip.Color 0 255 0) 10)^[4]
      (initStateOn 10 (EEPROM.ofList [2, 0, 0, 0]))).strip.pixels 4 = 65280 ∧
    ((colorWipe (Strip.Color 0 255 0) 10)^[10]
      (initStateOn 10 (EEPROM.ofList [2, 0, 0, 0]))).strip.pixels 0 = 0 :=
  ⟨(colorWipe_period (Strip.Color 0 255 0) 10 (initStateOn 10 (EEPROM.ofList [2, 0, 0, 0])) 10
      (by decide) (by decide) rfl rfl rfl).1 3 (by decide),
   (colorWipe_period (Strip.Color 0 255 0) 10 (initStateOn 10 (EEPROM.ofList [2, 0, 0, 0])) 10
      (by decide) (by decide) rfl rfl rfl).2.1,
   (colorWipe_period (Strip.Color 0 255 0) 10 (initStateOn 10 (EEPROM.ofList [2, 0, 0, 0])) 10
      (by decide) (by decide) rfl rfl rfl).2.2.1,
   by decide, by decide⟩

/-! ## The frame check and the poll thresholds -/

set_option maxRecDepth 100000 in
/-- C18, counterexample: booted on storage `[0,0,0,0]`, one iteration at
300 ms (Toggle high, Mode high), then one at 3000 ms with Toggle high.  At
3000 ms the frame is due (`pixelInterval` is 1, the last frame was at 300 ms),
but the iteration ends in the toggle block: no renderer is invoked (the push
counter stays at 2) and `pixelPrevious` stays at 300. -/
theorem idle_toggle_skips_frame_check :
    (run 100 (setup (initState (EEPROM.ofList [0, 0, 0, 0]))) [⟨300, true, true⟩]).map
      (fun s => (s.pixelInterval, s.pixelPrevious, s.strip.shows,
        decide (s.pixelInterval ≤ sub32 3000 s.pixelPrevious), returnsEarly s ⟨3000, true, false⟩))
      = some (1, 300, 2, true, true) ∧
    (run 100 (setup (initState (EEPROM.ofList [0, 0, 0, 0])))
        [⟨300, true, true⟩, ⟨3000, true, false⟩]).map
      (fun t => (t.pixelPrevious, t.strip.shows)) = some (300, 2) := by
  rw [setup_zero4]
  refine ⟨by decide, by decide⟩

/-- C18, as amended. In every `loop()` iteration that does not end at the
`else return;` of the toggle block, whatever the Toggle and Mode handlers did,
the frame check is performed: if `(currentMillis - pixelPrevious) mod 2^32 >=
pixelInterval`, the renderer of the current pattern is invoked (one push of the
buffer) and `pixelPrevious` is set to the current time; if not, the strip and
`pixelPrevious` are left as they were.  An iteration that ends at the
`else return;` (Toggle resampled high with previous level high) renders no
frame and leaves `pixelPrevious` as it was. -/
theorem frame_check_unless_early_return (fuel : Nat) (s : State) (inp : Inputs)
    (hN : s.pixelNumber + 18 ≤ 65536) (hfuel : s.pixelNumber < fuel) :
    ∃ t, loop fuel s inp = some t ∧
      (returnsEarly s inp = false →
        s.pixelInterval ≤ sub32 (inp.millis % 4294967296) s.pixelPrevious →
        t.strip.shows = s.strip.shows + 1 ∧ t.pixelPrevious = inp.millis % 4294967296 ∧
        ∃ m, renderFrame fuel m = some t ∧ m.pattern = t.pattern ∧ m.strip = s.strip) ∧
      (returnsEarly s inp = false →
        ¬ s.pixelInterval ≤ sub32 (inp.millis % 4294967296) s.pixelPrevious →
        t.strip = s.strip ∧ t.pixelPrevious = s.pixelPrevious) ∧
      (returnsEarly s inp = true → t.strip = s.strip ∧ t.pixelPrevious = s.pixelPrevious) := by
  obtain ⟨t, ht⟩ := loop_returns fuel s inp hN hfuel
  obtain ⟨d1, d2⟩ := loop_frame ht
  refine ⟨t, ht, ?_, ?_, ?_⟩
  · intro hre hdue
    exact d1 (by simp [frameDue, hre, hdue])
  · intro hre hdue
    exact d2 (by simp [frameDue, hre, hdue])
  · intro hre
    exact d2 (by simp [frameDue, hre])

set_option maxRecDepth 100000 in
/-- C18 as amended, witness: the first iteration after boot, at 300 ms with
Toggle and Mode high; the frame is due and a frame of pattern 2 is pushed. -/
theorem frame_check_unless_early_return_witness :
    (∃ t, loop 100 (initState (EEPROM.ofList [2, 0, 0, 0])) ⟨300, true, true⟩ = some t ∧
      (returnsEarly (initState (EEPROM.ofList [2, 0, 0, 0])) ⟨300, true, true⟩ = false →
        (initState (EEPROM.ofList [2, 0, 0, 0])).pixelInterval
          ≤ sub32 ((⟨300, true, true⟩ : Inputs).millis % 4294967296)
              (initState (EEPROM.ofList [2, 0, 0, 0])).pixelPrevious →
        t.strip.shows = (initState (EEPROM.ofList [2, 0, 0, 0])).strip.shows + 1 ∧
        t.pixelPrevious = (⟨300, true, true⟩ : Inputs).millis % 4294967296 ∧
        ∃ m, renderFrame 100 m = some t ∧ m.pattern = t.pattern ∧
          m.strip = (initState (EEPROM.ofList [2, 0, 0, 0])).strip) ∧
      (returnsEarly (initState (EEPROM.ofList [2, 0, 0, 0])) ⟨300, true, true⟩ = false →
        ¬ (initState (EEPROM.ofList [2, 0, 0, 0])).pixelInterval
          ≤ sub32 ((⟨300, true, true⟩ : Inputs).millis % 4294967296)
              (initState (EEPROM.ofList [2, 0, 0, 0])).pixelPrevious →
        t.strip = (initState (EEPROM.ofList [2, 0, 0, 0])).strip ∧
        t.pixelPrevious = (initState (EEPROM.ofList [2, 0, 0, 0])).pixelPrevious) ∧
      (returnsEarly (initState (EEPROM.ofList [2, 0, 0, 0])) ⟨300, true, true⟩ = true →
        t.strip = (initState (EEPROM.ofList [2, 0, 0, 0])).strip ∧
        t.pixelPrevious = (initState (EEPROM.ofList [2, 0, 0, 0])).pixelPrevious)) ∧
    (loop 100 (initState (EEPROM.ofList [2, 0, 0, 0])) ⟨300, true, true⟩).map
      (fun t => (t.pattern, t.strip.shows, t.pixelPrevious)) = some (2, 1, 300) :=
  ⟨frame_check_unless_early_return 100 (initState (EEPROM.ofList [2, 0, 0, 0]))
    ⟨300, true, true⟩ (by decide) (by decide), by decide⟩

/-- C19, counterexample: from the boot state on storage `[0,0,0,0]`.  At
200 ms the elapsed time since the last Toggle sample is exactly 200 ms and the
Toggle line (high) is not resampled: `currentToggleMillis` stays 0 and
`toggleState` stays low.  At 10000 ms the elapsed time since the Mode
timestamp is exactly 2000 ms and, although the iteration reaches the mode part
(Toggle rising edge), the mode block is not entered: `currentModeMillis` stays
8000 and `modeState` stays low with the Mode line high. -/
theorem poll_at_exact_threshold_is_skipped :
    (sub32 200 (setup (initState (EEPROM.ofList [0, 0, 0, 0]))).currentToggleMillis = 200 ∧
     (loop 100 (setup (initState (EEPROM.ofList [0, 0, 0, 0]))) ⟨200, true, true⟩).map
        (fun t => (t.currentToggleMillis, t.toggleState)) = some (0, false)) ∧
    (sub32 10000 (setup (initState (EEPROM.ofList [0, 0, 0, 0]))).currentModeMillis = 2000 ∧
     returnsEarly (setup (initState (EEPROM.ofList [0, 0, 0, 0]))) ⟨10000, true, true⟩ = false ∧
     (loop 100 (setup (initState (EEPROM.ofList [0, 0, 0, 0]))) ⟨10000, true, true⟩).map
        (fun t => (t.currentModeMillis, t.modeState, t.toggleState))
        = some (8000, false, true)) := by
  rw [setup_zero4]
  refine ⟨⟨by decide, by decide⟩, by decide, by decide, by decide⟩

/-- C19, as amended. Strict poll thresholds: the Toggle line is resampled in a
`loop()` iteration if and only if `(currentMillis - currentToggleMillis) mod
2^32` is strictly greater than `TOGGLEDELAY` (200 ms); at exactly 200 ms it is
not.  The mode block uses the same strict comparison against `MODEDELAY`
(2000 ms): it is entered, in an iteration that reaches it, if and only if the
elapsed time is strictly greater than 2000 ms. -/
theorem poll_thresholds_are_strict (fuel : Nat) (s : State) (inp : Inputs)
    (hN : s.pixelNumber + 18 ≤ 65536) (hfuel : s.pixelNumber < fuel) :
    ∃ t, loop fuel s inp = some t ∧
      (TOGGLEDELAY < sub32 (inp.millis % 4294967296) s.currentToggleMillis →
        t.currentToggleMillis = inp.millis % 4294967296 ∧ t.toggleState = inp.togglePin ∧
        t.toggleStatePrevious = s.toggleState) ∧
      (sub32 (inp.millis % 4294967296) s.currentToggleMillis ≤ TOGGLEDELAY →
        t.currentToggleMillis = s.currentToggleMillis ∧ t.toggleState = s.toggleState ∧
        t.toggleStatePrevious = s.toggleStatePrevious) ∧
      (returnsEarly s inp = false →
        MODEDELAY < sub32 (inp.millis % 4294967296) s.currentModeMillis →
        t.currentModeMillis = inp.millis % 4294967296 ∧ t.modeState = inp.modePin ∧
        t.modeStatePrevious = s.modeState) ∧
      (sub32 (inp.millis % 4294967296) s.currentModeMillis ≤ MODEDELAY →
        t.currentModeMillis = s.currentModeMillis ∧ t.modeState = s.modeState ∧
        t.modeStatePrevious = s.modeStatePrevious) := by
  obtain ⟨t, ht⟩ := loop_returns fuel s inp hN hfuel
  obtain ⟨t1, t2⟩ := loop_toggle_fields ht
  obtain ⟨m1, m2⟩ := loop_mode_fields ht
  refine ⟨t, ht, ?_, ?_, ?_, ?_⟩
  · intro h
    exact t1 (by simp [toggleSampled, h])
  · intro h
    exact t2 (by simp [toggleSampled]; omega)
  · intro hre h
    obtain ⟨a1, a2, a3, _⟩ := m1 (by simp [modeSampled, hre, h])
    exact ⟨a1, a2, a3⟩
  · intro h
    obtain ⟨a1, a2, a3, _⟩ := m2 (by simp [modeSampled]; omega)
    exact ⟨a1, a2, a3⟩

/-- C19 as amended, witness: from the initial globals, at 201 ms the Toggle
line is resampled. -/
theorem poll_thresholds_are_strict_witness :
    ∃ t, loop 100 (initState (EEPROM.ofList [2, 0, 0, 0])) ⟨201, true, true⟩ = some t ∧
      t.currentToggleMillis = 201 ∧ t.toggleState = true ∧ t.toggleStatePrevious = false := by
  obtain ⟨t, ht, h1, _⟩ := poll_thresholds_are_strict 100 (initState (EEPROM.ofList [2, 0, 0, 0]))
    ⟨201, true, true⟩ (by decide) (by decide)
  exact ⟨t, ht, h1 (by decide)⟩

/-- C20, counterexample: booted on storage `[0,0,0,0]`, iterations at 300 ms
and 3000 ms (Toggle high), then one at 3001 ms with Mode low.  At 3001 ms the
Toggle interval has not elapsed (1 ms since the last sample), so the Toggle
line is not resampled; the iteration does not return early: the Mode line is
resampled (`currentModeMillis` becomes 3001, previous level high, new level
low) and the pattern is advanced from 2 to 3. -/
theorem mode_runs_while_toggle_not_due :
    (run 100 (setup (initState (EEPROM.ofList [0, 0, 0, 0])))
        [⟨300, true, true⟩, ⟨3000, true, false⟩]).map
      (fun s => (toggleSampled s ⟨3001, true, false⟩, s.currentToggleMillis, s.pattern,
        s.currentModeMillis)) = some (false, 3000, 2, 300) ∧
    (run 100 (setup (initState (EEPROM.ofList [0, 0, 0, 0])))
        [⟨300, true, true⟩, ⟨3000, true, false⟩, ⟨3001, true, false⟩]).map
      (fun t => (t.currentModeMillis, t.modeStatePrevious, t.modeState, t.pattern))
      = some (3001, true, false, 3) := by
  rw [setup_zero4]
  refine ⟨by decide, by decide⟩

/-- C20, as amended. In every `loop()` iteration in which the Toggle line's
minimum interval has not yet elapsed (the Toggle line is not resampled), the
iteration does not return early and Mode processing takes place: if the Mode
interval has elapsed the Mode line is resampled, the pattern is advanced on a
low sample, and on a rising edge with a pattern that differs from the stored
byte the pattern is committed; if the Mode interval has not elapsed the mode
variables and the pattern are left as they were.  (The early return belongs to
the iterations in which the Toggle line is resampled high with previous level
high.) -/
theorem mode_processed_when_toggle_not_due (fuel : Nat) (s : State) (inp : Inputs)
    (hN : s.pixelNumber + 18 ≤ 65536) (hfuel : s.pixelNumber < fuel)
    (hts : sub32 (inp.millis % 4294967296) s.currentToggleMillis ≤ TOGGLEDELAY) :
    returnsEarly s inp = false ∧
    ∃ t, loop fuel s inp = some t ∧
      (MODEDELAY < sub32 (inp.millis % 4294967296) s.currentModeMillis →
        t.currentModeMillis = inp.millis % 4294967296 ∧ t.modeState = inp.modePin ∧
        t.modeStatePrevious = s.modeState ∧
        t.pattern = (if inp.modePin then s.pattern else nextPattern s.pattern) ∧
        (inp.modePin = true → s.modeState = false →
          s.pattern ≠ s.eeprom.read s.eepromAddress →
          t.eeprom = (commit s).eeprom ∧ t.eepromAddress = (commit s).eepromAddress)) ∧
      (sub32 (inp.millis % 4294967296) s.currentModeMillis ≤ MODEDELAY →
        t.currentModeMillis = s.currentModeMillis ∧ t.modeState = s.modeState ∧
        t.modeStatePrevious = s.modeStatePrevious ∧ t.pattern = s.pattern ∧
        t.eeprom = s.eeprom ∧ t.eepromAddress = s.eepromAddress) := by
  have hns : toggleSampled s inp = false := by
    simp [toggleSampled]; omega
  have hre : returnsEarly s inp = false := by simp [returnsEarly, hns]
  have hpat : patternAfterToggle s inp = s.pattern := by
    rw [patternAfterToggle_eq, hns]; rfl
  obtain ⟨t, ht⟩ := loop_returns fuel s inp hN hfuel
  obtain ⟨m1, m2⟩ := loop_mode_fields ht
  obtain ⟨l1, l2⟩ := loop_store ht
  rw [hpat] at m1 m2 l1
  refine ⟨hre, t, ht, ?_, ?_⟩
  · intro hel
    obtain ⟨a1, a2, a3, a4⟩ := m1 (by simp [modeSampled, hre, hel])
    refine ⟨a1, a2, a3, a4, ?_⟩
    intro hpin hprev hne
    have hla : lockAction s inp = true := by
      simp [lockAction, modeSampled, hre, hel, hpin, hprev, hpat, hne]
    obtain ⟨e1, e2, _⟩ := l1 hla
    exact ⟨e1, e2⟩
  · intro hel
    obtain ⟨a1, a2, a3, a4⟩ := m2 (by simp [modeSampled]; omega)
    have hla : lockAction s inp = false := by
      have : ¬ MODEDELAY < sub32 (inp.millis % 4294967296) s.currentModeMillis := by omega
      simp [lockAction, modeSampled, this]
    obtain ⟨e1, e2⟩ := l2 hla
    exact ⟨a1, a2, a3, a4, e1, e2⟩

/-- C20 as amended, witness: Toggle last sampled at 3000 ms, now 3001 ms;
Mode last sampled high at 300 ms and now low: the Mode line is resampled and
pattern 2 becomes 3. -/
theorem mode_processed_when_toggle_not_due_witness :
    returnsEarly { initState (EEPROM.ofList [2, 0, 0, 0]) with
        pattern := 2, toggleState := true, modeState := true, currentToggleMillis := 3000,
        currentModeMillis := 300 } ⟨3001, true, false⟩ = false ∧
    ∃ t, loop 100 { initState (EEPROM.ofList [2, 0, 0, 0]) with
        pattern := 2, toggleState := true, modeState := true, currentToggleMillis := 3000,
        currentModeMillis := 300 } ⟨3001, true, false⟩ = some t ∧
      t.currentModeMillis = 3001 ∧ t.modeState = false ∧ t.modeStatePrevious = true ∧
      t.pattern = 3 := by
  obtain ⟨hre, t, ht, h1, _⟩ := mode_processed_when_toggle_not_due 100
    { initState (EEPROM.ofList [2, 0, 0, 0]) with
        pattern := 2, toggleState := true, modeState := true, currentToggleMillis := 3000,
        currentModeMillis := 300 } ⟨3001, true, false⟩ (by decide) (by decide) (by decide)
  obtain ⟨a1, a2, a3, a4, _⟩ := h1 (by decide)
  exact ⟨hre, t, ht, a1, a2, a3, a4⟩

/-! ## The Mode timestamp at boot -/

/-- The boot scan leaves the polling variables at their initial values. -/
theorem setup_polling_fields (e : EEPROM) (hlen : 1 ≤ e.length) :
    (setup (initState e)).currentModeMillis = 8000 ∧
    (setup (initState e)).currentToggleMillis = 0 ∧
    (setup (initState e)).modeState = false ∧
    (setup (initState e)).toggleState = false := by
  rcases first_nonzero_or_all_zero e with ⟨k, hk, hz, hnz⟩ | hall
  · rw [setup_first_nonzero e k hk hz hnz]
    split_ifs <;> exact ⟨rfl, rfl, rfl, rfl⟩
  · rw [setup_no_valid e hlen (fun j h0 hj => Or.inl (hall j h0 hj))]
    exact ⟨rfl, rfl, rfl, rfl⟩

/-- Below 8000 ms the unsigned difference to the initial Mode timestamp wraps
to more than `MODEDELAY`. -/
theorem sub32_below_boot_stamp (now : Nat) (h : now < 8000) :
    sub32 now 8000 = 4294959296 + now ∧ MODEDELAY < sub32 now 8000 := by
  unfold sub32 u32 MODEDELAY
  omega

/-- The first `loop()` iteration after boot resamples the Mode line whenever
its clock reading is below 8000 ms: the new level is recorded, and a low level
advances the pattern. -/
theorem first_iteration_samples_mode (e : EEPROM) (inp : Inputs) (fuel : Nat)
    (hlen : 1 ≤ e.length) (hnow : inp.millis < 8000) (hfuel : LED_COUNT < fuel) :
    modeSampled (setup (initState e)) inp = true ∧
    ∃ t, loop fuel (setup (initState e)) inp = some t ∧
      t.currentModeMillis = inp.millis ∧ t.modeState = inp.modePin := by
  obtain ⟨p1, _, _, p4⟩ := setup_polling_fields e hlen
  obtain ⟨_, hpn⟩ := setup_valid e hlen
  have hmod : inp.millis % 4294967296 = inp.millis := Nat.mod_eq_of_lt (by omega)
  have hms : modeSampled (setup (initState e)) inp = true := by
    have := (sub32_below_boot_stamp inp.millis hnow).2
    simp [modeSampled, returnsEarly, p4, p1, hmod, this]
  obtain ⟨t, ht⟩ := loop_returns fuel (setup (initState e)) inp (by rw [hpn]; decide)
    (by rw [hpn]; exact hfuel)
  obtain ⟨a1, a2, _, _⟩ := (loop_mode_fields ht).1 hms
  exact ⟨hms, t, ht, by rw [a1, hmod], a2⟩

/-- C21, the code at the failing input: booted on storage `[0,0,0,0]`
(pattern 2, `currentModeMillis` 8000).  The first `loop()` iteration, at
100 ms with the Mode line low, resamples the Mode line: the unsigned
difference `100 - 8000` is 4294959396, which is greater than `MODEDELAY`, so
`currentModeMillis` becomes 100 and the pattern is advanced to 3.  With the
Toggle line low and the Mode line high at 300 ms instead, the Mode handler
commits pattern 1: storage becomes `[0,1,0,0]` at address 1. -/
theorem mode_pin_is_read_before_8000_ms :
    ((setup (initState (EEPROM.ofList [0, 0, 0, 0]))).currentModeMillis = 8000 ∧
     (setup (initState (EEPROM.ofList [0, 0, 0, 0]))).pattern = 2 ∧
     sub32 100 (setup (initState (EEPROM.ofList [0, 0, 0, 0]))).currentModeMillis
       = 4294959396) ∧
    modeSampled (setup (initState (EEPROM.ofList [0, 0, 0, 0]))) ⟨100, true, false⟩ = true ∧
    (loop 100 (setup (initState (EEPROM.ofList [0, 0, 0, 0]))) ⟨100, true, false⟩).map
      (fun t => (t.currentModeMillis, t.modeStatePrevious, t.modeState, t.pattern))
      = some (100, false, false, 3) ∧
    (loop 100 (setup (initState (EEPROM.ofList [0, 0, 0, 0]))) ⟨300, false, true⟩).map
      (fun t => (t.currentModeMillis, t.modeState, t.eepromAddress, t.eeprom.image))
      = some (300, true, 1, [0, 1, 0, 0]) := by
  rw [setup_zero4]
  refine ⟨⟨by decide, by decide, by decide⟩, by decide, by decide, by decide⟩

/-! ## The hue wheel -/

/-- Packing three bytes loses nothing: the channels of `Color r g b` are `r`,
`g` and `b`, and the packed value has 24 bits. -/
theorem Color_channels (r g b : Nat) (hr : r ≤ 255) (hg : g ≤ 255) (hb : b ≤ 255) :
    Strip.red (Strip.Color r g b) = r ∧ Strip.green (Strip.Color r g b) = g ∧
    Strip.blue (Strip.Color r g b) = b ∧ Strip.Color r g b < 16777216 := by
  unfold Strip.Color Strip.red Strip.green Strip.blue
  rw [Nat.mod_eq_of_lt (by omega : r < 256), Nat.mod_eq_of_lt (by omega : g < 256),
    Nat.mod_eq_of_lt (by omega : b < 256)]
  refine ⟨by omega, by omega, by omega, by omega⟩

/-- The three branches of `Wheel` in terms of the byte passed in. -/
theorem Wheel_branches (p : Nat) (hp : p ≤ 255) :
    (p ≤ 85 → Wheel p = Strip.Color (255 - 3 * p) (3 * p) 0) ∧
    (86 ≤ p → p ≤ 170 → Wheel p = Strip.Color 0 (510 - 3 * p) (3 * p - 255)) ∧
    (171 ≤ p → Wheel p = Strip.Color (3 * p - 510) 0 (765 - 3 * p)) := by
  have hmod : p % 256 = p := Nat.mod_eq_of_lt (by omega)
  unfold Wheel
  simp only [hmod]
  refine ⟨fun h => ?_, fun h1 h2 => ?_, fun h => ?_⟩
  · rw [if_neg (by omega), if_neg (by omega)]
    rw [(by omega : (255 - p - 170) * 3 = 255 - 3 * p),
      (by omega : 255 - (255 - 3 * p) = 3 * p)]
  · rw [if_neg (by omega), if_pos (by omega)]
    rw [(by omega : (255 - p - 85) * 3 = 510 - 3 * p),
      (by omega : 255 - (510 - 3 * p) = 3 * p - 255)]
  · rw [if_pos (by omega)]
    rw [(by omega : (255 - p) * 3 = 765 - 3 * p),
      (by omega : 255 - (765 - 3 * p) = 3 * p - 510)]

/-- C22: for every byte `p`, the source's intermediate values never truncate
(each product `q * 3` with `q` the reduced position stays within a byte, so no
subtraction from 255 goes below 0), the packed result is a 24-bit colour whose
red, green and blue bytes are exactly the specification's piecewise-linear map
at `p`, each channel is at most 255, the channels sum to 255 and one of them
is 0; and `Wheel 0 = Wheel 255` is pure red, `Wheel 85` pure green,
`Wheel 170` pure blue. -/
theorem wheel_is_piecewise_linear (p : Nat) (hp : p ≤ 255) :
    ((255 - p % 256 < 85 → (255 - p % 256) * 3 ≤ 255) ∧
     (85 ≤ 255 - p % 256 → 255 - p % 256 < 170 → (255 - p % 256 - 85) * 3 ≤ 255) ∧
     (170 ≤ 255 - p % 256 → (255 - p % 256 - 170) * 3 ≤ 255)) ∧
    Wheel p < 16777216 ∧
    (((Strip.red (Wheel p) : Nat) : Int), ((Strip.green (Wheel p) : Nat) : Int),
      ((Strip.blue (Wheel p) : Nat) : Int)) = wheelSpec (p : Int) ∧
    (Strip.red (Wheel p) ≤ 255 ∧ Strip.green (Wheel p) ≤ 255 ∧ Strip.blue (Wheel p) ≤ 255) ∧
    Strip.red (Wheel p) + Strip.green (Wheel p) + Strip.blue (Wheel p) = 255 ∧
    (Strip.red (Wheel p) = 0 ∨ Strip.green (Wheel p) = 0 ∨ Strip.blue (Wheel p) = 0) ∧
    (Wheel 0 = Strip.Color 255 0 0 ∧ Wheel 255 = Strip.Color 255 0 0 ∧
     Wheel 85 = Strip.Color 0 255 0 ∧ Wheel 170 = Strip.Color 0 0 255) := by
  obtain ⟨b1, b2, b3⟩ := Wheel_branches p hp
  have key : Wheel p < 16777216 ∧
      (((Strip.red (Wheel p) : Nat) : Int), ((Strip.green (Wheel p) : Nat) : Int),
        ((Strip.blue (Wheel p) : Nat) : Int)) = wheelSpec (p : Int) ∧
      (Strip.red (Wheel p) ≤ 255 ∧ Strip.green (Wheel p) ≤ 255 ∧
        Strip.blue (Wheel p) ≤ 255) ∧
      Strip.red (Wheel p) + Strip.green (Wheel p) + Strip.blue (Wheel p) = 255 ∧
      (Strip.red (Wheel p) = 0 ∨ Strip.green (Wheel p) = 0 ∨ Strip.blue (Wheel p) = 0) := by
    by_cases h1 : p ≤ 85
    · obtain ⟨cr, cg, cb, clt⟩ := Color_channels (255 - 3 * p) (3 * p) 0
        (by omega) (by omega) (by omega)
      rw [b1 h1, cr, cg, cb]
      refine ⟨clt, ?_, by omega, by omega, Or.inr (Or.inr rfl)⟩
      unfold wheelSpec
      rw [if_pos (by omega)]
      simp only [Prod.mk.injEq]
      omega
    by_cases h2 : p ≤ 170
    · obtain ⟨cr, cg, cb, clt⟩ := Color_channels 0 (510 - 3 * p) (3 * p - 255)
        (by omega) (by omega) (by omega)
      rw [b2 (by omega) h2, cr, cg, cb]
      refine ⟨clt, ?_, by omega, by omega, Or.inl rfl⟩
      unfold wheelSpec
      rw [if_neg (by omega), if_pos (by omega)]
      simp only [Prod.mk.injEq]
      omega
    · obtain ⟨cr, cg, cb, clt⟩ := Color_channels (3 * p - 510) 0 (765 - 3 * p)
        (by omega) (by omega) (by omega)
      rw [b3 (by omega), cr, cg, cb]
      refine ⟨clt, ?_, by omega, by omega, Or.inr (Or.inl rfl)⟩
      unfold wheelSpec
      rw [if_neg (by omega), if_neg (by omega)]
      simp only [Prod.mk.injEq]
      omega
  obtain ⟨k1, k2, k3, k4, k5⟩ := key
  exact ⟨⟨by omega, by omega, by omega⟩, k1, k2, k3, k4, k5,
    (by decide : Wheel 0 = Strip.Color 255 0 0),
    (by decide : Wheel 255 = Strip.Color 255 0 0),
    (by decide : Wheel 85 = Strip.Color 0 255 0),
    (by decide : Wheel 170 = Strip.Color 0 0 255)⟩

/-- Witness for C22 at `p = 100`, in the middle segment: the colour is
`(0, 210, 45)`. -/
theorem wheel_is_piecewise_linear_witness :
    (100 ≤ 255) ∧ Wheel 100 = Strip.Color 0 210 45 ∧ wheelSpec 100 = (0, 210, 45) ∧
    Strip.red (Wheel 100) + Strip.green (Wheel 100) + Strip.blue (Wheel 100) = 255 :=
  ⟨by decide, by decide, by decide, (wheel_is_piecewise_linear 100 (by decide)).2.2.2.2.1⟩

/-! ## Animation phase state -/

theorem state_of_map {t : State} {x : Option Strip} {f : Strip → State}
    (h : x.map f = some t) : ∃ st, f st = t := by
  cases x with
  | none => cases h
  | some st => exact ⟨st, Option.some.inj h⟩

/-- The statement pair `pixelCycle++; if (pixelCycle >= 256) pixelCycle = 0;`
always changes `pixelCycle`. -/
theorem nextCycle_ne (c : Int) : nextCycle c ≠ c := by
  unfold nextCycle
  split_ifs <;> omega

/-- The two-phase flip of `flashingColor`, `emergency` and `alternatingBands`
always changes `pixelCycle`. -/
theorem flip_ne (c : Int) :
    (if (if 1 < c then (0 : Int) else c) ≠ 0 then (0 : Int) else 1) ≠ c := by
  split_ifs <;> omega

/-- The renderer `flashingColor` touches `pixelCycle` alone among the phase
variables, and changes it. -/
theorem flashingColor_phase (color wait : Nat) (s : State) :
    (flashingColor color wait s).wipePixel = s.wipePixel ∧
    (flashingColor color wait s).ledColorOff = s.ledColorOff ∧
    (flashingColor color wait s).chasePixel = s.chasePixel ∧
    (flashingColor color wait s).tricolorPixel = s.tricolorPixel ∧
    (flashingColor color wait s).widthPixel = s.widthPixel ∧
    (flashingColor color wait s).spacesPixel = s.spacesPixel ∧
    (flashingColor color wait s).pixelQueue = s.pixelQueue ∧
    (flashingColor color wait s).pixelCycle ≠ s.pixelCycle := by
  have hc := flip_ne s.pixelCycle
  unfold flashingColor
  simp only []
  split_ifs at hc ⊢ <;> exact ⟨rfl, rfl, rfl, rfl, rfl, rfl, rfl, hc⟩

/-- The renderer `emergency` touches `pixelCycle` alone among the phase
variables, and changes it. -/
theorem emergency_phase (color1 color2 wait : Nat) (s : State) :
    (emergency color1 color2 wait s).wipePixel = s.wipePixel ∧
    (emergency color1 color2 wait s).ledColorOff = s.ledColorOff ∧
    (emergency color1 color2 wait s).chasePixel = s.chasePixel ∧
    (emergency color1 color2 wait s).tricolorPixel = s.tricolorPixel ∧
    (emergency color1 color2 wait s).widthPixel = s.widthPixel ∧
    (emergency color1 color2 wait s).spacesPixel = s.spacesPixel ∧
    (emergency color1 color2 wait s).pixelQueue = s.pixelQueue ∧
    (emergency color1 color2 wait s).pixelCycle ≠ s.pixelCycle := by
  have hc := flip_ne s.pixelCycle
  unfold emergency
  simp only []
  split_ifs at hc ⊢ <;> exact ⟨rfl, rfl, rfl, rfl, rfl, rfl, rfl, hc⟩

/-- The renderer `alternatingBands` touches `pixelCycle` alone among the phase
variables, and changes it. -/
theorem alternatingBands_phase {fuel color1 color2 width wait : Nat} {s t : State}
    (h : alternatingBands fuel color1 color2 width wait s = some t) :
    t.wipePixel = s.wipePixel ∧ t.ledColorOff = s.ledColorOff ∧
    t.chasePixel = s.chasePixel ∧ t.tricolorPixel = s.tricolorPixel ∧
    t.widthPixel = s.widthPixel ∧ t.spacesPixel = s.spacesPixel ∧
    t.pixelQueue = s.pixelQueue ∧ t.pixelCycle ≠ s.pixelCycle := by
  have hc := flip_ne s.pixelCycle
  unfold alternatingBands at h
  simp only [] at h
  split_ifs at hc h <;>
  · obtain ⟨st, rfl⟩ := state_of_map h
    exact ⟨rfl, rfl, rfl, rfl, rfl, rfl, rfl, hc⟩

/-- Which phase variables one frame of the pattern table changes: each static
cursor, `pixelQueue` and `ledColorOff` are kept by every pattern but their one
owner; `pixelCycle` is kept by the patterns that do not use it and changed by
each pattern that does. -/
theorem renderFrame_phase {fuel : Nat} {s t : State} (h : renderFrame fuel s = some t)
    (hv : 1 ≤ s.pattern ∧ s.pattern ≤ TOTALPATTERNS) :
    (s.pattern ≠ 6 → t.wipePixel = s.wipePixel ∧ t.ledColorOff = s.ledColorOff) ∧
    (s.pattern ≠ 10 → t.chasePixel = s.chasePixel) ∧
    (s.pattern ≠ 3 → t.tricolorPixel = s.tricolorPixel) ∧
    (s.pattern ≠ 13 → t.widthPixel = s.widthPixel) ∧
    (s.pattern ≠ 7 → t.spacesPixel = s.spacesPixel) ∧
    (s.pattern ≠ 5 → t.pixelQueue = s.pixelQueue) ∧
    (usesPixelCycle s.pattern = false → t.pixelCycle = s.pixelCycle) ∧
    (usesPixelCycle s.pattern = true → t.pixelCycle ≠ s.pixelCycle) := by
  obtain ⟨r1, r2, r3, r4, r5, r6, r7, r8, r9, r10, r11, r12, r13⟩ :=
    renderFrame_of_pattern fuel s
  obtain ⟨hv1, hv2⟩ := hv
  unfold TOTALPATTERNS at hv2
  have hcases : s.pattern = 1 ∨ s.pattern = 2 ∨ s.pattern = 3 ∨ s.pattern = 4 ∨
      s.pattern = 5 ∨ s.pattern = 6 ∨ s.pattern = 7 ∨ s.pattern = 8 ∨ s.pattern = 9 ∨
      s.pattern = 10 ∨ s.pattern = 11 ∨ s.pattern = 12 ∨ s.pattern = 13 := by omega
  rcases hcases with hp | hp | hp | hp | hp | hp | hp | hp | hp | hp | hp | hp | hp
  · rw [r1 hp] at h; cases h; rw [hp]
    exact ⟨fun _ => ⟨rfl, rfl⟩, fun _ => rfl, fun _ => rfl, fun _ => rfl, fun _ => rfl,
      fun _ => rfl, fun _ => rfl, fun hx => absurd hx (by decide)⟩
  · rw [r2 hp] at h; cases h; rw [hp]
    exact ⟨fun _ => ⟨rfl, rfl⟩, fun _ => rfl, fun _ => rfl, fun _ => rfl, fun _ => rfl,
      fun _ => rfl, fun hx => absurd hx (by decide), fun _ => nextCycle_ne s.pixelCycle⟩
  · rw [r3 hp] at h; unfold theaterChaseTricolor at h
    obtain ⟨st, rfl⟩ := state_of_map h; rw [hp]
    exact ⟨fun _ => ⟨rfl, rfl⟩, fun _ => rfl, fun hx => absurd rfl hx, fun _ => rfl,
      fun _ => rfl, fun _ => rfl, fun _ => rfl, fun hx => absurd hx (by decide)⟩
  · rw [r4 hp] at h; cases h; rw [hp]
    exact ⟨fun _ => ⟨rfl, rfl⟩, fun _ => rfl, fun _ => rfl, fun _ => rfl, fun _ => rfl,
      fun _ => rfl, fun hx => absurd hx (by decide), fun _ => nextCycle_ne s.pixelCycle⟩
  · rw [r5 hp] at h; unfold theaterChaseRainbow at h
    obtain ⟨st, rfl⟩ := state_of_map h; rw [hp]
    exact ⟨fun _ => ⟨rfl, rfl⟩, fun _ => rfl, fun _ => rfl, fun _ => rfl, fun _ => rfl,
      fun hx => absurd rfl hx, fun hx => absurd hx (by decide),
      fun _ => nextCycle_ne s.pixelCycle⟩
  · rw [r6 hp] at h; cases h; rw [hp]
    exact ⟨fun hx => absurd rfl hx, fun _ => rfl, fun _ => rfl, fun _ => rfl, fun _ => rfl,
      fun _ => rfl, fun _ => rfl, fun hx => absurd hx (by decide)⟩
  · rw [r7 hp] at h; unfold theaterChaseTricolorSpaces at h
    obtain ⟨st, rfl⟩ := state_of_map h; rw [hp]
    exact ⟨fun _ => ⟨rfl, rfl⟩, fun _ => rfl, fun _ => rfl, fun _ => rfl,
      fun hx => absurd rfl hx, fun _ => rfl, fun _ => rfl, fun hx => absurd hx (by decide)⟩
  · rw [r8 hp] at h; cases h; rw [hp]
    exact ⟨fun _ => ⟨rfl, rfl⟩, fun _ => rfl, fun _ => rfl, fun _ => rfl, fun _ => rfl,
      fun _ => rfl, fun _ => rfl, fun hx => absurd hx (by decide)⟩
  · rw [r9 hp] at h; cases h; rw [hp]
    obtain ⟨q1, q2, q3, q4, q5, q6, q7, q8⟩ := flashingColor_phase (Strip.Color 255 255 255) 200 s
    exact ⟨fun _ => ⟨q1, q2⟩, fun _ => q3, fun _ => q4, fun _ => q5, fun _ => q6,
      fun _ => q7, fun hx => absurd hx (by decide), fun _ => q8⟩
  · rw [r10 hp] at h; unfold theaterChase at h
    obtain ⟨st, rfl⟩ := state_of_map h; rw [hp]
    exact ⟨fun _ => ⟨rfl, rfl⟩, fun hx => absurd rfl hx, fun _ => rfl, fun _ => rfl,
      fun _ => rfl, fun _ => rfl, fun _ => rfl, fun hx => absurd hx (by decide)⟩
  · rw [r11 hp] at h; cases h; rw [hp]
    obtain ⟨q1, q2, q3, q4, q5, q6, q7, q8⟩ :=
      emergency_phase (Strip.Color 255 0 0) (Strip.Color 0 0 255) 100 s
    exact ⟨fun _ => ⟨q1, q2⟩, fun _ => q3, fun _ => q4, fun _ => q5, fun _ => q6,
      fun _ => q7, fun hx => absurd hx (by decide), fun _ => q8⟩
  · rw [r12 hp] at h; rw [hp]
    obtain ⟨q1, q2, q3, q4, q5, q6, q7, q8⟩ := alternatingBands_phase h
    exact ⟨fun _ => ⟨q1, q2⟩, fun _ => q3, fun _ => q4, fun _ => q5, fun _ => q6,
      fun _ => q7, fun hx => absurd hx (by decide), fun _ => q8⟩
  · rw [r13 hp] at h; unfold theaterChaseTricolorWidth at h
    obtain ⟨st, rfl⟩ := state_of_map h; rw [hp]
    exact ⟨fun _ => ⟨rfl, rfl⟩, fun _ => rfl, fun _ => rfl, fun hx => absurd rfl hx,
      fun _ => rfl, fun _ => rfl, fun _ => rfl, fun hx => absurd hx (by decide)⟩

/-- One frame of pattern `B` keeps the phase state of another pattern `A`
exactly when `A` and `B` do not both use `pixelCycle`. -/
theorem frame_keeps_phase_iff {A B fuel : Nat} {s t : State}
    (hA : 1 ≤ A ∧ A ≤ TOTALPATTERNS) (hB : 1 ≤ B ∧ B ≤ TOTALPATTERNS) (hAB : A ≠ B)
    (hs : s.pattern = B) (h : renderFrame fuel s = some t) :
    phaseView A t = phaseView A s ↔
      ¬(usesPixelCycle A = true ∧ usesPixelCycle B = true) := by
  subst hs
  obtain ⟨f6, f10, f3, f13, f7, f5, fk, fc⟩ := renderFrame_phase h hB
  obtain ⟨hA1, hA2⟩ := hA
  unfold TOTALPATTERNS at hA2
  have own : ∀ x y : Nat, x = y →
      ((some x, none, none, none) : Option Nat × Option Int × Option Int × Option Bool)
        = (some y, none, none, none) := fun x y e => by rw [e]
  have cyc : (((none, some t.pixelCycle, none, none) :
        Option Nat × Option Int × Option Int × Option Bool)
        = (none, some s.pixelCycle, none, none)) ↔ usesPixelCycle s.pattern ≠ true := by
    constructor
    · intro e hb
      exact fc hb (Option.some.inj (congrArg (fun v => v.2.1) e))
    · intro hb
      rw [fk (Bool.eq_false_iff.mpr hb)]
  have hcases : A = 1 ∨ A = 2 ∨ A = 3 ∨ A = 4 ∨ A = 5 ∨ A = 6 ∨ A = 7 ∨ A = 8 ∨ A = 9 ∨
      A = 10 ∨ A = 11 ∨ A = 12 ∨ A = 13 := by omega
  rcases hcases with rfl | rfl | rfl | rfl | rfl | rfl | rfl | rfl | rfl | rfl | rfl | rfl | rfl
  · exact ⟨fun _ hc => absurd hc.1 (by decide), fun _ => rfl⟩
  · exact cyc.trans ⟨fun hb hc => hb hc.2, fun hc hb => hc ⟨by decide, hb⟩⟩
  · exact ⟨fun _ hc => absurd hc.1 (by decide), fun _ => own _ _ (f3 (Ne.symm hAB))⟩
  · exact cyc.trans ⟨fun hb hc => hb hc.2, fun hc hb => hc ⟨by decide, hb⟩⟩
  · constructor
    · intro e hc
      exact fc hc.2 (Option.some.inj (congrArg (fun v => v.2.1) e))
    · intro hc
      have hb : usesPixelCycle s.pattern = false :=
        Bool.eq_false_iff.mpr (fun hb => hc ⟨by decide, hb⟩)
      show (none, some t.pixelCycle, some t.pixelQueue, none)
        = (none, some s.pixelCycle, some s.pixelQueue, none)
      rw [fk hb, f5 (Ne.symm hAB)]
  · refine ⟨fun _ hc => absurd hc.1 (by decide), fun _ => ?_⟩
    show (some t.wipePixel, none, none, some t.ledColorOff)
      = (some s.wipePixel, none, none, some s.ledColorOff)
    rw [(f6 (Ne.symm hAB)).1, (f6 (Ne.symm hAB)).2]
  · exact ⟨fun _ hc => absurd hc.1 (by decide), fun _ => own _ _ (f7 (Ne.symm hAB))⟩
  · exact ⟨fun _ hc => absurd hc.1 (by decide), fun _ => rfl⟩
  · exact cyc.trans ⟨fun hb hc => hb hc.2, fun hc hb => hc ⟨by decide, hb⟩⟩
  · exact ⟨fun _ hc => absurd hc.1 (by decide), fun _ => own _ _ (f10 (Ne.symm hAB))⟩
  · exact cyc.trans ⟨fun hb hc => hb hc.2, fun hc hb => hc ⟨by decide, hb⟩⟩
  · exact cyc.trans ⟨fun hb hc => hb hc.2, fun hc hb => hc ⟨by decide, hb⟩⟩
  · exact ⟨fun _ hc => absurd hc.1 (by decide), fun _ => own _ _ (f13 (Ne.symm hAB))⟩

/-- With the strip length bounded as in `renderFrame_returns`, any number of
consecutive frames returns, and the frames change no control variable. -/
theorem renderFrames_returns (fuel : Nat) :
    ∀ (n : Nat) (s : State), s.pixelNumber + 18 ≤ 65536 → s.pixelNumber < fuel →
      ∃ u, renderFrames fuel n s = some u ∧ SameControl s u := by
  intro n
  induction n with
  | zero => intro s _ _; exact ⟨s, rfl, SameControl.refl s⟩
  | succ n ih =>
    intro s hN hfuel
    obtain ⟨t, ht⟩ := renderFrame_returns fuel s hN hfuel
    have hc := renderFrame_control ht
    obtain ⟨u, hu, hcu⟩ := ih t (by rw [hc.2.2.2.1]; exact hN) (by rw [hc.2.2.2.1]; exact hfuel)
    refine ⟨u, ?_, ?_⟩
    · show (renderFrame fuel s).bind (renderFrames fuel n) = some u
      rw [ht]; exact hu
    · obtain ⟨a1, a2, a3, a4, a5, a6, a7, a8, a9, a10, a11⟩ := hc
      obtain ⟨b1, b2, b3, b4, b5, b6, b7, b8, b9, b10, b11⟩ := hcu
      exact ⟨b1.trans a1, b2.trans a2, b3.trans a3, b4.trans a4, b5.trans a5, b6.trans a6,
        b7.trans a7, b8.trans a8, b9.trans a9, b10.trans a10, b11.trans a11⟩

/-- Any number of frames of pattern `B` keeps the phase state of another
pattern `A`, unless both use `pixelCycle`. -/
theorem renderFrames_keep_phase {A B fuel : Nat}
    (hA : 1 ≤ A ∧ A ≤ TOTALPATTERNS) (hB : 1 ≤ B ∧ B ≤ TOTALPATTERNS) (hAB : A ≠ B)
    (hdis : ¬(usesPixelCycle A = true ∧ usesPixelCycle B = true)) :
    ∀ (n : Nat) (s u : State), s.pattern = B → renderFrames fuel n s = some u →
      phaseView A u = phaseView A s := by
  intro n
  induction n with
  | zero => intro s u _ h; cases h; rfl
  | succ n ih =>
    intro s u hs h
    have h1 : (renderFrame fuel s).bind (renderFrames fuel n) = some u := h
    cases ht : renderFrame fuel s with
    | none => rw [ht] at h1; cases h1
    | some t =>
      rw [ht] at h1
      have hc := renderFrame_control ht
      rw [ih t u (hc.1.trans hs) h1]
      exact (frame_keeps_phase_iff hA hB hAB hs ht).mpr hdis

/-- What a frame of pattern `A` leaves on the strip and in its own phase state
depends only on the strip length, the strip it finds and its own phase state:
two states that agree on these give the same frame. -/
theorem renderFrame_reads_own_phase {A fuel : Nat} {s1 s2 : State}
    (hA : 1 ≤ A ∧ A ≤ TOTALPATTERNS) (h1 : s1.pattern = A) (h2 : s2.pattern = A)
    (hn : s1.pixelNumber = s2.pixelNumber) (hst : s1.strip = s2.strip)
    (hph : phaseView A s1 = phaseView A s2) :
    (renderFrame fuel s1).map (frameView A) = (renderFrame fuel s2).map (frameView A) := by
  obtain ⟨r1, r2, r3, r4, r5, r6, r7, r8, r9, r10, r11, r12, r13⟩ :=
    renderFrame_of_pattern fuel s1
  obtain ⟨q1, q2, q3, q4, q5, q6, q7, q8, q9, q10, q11, q12, q13⟩ :=
    renderFrame_of_pattern fuel s2
  obtain ⟨hA1, hA2⟩ := hA
  unfold TOTALPATTERNS at hA2
  have hcases : A = 1 ∨ A = 2 ∨ A = 3 ∨ A = 4 ∨ A = 5 ∨ A = 6 ∨ A = 7 ∨ A = 8 ∨ A = 9 ∨
      A = 10 ∨ A = 11 ∨ A = 12 ∨ A = 13 := by omega
  rcases hcases with rfl | rfl | rfl | rfl | rfl | rfl | rfl | rfl | rfl | rfl | rfl | rfl | rfl
  · rw [r1 h1, q1 h2]
    simp [frameView, phaseView, hst]
  · rw [r2 h1, q2 h2]
    simp only [phaseView, Prod.mk.injEq, Option.some.injEq, true_and, and_true] at hph
    simp [frameView, phaseView, rainbowFull, hst, hph]
  · rw [r3 h1, q3 h2]
    simp only [phaseView, Prod.mk.injEq, Option.some.injEq, true_and, and_true] at hph
    simp [frameView, phaseView, theaterChaseTricolor, Option.map_map, Function.comp_def,
      hst, hph, hn]
  · rw [r4 h1, q4 h2]
    simp only [phaseView, Prod.mk.injEq, Option.some.injEq, true_and, and_true] at hph
    simp [frameView, phaseView, rainbow, hst, hph, hn]
  · rw [r5 h1, q5 h2]
    simp only [phaseView, Prod.mk.injEq, Option.some.injEq, true_and, and_true] at hph
    simp [frameView, phaseView, theaterChaseRainbow, Option.map_map, Function.comp_def,
      hst, hph, hn]
  · rw [r6 h1, q6 h2]
    simp only [phaseView, Prod.mk.injEq, Option.some.injEq, true_and, and_true] at hph
    simp [frameView, phaseView, colorWipe, hst, hph, hn]
  · rw [r7 h1, q7 h2]
    simp only [phaseView, Prod.mk.injEq, Option.some.injEq, true_and, and_true] at hph
    simp [frameView, phaseView, theaterChaseTricolorSpaces, Option.map_map,
      Function.comp_def, hst, hph, hn]
  · rw [r8 h1, q8 h2]
    simp [frameView, phaseView, solidColor, hst, hn]
  · rw [r9 h1, q9 h2]
    simp only [phaseView, Prod.mk.injEq, Option.some.injEq, true_and, and_true] at hph
    simp only [flashingColor, hph, hst, hn]
    split_ifs <;> rfl
  · rw [r10 h1, q10 h2]
    simp only [phaseView, Prod.mk.injEq, Option.some.injEq, true_and, and_true] at hph
    simp [frameView, phaseView, theaterChase, Option.map_map, Function.comp_def,
      hst, hph, hn]
  · rw [r11 h1, q11 h2]
    simp only [phaseView, Prod.mk.injEq, Option.some.injEq, true_and, and_true] at hph
    simp only [emergency, hph, hst, hn]
    split_ifs <;> rfl
  · rw [r12 h1, q12 h2]
    simp only [phaseView, Prod.mk.injEq, Option.some.injEq, true_and, and_true] at hph
    simp only [alternatingBands, hph, hst, hn]
    split_ifs <;> simp [frameView, phaseView, Option.map_map, Function.comp_def]
  · rw [r13 h1, q13 h2]
    simp only [phaseView, Prod.mk.injEq, Option.some.injEq, true_and, and_true] at hph
    simp [frameView, phaseView, theaterChaseTricolorWidth, widthPass, Option.map_map,
      Function.comp_def, hst, hph, hn]

set_option maxRecDepth 100000 in
/-- C23, counterexample with A = 4 (`rainbow`) and B = 9 (`flashingColor`):
from the initial globals with pattern 4 selected, one frame of pattern 4
leaves `pixelCycle` at 1, so a second frame draws `Wheel 1` on pixel 0.  One
frame of pattern 9 in between sets `pixelCycle`, which pattern 4 reads, back
to 0, and the next frame of pattern 4 draws `Wheel 0` on pixel 0 instead. -/
theorem flashing_frame_changes_rainbow_phase :
    (renderFrame 100 { initState (EEPROM.ofList [4, 0, 0, 0]) with pattern := 4 }).map
      (phaseView 4) = some (none, some 1, none, none) ∧
    ((renderFrame 100 { initState (EEPROM.ofList [4, 0, 0, 0]) with pattern := 4 }).bind
      (fun t => renderFrame 100 { t with pattern := 9 })).map
      (phaseView 4) = some (none, some 0, none, none) ∧
    ((renderFrame 100 { initState (EEPROM.ofList [4, 0, 0, 0]) with pattern := 4 }).bind
      (renderFrame 100)).map (fun t => t.strip.pixels 0) = some (Wheel 1) ∧
    (((renderFrame 100 { initState (EEPROM.ofList [4, 0, 0, 0]) with pattern := 4 }).bind
      (fun t => renderFrame 100 { t with pattern := 9 })).bind
      (fun t => renderFrame 100 { t with pattern := 4 })).map
      (fun t => t.strip.pixels 0) = some (Wheel 0) ∧
    Wheel 1 ≠ Wheel 0 := by
  refine ⟨by decide, by decide, by decide, by decide, by decide⟩

/-- C23 as amended: the phase state is disjoint except for `pixelCycle`, which
the renderers of patterns 2, 4, 5, 9, 11 and 12 share.  For two distinct
patterns `A` and `B` of the table, a frame of `B` returns, and it leaves the
phase state that `A` reads or writes unchanged exactly when `A` and `B` do not
both use `pixelCycle` (when both do, the frame of `B` changes it).  When they
do not both use it, any number `n` of frames of `B` returns and leaves the
phase state of `A` unchanged, and the next frame of `A` is, on the strip and
on the phase state of `A`, the frame `A` would have produced from the state
before the frames of `B` on the pixel buffer it now finds. -/
theorem phase_state_disjoint_except_pixelCycle (A B fuel n : Nat) (s : State)
    (hA : 1 ≤ A ∧ A ≤ TOTALPATTERNS) (hB : 1 ≤ B ∧ B ≤ TOTALPATTERNS) (hAB : A ≠ B)
    (hs : s.pattern = B) (hN : s.pixelNumber + 18 ≤ 65536) (hfuel : s.pixelNumber < fuel) :
    (usesPixelCycle A = true ↔ A = 2 ∨ A = 4 ∨ A = 5 ∨ A = 9 ∨ A = 11 ∨ A = 12) ∧
    (∃ t, renderFrame fuel s = some t ∧
      (phaseView A t = phaseView A s ↔
        ¬(usesPixelCycle A = true ∧ usesPixelCycle B = true))) ∧
    (¬(usesPixelCycle A = true ∧ usesPixelCycle B = true) →
      ∃ u, renderFrames fuel n s = some u ∧ phaseView A u = phaseView A s ∧
        (renderFrame fuel { u with pattern := A }).map (frameView A) =
          (renderFrame fuel { s with pattern := A, strip := u.strip }).map (frameView A)) := by
  refine ⟨?_, ?_, ?_⟩
  · obtain ⟨hA1, hA2⟩ := hA
    unfold TOTALPATTERNS at hA2
    have hcases : A = 1 ∨ A = 2 ∨ A = 3 ∨ A = 4 ∨ A = 5 ∨ A = 6 ∨ A = 7 ∨ A = 8 ∨ A = 9 ∨
        A = 10 ∨ A = 11 ∨ A = 12 ∨ A = 13 := by omega
    rcases hcases with rfl | rfl | rfl | rfl | rfl | rfl | rfl | rfl | rfl | rfl | rfl |
      rfl | rfl <;> decide
  · obtain ⟨t, ht⟩ := renderFrame_returns fuel s hN hfuel
    exact ⟨t, ht, frame_keeps_phase_iff hA hB hAB hs ht⟩
  · intro hdis
    obtain ⟨u, hu, hc⟩ := renderFrames_returns fuel n s hN hfuel
    have hph := renderFrames_keep_phase hA hB hAB hdis n s u hs hu
    refine ⟨u, hu, hph, ?_⟩
    apply renderFrame_reads_own_phase hA rfl rfl
    · exact hc.2.2.2.1
    · rfl
    · have e1 : phaseView A { u with pattern := A } = phaseView A u := by
        unfold phaseView; split <;> rfl
      have e2 : phaseView A { s with pattern := A, strip := u.strip } = phaseView A s := by
        unfold phaseView; split <;> rfl
      rw [e1, e2, hph]

set_option maxRecDepth 100000 in
/-- Witness for C23 as amended, with A = 4 (`rainbow`, which uses `pixelCycle`)
and B = 6 (`colorWipe`, which does not): from the initial globals with
pattern 6 selected, three frames of pattern 6 return and leave the phase state
of pattern 4, `pixelCycle = 0`, as it was. -/
theorem phase_state_disjoint_except_pixelCycle_witness :
    phaseView 4 { initState (EEPROM.ofList [6, 0, 0, 0]) with pattern := 6 }
      = (none, some 0, none, none) ∧
    ∃ u, renderFrames 100 3 { initState (EEPROM.ofList [6, 0, 0, 0]) with pattern := 6 }
        = some u ∧
      phaseView 4 u
        = phaseView 4 { initState (EEPROM.ofList [6, 0, 0, 0]) with pattern := 6 } ∧
      (renderFrame 100 { u with pattern := 4 }).map (frameView 4) =
        (renderFrame 100 { ({ initState (EEPROM.ofList [6, 0, 0, 0]) with pattern := 6 } : State)
          with pattern := 4, strip := u.strip }).map (frameView 4) :=
  ⟨by decide,
   (phase_state_disjoint_except_pixelCycle 4 6 100 3
    { initState (EEPROM.ofList [6, 0, 0, 0]) with pattern := 6 }
    (by decide) (by decide) (by decide) rfl (by decide) (by decide)).2.2 (by decide)⟩

end NeoPixel
